import Mathlib

/-!
# Verification of the candidate-sheet merge engine (rec-cx-combine)

This file gives a shallow embedding of the core of `src/index.ts` of the
rec-cx-combine repository: the formula row shifter, the row template cloner,
the keyed upsert engine and the sheet formatting pass, together with proofs
settling the specification claims about them.

The worksheet model mirrors the ExcelJS surface actually used by the code:
cells addressed by (row, column), each holding a value, a style blob
(font / fill / border / alignment / number format) and an optional
data-validation rule.  `rowMax` / `colMax` play the role of
`worksheet.rowCount` / `worksheet.columnCount` (ExcelJS keeps
`actualRowCount ≤ rowCount`, so `Math.max(ws.rowCount, ws.actualRowCount)`
is modelled by `rowMax`).

JavaScript `Date` objects are modelled as a validity flag together with the
two string renderings the source code extracts from them (`String(d)` and
`d.toISOString()`); both are carried as data.  Row numbers inside formulas
are modelled as exact naturals (IEEE-754 rounding of absurdly large row
numbers is not modelled).
-/

namespace RecCx

/-- JS whitespace test used by `String.prototype.trim` / `\s` (ASCII part). -/
def isWsChar (c : Char) : Bool :=
  c = ' ' || c = '\t' || c = '\n' || c = '\r' || c = '\x0b' || c = '\x0c'

/-- `String.prototype.trim` over a character list. -/
def trimChars (l : List Char) : List Char :=
  ((l.dropWhile isWsChar).reverse.dropWhile isWsChar).reverse

/-- `s.trim()` as used by `safeStr`. -/
def jsTrim (s : String) : String :=
  ⟨trimChars s.data⟩

/-- A scalar value as it occurs in parsed records and literal cells:
string, number, boolean, or a JS `Date`.  A `Date` carries its validity
(`!isNaN(d.getTime())`) and the two renderings the source reads off it:
`String(d)` (`strRepr`) and `d.toISOString()` (`isoRepr`). -/
inductive Scalar where
  | str (v : String)
  | num (v : Int)
  | boolV (v : Bool)
  | date (valid : Bool) (strRepr : String) (isoRepr : String)
deriving DecidableEq, Repr

/-- `String(v)` for a scalar. An invalid `Date` prints as `"Invalid Date"`. -/
def scalarToJsString : Scalar → String
  | .str v => v
  | .num v => toString v
  | .boolV true => "true"
  | .boolV false => "false"
  | .date true s _ => s
  | .date false _ _ => "Invalid Date"

/-- JS truthiness of a scalar (`if (incomingJR)`): empty string, zero and
`false` are falsy; any `Date` object is truthy. -/
def scalarTruthy : Scalar → Bool
  | .str v => v ≠ ""
  | .num v => v ≠ 0
  | .boolV b => b
  | .date _ _ _ => true

/-- `safeStr` from the source: `null`/`undefined` become `""`, anything else
is `String(v).trim()`. -/
def safeStr : Option Scalar → String
  | none => ""
  | some v => jsTrim (scalarToJsString v)

/-- An ExcelJS `CellValue` as far as the source distinguishes them:
`null`, a scalar, a formula object `{formula, result?}`, a rich-text
object, or a text-carrying object such as a hyperlink. -/
inductive CellVal where
  | empty
  | scal (v : Scalar)
  | formula (f : String) (result : Option Scalar)
  | rich (parts : List String)
  | textObj (text : String)
deriving DecidableEq, Repr

/-- `excelCellValueToString` from the source. -/
def excelCellValueToString : CellVal → String
  | .empty => ""
  | .scal (.str s) => jsTrim s
  | .scal (.num n) => jsTrim (toString n)
  | .scal (.boolV b) => jsTrim (scalarToJsString (.boolV b))
  | .scal (.date true _ iso) => jsTrim iso
  | .scal (.date false _ _) => ""
  | .textObj t => jsTrim t
  | .formula _ (some (.str s)) => jsTrim s
  | .formula _ (some (.num n)) => jsTrim (toString n)
  | .formula _ (some (.date true _ iso)) => jsTrim iso
  | .formula _ (some (.date false _ _)) => ""
  | .formula _ (some (.boolV _)) => ""
  | .formula _ none => ""
  | .rich parts => jsTrim (String.join parts)

/-- `cloneCellValue` on cell values: a valid `Date` is rebuilt from its
timestamp (same value), an invalid `Date` becomes `null`; objects go
through `structuredClone` (value-identical); primitives are returned. -/
def cloneCellValue : CellVal → CellVal
  | .scal (.date false _ _) => .empty
  | v => v

/-- One item of a data-validation `formulae` array: a string or a `Date`. -/
inductive DVItem where
  | str (s : String)
  | dateLit (iso : String)
deriving DecidableEq, Repr

/-- An ExcelJS data-validation rule, restricted to the fields the source
reads or writes. -/
structure DVRule where
  type : String
  operator : Option String := none
  showErrorMessage : Option Bool := none
  errorTitle : Option String := none
  error : Option String := none
  allowBlank : Option Bool := none
  formulae : List DVItem := []
deriving DecidableEq, Repr

/-- An ExcelJS font blob.  `other` stands for the remaining font properties
preserved by the object-spread in the formatting pass. -/
structure Font where
  bold : Option Bool := none
  size : Option Nat := none
  color : Option String := none
  other : Option String := none
deriving DecidableEq, Repr

structure BorderEdge where
  style : String
  colorArgb : String
deriving DecidableEq, Repr

structure BorderSet where
  top : Option BorderEdge := none
  bottom : Option BorderEdge := none
  left : Option BorderEdge := none
  right : Option BorderEdge := none
deriving DecidableEq, Repr

structure Fill where
  type : String
  pattern : String
  fgColorArgb : String
deriving DecidableEq, Repr

structure CellAlignment where
  vertical : Option String := none
  horizontal : Option String := none
  wrapText : Option Bool := none
deriving DecidableEq, Repr

/-- An ExcelJS cell style: number format, font, border, fill, alignment.
(`cell.numFmt`, `cell.font`, … are accessors into this blob.) -/
structure Style where
  numFmt : Option String := none
  font : Option Font := none
  border : Option BorderSet := none
  fill : Option Fill := none
  alignment : Option CellAlignment := none
deriving DecidableEq, Repr

def defaultStyle : Style := {}

/-- A worksheet cell: value, style, optional data-validation rule. -/
structure Cell where
  value : CellVal := .empty
  style : Style := defaultStyle
  dataValidation : Option DVRule := none
deriving DecidableEq, Repr

def defaultCell : Cell := {}

/-- A frozen-pane view entry (`ws.views`). -/
structure SheetView where
  state : String
  ySplit : Nat
deriving DecidableEq, Repr

/-- The worksheet (Grid): a finite cell store plus the ExcelJS bookkeeping
the source reads (`rowCount`, `columnCount`, column widths, row heights,
views, autofilter). -/
structure Sheet where
  cells : List ((Nat × Nat) × Cell) := []
  rowMax : Nat := 0
  colMax : Nat := 0
  colWidths : List (Nat × Nat) := []
  rowHeights : List (Nat × Nat) := []
  views : List SheetView := []
  autoFilter : Option (String × String) := none
deriving DecidableEq, Repr

/-- Replace the first entry with the given key, or append a new one.
This is both the cell-store update and JS `Map.prototype.set`. -/
def updateAssoc [DecidableEq κ] (k : κ) (f : Option ν → ν) : List (κ × ν) → List (κ × ν)
  | [] => [(k, f none)]
  | e :: rest => if e.1 = k then (k, f (some e.2)) :: rest else e :: updateAssoc k f rest

/-- First-match lookup (JS `Map.prototype.get` / object property read). -/
def lookupAssoc [DecidableEq κ] (k : κ) : List (κ × ν) → Option ν
  | [] => none
  | e :: rest => if e.1 = k then some e.2 else lookupAssoc k rest

def Sheet.findCell (ws : Sheet) (r c : Nat) : Option Cell :=
  lookupAssoc (r, c) ws.cells

/-- `ws.getCell(r, c)`: an absent cell reads as a fresh empty cell. -/
def Sheet.getCell (ws : Sheet) (r c : Nat) : Cell :=
  (ws.findCell r c).getD defaultCell

/-- Update (or create) the cell at (r, c), extending the row/column counts
exactly as ExcelJS does when a cell is written. -/
def Sheet.putCell (ws : Sheet) (r c : Nat) (f : Cell → Cell) : Sheet :=
  { ws with
    cells := updateAssoc (r, c) (fun old => f (old.getD defaultCell)) ws.cells
    rowMax := max ws.rowMax r
    colMax := max ws.colMax c }

def Sheet.setValue (ws : Sheet) (r c : Nat) (v : CellVal) : Sheet :=
  ws.putCell r c (fun cell => { cell with value := v })

def Sheet.setNumFmt (ws : Sheet) (r c : Nat) (fmt : String) : Sheet :=
  ws.putCell r c (fun cell => { cell with style := { cell.style with numFmt := some fmt } })

def Sheet.setDV (ws : Sheet) (r c : Nat) (dv : DVRule) : Sheet :=
  ws.putCell r c (fun cell => { cell with dataValidation := some dv })

def Sheet.setStyle (ws : Sheet) (r c : Nat) (st : Style) : Sheet :=
  ws.putCell r c (fun cell => { cell with style := st })

def Sheet.setBorder (ws : Sheet) (r c : Nat) (b : BorderSet) : Sheet :=
  ws.putCell r c (fun cell => { cell with style := { cell.style with border := some b } })

def Sheet.setFill (ws : Sheet) (r c : Nat) (fl : Fill) : Sheet :=
  ws.putCell r c (fun cell => { cell with style := { cell.style with fill := some fl } })

def Sheet.setAlignment (ws : Sheet) (r c : Nat) (a : CellAlignment) : Sheet :=
  ws.putCell r c (fun cell => { cell with style := { cell.style with alignment := some a } })

def Sheet.updateFont (ws : Sheet) (r c : Nat) (f : Option Font → Font) : Sheet :=
  ws.putCell r c (fun cell => { cell with style := { cell.style with font := some (f cell.style.font) } })

/-- `ws.spliceColumns(keep + 1, ws.columnCount - keep)`: drop every cell and
column definition beyond column `keep` (the removed range is the trailing
one, so no column shifting occurs). -/
def Sheet.spliceTailColumns (ws : Sheet) (keep : Nat) : Sheet :=
  { ws with
    cells := ws.cells.filter (fun e => e.1.2 ≤ keep)
    colWidths := ws.colWidths.filter (fun e => e.1 ≤ keep)
    colMax := keep }

def Sheet.setColWidth (ws : Sheet) (c w : Nat) : Sheet :=
  { ws with colWidths := updateAssoc c (fun _ => w) ws.colWidths }

def Sheet.setRowHeight (ws : Sheet) (r h : Nat) : Sheet :=
  { ws with rowHeights := updateAssoc r (fun _ => h) ws.rowHeights }

/-- Counter well-formedness: every stored cell lies inside the
`rowCount`/`columnCount` bookkeeping, as ExcelJS maintains. -/
def Sheet.WF (ws : Sheet) : Prop :=
  ∀ e ∈ ws.cells, e.1.1 ≤ ws.rowMax ∧ e.1.2 ≤ ws.colMax

/-- An incoming record: an object mapping column names to scalar values. -/
abbrev Rec := List (String × Scalar)

/-- `row[h]` (JS object property read; `none` is `undefined`). -/
def recGet (row : Rec) (h : String) : Option Scalar :=
  lookupAssoc h row

-- =========================
-- CONFIG (source constants)
-- =========================

def SHEET_CANDIDATE : String := "candidate_master"

def CANDIDATE_KEY : String := "รหัสบัตรประชาชน"

def JR_NO_ALIAS : String := "JR No."

def CANDIDATE_BASE_COLS : List String :=
  ["คำนำหน้าชื่อ", "ชื่อ (ไทย)", "สกุล (ไทย)", "ชื่อ (อังกฤษ)",
   "สกุล (อังกฤษ)", "ชื่อเล่น", "รหัสบัตรประชาชน", "วันเกิด",
   "เบอร์ติดต่อ", "email"]

def CANDIDATE_OUTPUT_HEADER_ORDER : List String :=
  ["คำนำหน้าชื่อ", "ชื่อ (ไทย)", "สกุล (ไทย)", "ชื่อ (อังกฤษ)",
   "สกุล (อังกฤษ)", "ชื่อเล่น", "รหัสบัตรประชาชน", "วันเกิด",
   "เบอร์ติดต่อ", "email", "JR No.", "หน่วยธุรกิจ/BU",
   "ตำแหน่งที่ขอรับ/Requested Position", "ประเภทการจ้าง/Employment Category",
   "ระดับ/Level", "ผู้รับผิดชอบ/Manage by", "สถานะล่าสุด/Latest status",
   "วันที่อัพเดทสถานะล่าสุด/Date Latest status", "สร้างโดย/Created by",
   "วันที่สร้าง/Date", "Candidate Status", "Shortlist", "1st round interview",
   "2nd round interview", "Final round interview", "Offering เสนอผลประโยชน์",
   "Hiring", "Onboarding", "Channel", "Turndown Reason", "Turndown Date",
   "Resume", "SLA by Level", "SLA (Shortlist)", "SLA (Interview)",
   "SLA (Offering)", "SLA (Hiring)", "SLA (Onboarding)"]

def CANDIDATE_MAX_COLUMNS : Nat := 38

def CANDIDATE_WIDTH : Nat := 24

def HEADER_COLOR_A_J : String := "FF1CBBD8"

def HEADER_COLOR_K_V_AF : String := "FF5387D9"

def HEADER_COLOR_L_U_AG_AL : String := "FFFED243"

/-- `normalizeHeader`: strip BOM characters, collapse whitespace runs to a
single space, trim.  The fuel (initially the input length, which each step
strictly exceeds the length consumed) makes the recursion structural. -/
def collapseWsGo : Nat → List Char → List Char
  | 0, _ => []
  | _, [] => []
  | fuel + 1, c :: rest =>
    if isWsChar c then
      ' ' :: collapseWsGo fuel (rest.dropWhile isWsChar)
    else
      c :: collapseWsGo fuel rest

def collapseWs (l : List Char) : List Char := collapseWsGo l.length l

def normalizeHeader (h : String) : String :=
  jsTrim ⟨collapseWs (h.data.filter (fun c => c ≠ '﻿'))⟩

-- =========================
-- Formula Reference Shifter
-- =========================

/-- Character classes of the reference regex
`/(?<![A-Z0-9_])(\$?[A-Z]{1,3})(\$?)(\d+)(?![A-Z0-9_])/gi`. -/
def isRefLetter (c : Char) : Bool :=
  ('A' ≤ c && c ≤ 'Z') || ('a' ≤ c && c ≤ 'z')

def isDigitCh (c : Char) : Bool :=
  '0' ≤ c && c ≤ '9'

/-- The boundary class `[A-Z0-9_]` (case-insensitive). -/
def isBoundaryCh (c : Char) : Bool :=
  isRefLetter c || isDigitCh c || c = '_'

/-- `Number(rowStr)` on a digit run. -/
def digitsToNat (ds : List Char) : Nat :=
  ds.foldl (fun n c => n * 10 + (c.toNat - '0'.toNat)) 0

/-- Consume an optional leading `$` (the greedy `\$?`). -/
def stripDollar : List Char → Bool × List Char
  | [] => (false, [])
  | c :: t => if c = '$' then (true, t) else (false, c :: t)

/-- Attempt the reference pattern at the head of `s` (lookbehind is the
caller's duty).  Greedy matching of `\$?[A-Z]{1,3}\$?\d+` with the regex
engine's backtracking collapses to: optional `$`, a letter run of length
1–3 (a longer run cannot match since the letter and digit classes are
disjoint), optional `$`, a nonempty digit run, then the negative
lookahead. Returns (column `$`, letters, row `$`, digits, rest). -/
def tryMatch (s : List Char) : Option (Bool × List Char × Bool × List Char × List Char) :=
  let colD := (stripDollar s).1
  let s1 := (stripDollar s).2
  let letters := s1.takeWhile isRefLetter
  let s2 := s1.drop letters.length
  let rowD := (stripDollar s2).1
  let s3 := (stripDollar s2).2
  let ds := s3.takeWhile isDigitCh
  let rest := s3.drop ds.length
  if letters.length = 0 || 3 < letters.length || ds.length = 0 then none
  else
    match rest with
    | [] => some (colD, letters, rowD, ds, [])
    | c :: cs => if isBoundaryCh c then none else some (colD, letters, rowD, ds, c :: cs)

def dollarChars (b : Bool) : List Char :=
  if b then ['$'] else []

/-- The replacement for a matched reference: `colRef + rowAbs + next` where
`next = rowAbs === "$" ? row : row + rowDelta`. -/
def shiftDigits (rowDelta : Int) (rowD : Bool) (ds : List Char) : List Char :=
  if rowD then (toString (digitsToNat ds)).data
  else (toString ((digitsToNat ds : Int) + rowDelta)).data

/-- Fuel-driven scan of `formula.replace(regex, …)`: at each position whose
preceding character is outside the boundary class, try the pattern; on a
match emit the rewritten reference and continue after it (the last matched
character is a digit, so the next position is lookbehind-blocked), else
copy one character. -/
def shiftGo (rowDelta : Int) : Nat → Bool → List Char → List Char
  | 0, _, s => s
  | _ + 1, _, [] => []
  | fuel + 1, prevB, c :: cs =>
    if prevB then c :: shiftGo rowDelta fuel (isBoundaryCh c) cs
    else
      match tryMatch (c :: cs) with
      | some (colD, letters, rowD, ds, rest) =>
        dollarChars colD ++ letters ++ dollarChars rowD ++
          shiftDigits rowDelta rowD ds ++ shiftGo rowDelta fuel true rest
      | none => c :: shiftGo rowDelta fuel (isBoundaryCh c) cs

/-- `shiftFormulaRows` from the source. -/
def shiftFormulaRows (formula : String) (rowDelta : Int) : String :=
  ⟨shiftGo rowDelta formula.data.length false formula.data⟩

-- =========================
-- Row Template Cloner
-- =========================

/-- One column of the row-template clone: copy style, copy data-validation
when present, then write the value (null in the reset range, a shifted
formula for formula-backed cells, a deep copy otherwise). -/
def cloneStep (fromRow toRow : Nat) (acc : Sheet) (c : Nat) : Sheet :=
  let src := acc.getCell fromRow c
  let acc1 := acc.setStyle toRow c src.style
  let acc2 :=
    match src.dataValidation with
    | some dv => acc1.setDV toRow c dv
    | none => acc1
  if 22 ≤ c ∧ c ≤ 31 then acc2.setValue toRow c .empty
  else
    match src.value with
    | .formula f _ =>
      acc2.setValue toRow c (.formula (shiftFormulaRows f ((toRow : Int) - (fromRow : Int))) none)
    | sv => acc2.setValue toRow c (cloneCellValue sv)

/-- `cloneCandidateRowTemplate(ws, fromRow, toRow, maxCol)`.  Reads are from
the live (already partially written) sheet, exactly as the source does. -/
def cloneCandidateRowTemplate (ws : Sheet) (fromRow toRow maxCol : Nat) : Sheet :=
  (List.range' 1 maxCol).foldl (cloneStep fromRow toRow) ws

-- =========================
-- Keyed Upsert Engine
-- =========================

/-- The `IFERROR(VLOOKUP($K<r>,JR_Detail!$A:$O,<idx>,0),"")` formulas. -/
def vlkFormula (r idx : Nat) : String :=
  "IFERROR(VLOOKUP($K" ++ toString r ++ ",JR_Detail!$A:$O," ++ toString idx ++ ",0),\"\")"

def statusFormula (r : Nat) : String :=
  "IF(AD" ++ toString r ++ "<>\"\", \"Turndown\", IFERROR(LOOKUP(2, 1/(V" ++ toString r ++
    ":AB" ++ toString r ++ "<>\"\"), V$1:AB$1), \"\"))"

def slaLevelFormula (r : Nat) : String :=
  "IF(OR(ISNUMBER(SEARCH(\"Collector\", M" ++ toString r ++ ")), ISNUMBER(SEARCH(\"Underwriting\", M" ++
    toString r ++ ")), ISNUMBER(SEARCH(\"Contact Center\", M" ++ toString r ++
    "))), 30, IF(OR(O" ++ toString r ++ "=\"Chief\", O" ++ toString r ++
    "=\"Head of\"), 90, IF(OR(O" ++ toString r ++ "=\"Team lead\", O" ++ toString r ++
    "=\"Senior Professional\", O" ++ toString r ++ "=\"Expert\"), 60, IF(OR(O" ++ toString r ++
    "=\"Professional\", O" ++ toString r ++ "=\"Support\"), 45, 0))))"

def slaDiffFormula (colA colT : String) (r : Nat) : String :=
  "IF(" ++ colA ++ toString r ++ "<>\"\", IFERROR(VALUE(" ++ colA ++ toString r ++
    ")-VALUE(" ++ colT ++ toString r ++ "), \"\"), \"\")"

def slaInterviewFormula (r : Nat) : String :=
  "IF(Y" ++ toString r ++ "<>\"\", IFERROR(VALUE(Y" ++ toString r ++ ")-VALUE(T" ++ toString r ++
    "), \"\"), IF(X" ++ toString r ++ "<>\"\", IFERROR(VALUE(X" ++ toString r ++ ")-VALUE(T" ++
    toString r ++ "), \"\"), IF(W" ++ toString r ++ "<>\"\", IFERROR(VALUE(W" ++ toString r ++
    ")-VALUE(T" ++ toString r ++ "), \"\"), \"\")))"

def dvDateEntry : DVRule :=
  { type := "date", operator := some "greaterThan", showErrorMessage := some true,
    errorTitle := some "Date Only", error := some "กรุณากรอกวันที่ (วว/ดด/ปปปป)",
    formulae := [.dateLit "2020-01-01"] }

def dvChannelList : DVRule :=
  { type := "list", allowBlank := some true,
    formulae := [.str "\"LinkedIn,JobThai,Referral,Agency,Walk-in\""] }

def dvTurndownReasonList : DVRule :=
  { type := "list", allowBlank := some true,
    formulae := [.str "\"Salary,Counter Offer,Culture Fit,Ghosting,Skill Mismatch,Other\""] }

def dvTurndownDate : DVRule :=
  { type := "date", operator := some "greaterThan", showErrorMessage := some true,
    errorTitle := some "Date Only", error := some "กรุณากรอกวันที่ Turndown",
    formulae := [.dateLit "2020-01-01"] }

/-- The base-column write value: `val = row[b.h]; if (val instanceof Date &&
isNaN(val.getTime())) val = ""; cell.value = val ?? ""`. -/
def baseWriteVal (v : Option Scalar) : CellVal :=
  match v with
  | none => .scal (.str "")
  | some (.date false _ _) => .scal (.str "")
  | some s => .scal s

/-- One cell-targeted assignment: `cell.value = v`, `cell.numFmt = s`, or
`cell.dataValidation = rule`. -/
inductive WriteOp where
  | val (c : Nat) (v : CellVal)
  | fmt (c : Nat) (s : String)
  | dv (c : Nat) (rule : DVRule)
deriving DecidableEq, Repr

def WriteOp.col : WriteOp → Nat
  | .val c _ => c
  | .fmt c _ => c
  | .dv c _ => c

def applyWriteOp (r : Nat) (ws : Sheet) (op : WriteOp) : Sheet :=
  match op with
  | .val c v => ws.setValue r c v
  | .fmt c s => ws.setNumFmt r c s
  | .dv c rule => ws.setDV r c rule

/-- The assignments performed on the target row of every processed record,
in source order (section "CASE 2": A. base data, C. re-derived formulas
and number formats, D. data validation). -/
def case2Ops (rec : Rec) (baseColsInfo : List (String × Nat)) (r : Nat) : List WriteOp :=
  baseColsInfo.map (fun b => .val b.2 (baseWriteVal (recGet rec b.1)))
  ++ [.val 12 (.formula (vlkFormula r 2) none),
      .val 13 (.formula (vlkFormula r 3) none),
      .val 14 (.formula (vlkFormula r 4) none),
      .val 15 (.formula (vlkFormula r 5) none),
      .val 16 (.formula (vlkFormula r 11) none),
      .val 17 (.formula (vlkFormula r 12) none),
      .val 18 (.formula (vlkFormula r 13) none), .fmt 18 "yyyy-mm-dd",
      .val 19 (.formula (vlkFormula r 14) none),
      .val 20 (.formula (vlkFormula r 15) none), .fmt 20 "yyyy-mm-dd",
      .val 21 (.formula (statusFormula r) none),
      .val 33 (.formula (slaLevelFormula r) none), .fmt 33 "0",
      .val 34 (.formula (slaDiffFormula "V" "T" r) none), .fmt 34 "0",
      .val 35 (.formula (slaInterviewFormula r) none), .fmt 35 "0",
      .val 36 (.formula (slaDiffFormula "Z" "T" r) none), .fmt 36 "0",
      .val 37 (.formula (slaDiffFormula "AA" "T" r) none), .fmt 37 "0",
      .val 38 (.formula (slaDiffFormula "AB" "T" r) none), .fmt 38 "0"]
  ++ ((List.range' 22 7).map (fun c => [WriteOp.dv c dvDateEntry, WriteOp.fmt c "yyyy-mm-dd"])).flatten
  ++ [.dv 29 dvChannelList, .dv 30 dvTurndownReasonList,
      .dv 31 dvTurndownDate, .fmt 31 "yyyy-mm-dd"]

/-- The writes performed on a target row for every processed record
(section "CASE 2" of the source: base data, re-derived formulas, number
formats and data validation). -/
def applyExistingRowWrites (rec : Rec) (baseColsInfo : List (String × Nat)) (r : Nat)
    (ws : Sheet) : Sheet :=
  (case2Ops rec baseColsInfo r).foldl (applyWriteOp r) ws

/-- The effect of one assignment on the cell at column `c` of the target
row. -/
def applyWriteOpCell (c : Nat) (cell : Cell) (op : WriteOp) : Cell :=
  match op with
  | .val c2 v => if c2 = c then { cell with value := v } else cell
  | .fmt c2 s => if c2 = c then { cell with style := { cell.style with numFmt := some s } } else cell
  | .dv c2 rule => if c2 = c then { cell with dataValidation := some rule } else cell

/-- The last `value` assigned to column `c` by an op list, if any. -/
def lastValWrite (c : Nat) (ops : List WriteOp) : Option CellVal :=
  ops.foldl (fun acc op => match op with | .val c2 v => if c2 = c then some v else acc | _ => acc) none

/-- The last number format assigned to column `c` by an op list, if any. -/
def lastFmtWrite (c : Nat) (ops : List WriteOp) : Option String :=
  ops.foldl (fun acc op => match op with | .fmt c2 s => if c2 = c then some s else acc | _ => acc) none

/-- The last data-validation rule assigned to column `c` by an op list. -/
def lastDVWrite (c : Nat) (ops : List WriteOp) : Option DVRule :=
  ops.foldl (fun acc op => match op with | .dv c2 rule => if c2 = c then some rule else acc | _ => acc) none

/-- The record-loop state of the upsert engine. -/
structure UpState where
  ws : Sheet
  keyToRow : List (String × Nat)
  lastDataRow : Nat
deriving Repr

/-- `for (let c = 22; c <= 31; c++) ws.getCell(targetRow, c).value = null`. -/
def resetRangeNulls (t : Nat) (ws : Sheet) : Sheet :=
  (List.range' 22 10).foldl (fun acc c => acc.setValue t c .empty) ws

/-- `const incomingJR = row[JR_NO_ALIAS]; if (incomingJR)
ws.getCell(targetRow, 11).value = incomingJR`. -/
def writeJRNo (rec : Rec) (t : Nat) (ws : Sheet) : Sheet :=
  match recGet rec JR_NO_ALIAS with
  | some v => if scalarTruthy v then ws.setValue t 11 (.scal v) else ws
  | none => ws

/-- The new-row allocation (section "CASE 1" of the source): clone the
template when there is one, null the reset range, write `JR No.`,
register the key, advance the cursor. -/
def allocNewRow (maxCol : Nat) (st : UpState) (rec : Rec) (key : String) : UpState :=
  let t := st.lastDataRow + 1
  let ws0 := if 2 ≤ st.lastDataRow then cloneCandidateRowTemplate st.ws st.lastDataRow t maxCol else st.ws
  let ws1 := resetRangeNulls t ws0
  let ws2 := writeJRNo rec t ws1
  { ws := ws2, keyToRow := updateAssoc key (fun _ => t) st.keyToRow, lastDataRow := t }

/-- Processing of one incoming record (the body of the `for (const row of
incoming)` loop). -/
def processRecord (baseColsInfo : List (String × Nat)) (maxCol : Nat)
    (st : UpState) (rec : Rec) : UpState :=
  let key := safeStr (recGet rec CANDIDATE_KEY)
  if key = "" then st
  else
    let st1 :=
      match lookupAssoc key st.keyToRow with
      | some _ => st
      | none => allocNewRow maxCol st rec key
    let targetRow :=
      match lookupAssoc key st.keyToRow with
      | some r => r
      | none => st.lastDataRow + 1
    { st1 with ws := applyExistingRowWrites rec baseColsInfo targetRow st1.ws }

/-- The state produced by the key-index scan (step 3 of the engine). -/
structure ScanState where
  keyToRow : List (String × Nat)
  lastDataRow : Nat
deriving Repr

/-- The body of the scan loop over existing rows. -/
def scanRow (ws : Sheet) (keyCol : Nat) (baseColsInfo : List (String × Nat))
    (st : ScanState) (r : Nat) : ScanState :=
  let key := excelCellValueToString (ws.getCell r keyCol).value
  let hasBaseData := baseColsInfo.any (fun b => excelCellValueToString (ws.getCell r b.2).value ≠ "")
  { keyToRow := if key ≠ "" then updateAssoc key (fun _ => r) st.keyToRow else st.keyToRow
    lastDataRow := if key ≠ "" || hasBaseData then r else st.lastDataRow }

/-- The key-index scan over rows `2 .. max(rowCount, actualRowCount)`. -/
def scanSheet (ws : Sheet) (keyCol : Nat) (baseColsInfo : List (String × Nat)) : ScanState :=
  (List.range' 2 (ws.rowMax - 1)).foldl (scanRow ws keyCol baseColsInfo)
    { keyToRow := [], lastDataRow := 1 }

/-- The column-index lookup built from the (normalized) header names. -/
def buildColByHeader (headerOrder : List String) (maxCol : Nat) : List (String × Nat) :=
  (List.range' 1 maxCol).foldl
    (fun m c =>
      let h := normalizeHeader (headerOrder.getD (c - 1) "")
      if h = "" then m else updateAssoc h (fun _ => c) m)
    []

def candBaseColsInfo (colByHeader : List (String × Nat)) : List (String × Nat) :=
  CANDIDATE_BASE_COLS.filterMap (fun h => (lookupAssoc h colByHeader).map (fun c => (h, c)))

/-- Step 1 of the engine: write/refresh the header row from `headerOrder`
(truncated to `maxCol`). -/
def writeHeaderRow (headerOrder : List String) (maxCol : Nat) (ws : Sheet) : Sheet :=
  (List.range' 1 maxCol).foldl
    (fun acc c => acc.setValue 1 c (.scal (.str (headerOrder.getD (c - 1) "")))) ws

/-- Steps 1–2 of the engine: header write, then column truncation when the
sheet is wider than `maxCol`. -/
def headerAndTruncate (headerOrder : List String) (maxCol : Nat) (ws : Sheet) : Sheet :=
  let ws1 := writeHeaderRow headerOrder maxCol ws
  if maxCol < ws1.colMax then ws1.spliceTailColumns maxCol else ws1

/-- `upsertCandidateSheetWithExcelJS(ws, incoming, headerOrder)`.  The
returned sheet is the worksheet state when the function returns or throws
(a thrown error leaves the mutations made so far in place). -/
def upsertCandidateSheetWithExcelJS (ws : Sheet) (incoming : List Rec)
    (headerOrder : List String) : Except String Nat × Sheet :=
  let maxCol := min CANDIDATE_MAX_COLUMNS headerOrder.length
  if maxCol = 0 then (.ok 1, ws)
  else
    let ws2 := headerAndTruncate headerOrder maxCol ws
    let colByHeader := buildColByHeader headerOrder maxCol
    match lookupAssoc CANDIDATE_KEY colByHeader with
    | none =>
      (.error ("ไม่พบคอลัมน์ key \"" ++ CANDIDATE_KEY ++ "\" ใน " ++ SHEET_CANDIDATE), ws2)
    | some keyCol =>
      let baseColsInfo := candBaseColsInfo colByHeader
      let scanned := scanSheet ws2 keyCol baseColsInfo
      let final := incoming.foldl (processRecord baseColsInfo maxCol)
        { ws := ws2, keyToRow := scanned.keyToRow, lastDataRow := scanned.lastDataRow }
      (.ok final.lastDataRow, final.ws)

-- =========================
-- Sheet Formatting Pass
-- =========================

def thinBorder : BorderSet :=
  { top := some { style := "thin", colorArgb := "FF000000" }
    bottom := some { style := "thin", colorArgb := "FF000000" }
    left := some { style := "thin", colorArgb := "FF000000" }
    right := some { style := "thin", colorArgb := "FF000000" } }

def headerFill (argb : String) : Fill :=
  { type := "pattern", pattern := "solid", fgColorArgb := argb }

/-- `fillHeader(from, to, argb)` (capped at `maxCol`). -/
def fillHeaderRange (maxCol fromC toC : Nat) (argb : String) (ws : Sheet) : Sheet :=
  (List.range' fromC (min toC maxCol + 1 - fromC)).foldl
    (fun acc c => acc.setFill 1 c (headerFill argb)) ws

def WHITE_ARGB : String := "FFFFFFFF"

def BLACK_ARGB : String := "FF000000"

def headerFontColorByCol (col : Nat) : String :=
  if (1 ≤ col ∧ col ≤ 10) ∨ col = 11 ∨ (22 ≤ col ∧ col ≤ 32) then WHITE_ARGB else BLACK_ARGB

/-- Bijective base-26 column letters (`ws.getColumn(n).letter`); `n = 0`
has no defined letter in ExcelJS (the source never reaches it on a
non-empty sheet). -/
def colLetterAux : Nat → Nat → String
  | 0, _ => ""
  | _ + 1, 0 => ""
  | fuel + 1, n =>
    colLetterAux fuel ((n - 1) / 26) ++ String.singleton (Char.ofNat ('A'.toNat + (n - 1) % 26))

def colLetter (n : Nat) : String :=
  colLetterAux n n

/-- `applyCandidateFormattingWithExcelJS(ws, lastRow)`.  The `.error` case
is the `TypeError` thrown by `ws.getColumn(0).letter` on a sheet with no
columns. -/
def applyCandidateFormattingWithExcelJS (ws : Sheet) (lastRow : Nat) : Except String Sheet :=
  let maxCol := min CANDIDATE_MAX_COLUMNS ws.colMax
  let endRow := max 1 lastRow
  let ws1 := (List.range' 1 maxCol).foldl (fun acc c => acc.setColWidth c CANDIDATE_WIDTH) ws
  let ws2 := (List.range' 1 endRow).foldl
    (fun acc r => (List.range' 1 maxCol).foldl (fun acc2 c => acc2.setBorder r c thinBorder) acc) ws1
  let ws3 := fillHeaderRange maxCol 1 10 HEADER_COLOR_A_J ws2
  let ws4 := fillHeaderRange maxCol 11 11 HEADER_COLOR_K_V_AF ws3
  let ws5 := fillHeaderRange maxCol 22 32 HEADER_COLOR_K_V_AF ws4
  let ws6 := fillHeaderRange maxCol 12 21 HEADER_COLOR_L_U_AG_AL ws5
  let ws7 := fillHeaderRange maxCol 33 38 HEADER_COLOR_L_U_AG_AL ws6
  let ws8 := ws7.setRowHeight 1 32
  let ws9 := (List.range' 1 maxCol).foldl
    (fun acc c =>
      (acc.setAlignment 1 c { vertical := some "middle", horizontal := some "center", wrapText := some true }).updateFont 1 c
        (fun f => { (f.getD {}) with bold := some true, size := some 14, color := some (headerFontColorByCol c) }))
    ws8
  let ws10 := (List.range' 1 endRow).foldl
    (fun acc r => acc.updateFont r 1 (fun f => { (f.getD {}) with bold := some true })) ws9
  let ws11 := { ws10 with views := [{ state := "frozen", ySplit := 1 }] }
  if maxCol = 0 then .error "TypeError: Cannot read properties of undefined"
  else .ok { ws11 with autoFilter := some ("A1", colLetter maxCol ++ "1") }

/-- The formatting stages as named pipeline pieces. -/
def fpWidths (maxCol : Nat) (ws : Sheet) : Sheet :=
  (List.range' 1 maxCol).foldl (fun acc c => acc.setColWidth c CANDIDATE_WIDTH) ws

def fpBorders (maxCol endRow : Nat) (ws : Sheet) : Sheet :=
  (List.range' 1 endRow).foldl
    (fun acc r => (List.range' 1 maxCol).foldl (fun acc2 c => acc2.setBorder r c thinBorder) acc) ws

def fpHeaderFont (maxCol : Nat) (ws : Sheet) : Sheet :=
  (List.range' 1 maxCol).foldl
    (fun acc c =>
      (acc.setAlignment 1 c { vertical := some "middle", horizontal := some "center", wrapText := some true }).updateFont 1 c
        (fun f => { (f.getD {}) with bold := some true, size := some 14, color := some (headerFontColorByCol c) }))
    ws

def fpBoldCol1 (endRow : Nat) (ws : Sheet) : Sheet :=
  (List.range' 1 endRow).foldl
    (fun acc r => acc.updateFont r 1 (fun f => { (f.getD {}) with bold := some true })) ws

/-- The sheet produced by the Formatting Pass (the state the `TypeError`
branch would also leave behind, and the payload of the `.ok` result). -/
def formatPipeline (ws : Sheet) (lastRow : Nat) : Sheet :=
  { fpBoldCol1 (max 1 lastRow)
      (fpHeaderFont (min CANDIDATE_MAX_COLUMNS ws.colMax)
        ((fillHeaderRange (min CANDIDATE_MAX_COLUMNS ws.colMax) 33 38 HEADER_COLOR_L_U_AG_AL
          (fillHeaderRange (min CANDIDATE_MAX_COLUMNS ws.colMax) 12 21 HEADER_COLOR_L_U_AG_AL
            (fillHeaderRange (min CANDIDATE_MAX_COLUMNS ws.colMax) 22 32 HEADER_COLOR_K_V_AF
              (fillHeaderRange (min CANDIDATE_MAX_COLUMNS ws.colMax) 11 11 HEADER_COLOR_K_V_AF
                (fillHeaderRange (min CANDIDATE_MAX_COLUMNS ws.colMax) 1 10 HEADER_COLOR_A_J
                  (fpBorders (min CANDIDATE_MAX_COLUMNS ws.colMax) (max 1 lastRow)
                    (fpWidths (min CANDIDATE_MAX_COLUMNS ws.colMax) ws))))))).setRowHeight 1 32)) with
    views := [{ state := "frozen", ySplit := 1 }]
    autoFilter := some ("A1", colLetter (min CANDIDATE_MAX_COLUMNS ws.colMax) ++ "1") }

-- ==================================================
-- The per-cell effect of the Sheet Formatting Pass
-- ==================================================

/-- A conditional cell rewrite (one formatting stage at one cell). -/
def condUpd (P : Prop) [Decidable P] (u : Cell → Cell) (x : Cell) : Cell :=
  if P then u x else x

def updBorder (x : Cell) : Cell :=
  { x with style := { x.style with border := some thinBorder } }

def updFill (argb : String) (x : Cell) : Cell :=
  { x with style := { x.style with fill := some (headerFill argb) } }

def headerAlign : CellAlignment :=
  { vertical := some "middle", horizontal := some "center", wrapText := some true }

def hdrFont (c : Nat) (f : Option Font) : Font :=
  { (f.getD {}) with bold := some true, size := some 14, color := some (headerFontColorByCol c) }

def boldFont (f : Option Font) : Font :=
  { (f.getD {}) with bold := some true }

def updHeaderCell (c : Nat) (x : Cell) : Cell :=
  { x with style :=
    { x.style with
      alignment := some headerAlign
      font := some (hdrFont c x.style.font) } }

def updBoldFont (x : Cell) : Cell :=
  { x with style := { x.style with font := some (boldFont x.style.font) } }

/-- What the Sheet Formatting Pass does to the cell at `(r, c)`, stage by
stage: borders on the data block, header fills, header alignment and
font, bold first column. -/
def formatCellTransform (maxCol endRow r c : Nat) (x : Cell) : Cell :=
  condUpd (c = 1 ∧ 1 ≤ r ∧ r < 1 + endRow) updBoldFont
    (condUpd (r = 1 ∧ 1 ≤ c ∧ c < 1 + maxCol) (updHeaderCell c)
      (condUpd (r = 1 ∧ 33 ≤ c ∧ c < 33 + (min 38 maxCol + 1 - 33))
        (updFill HEADER_COLOR_L_U_AG_AL)
        (condUpd (r = 1 ∧ 12 ≤ c ∧ c < 12 + (min 21 maxCol + 1 - 12))
          (updFill HEADER_COLOR_L_U_AG_AL)
          (condUpd (r = 1 ∧ 22 ≤ c ∧ c < 22 + (min 32 maxCol + 1 - 22))
            (updFill HEADER_COLOR_K_V_AF)
            (condUpd (r = 1 ∧ 11 ≤ c ∧ c < 11 + (min 11 maxCol + 1 - 11))
              (updFill HEADER_COLOR_K_V_AF)
              (condUpd (r = 1 ∧ 1 ≤ c ∧ c < 1 + (min 10 maxCol + 1 - 1))
                (updFill HEADER_COLOR_A_J)
                (condUpd (1 ≤ r ∧ r < 1 + endRow ∧ 1 ≤ c ∧ c < 1 + maxCol) updBorder x)))))))

-- ==================================================
-- Declarative tokenization of formulas (for the
-- Formula Reference Shifter specification)
-- ==================================================

/-- A formula decomposed into reference and non-reference segments.  A
`ref` is a cell reference: optional column `$`, 1–3 column letters,
optional row `$`, a nonempty digit run. -/
inductive FTok where
  | text (s : List Char)
  | ref (colD : Bool) (col : List Char) (rowD : Bool) (ds : List Char)
deriving DecidableEq, Repr

def renderTok : FTok → List Char
  | .text s => s
  | .ref cD col rD ds => dollarChars cD ++ col ++ dollarChars rD ++ ds

/-- The formula string denoted by a token list. -/
def renderToks (ts : List FTok) : List Char :=
  (ts.map renderTok).flatten

/-- What the Shifter is specified to produce for one token: text is kept
verbatim; a reference keeps its column part and `$` markers and has its
row number increased by the delta unless the row is `$`-marked. -/
def shiftTokChars (rowDelta : Int) : FTok → List Char
  | .text s => s
  | .ref cD col rD ds => dollarChars cD ++ col ++ dollarChars rD ++ shiftDigits rowDelta rD ds

def renderShiftedToks (rowDelta : Int) (ts : List FTok) : List Char :=
  (ts.map (shiftTokChars rowDelta)).flatten

/-- Lookbehind state after scanning `s` starting from state `b`:
whether the character preceding the current position is in the
boundary class. -/
def exitB : Bool → List Char → Bool
  | b, [] => b
  | _, c :: s => exitB (isBoundaryCh c) s

/-- `scanClean t prevB s`: scanning `s` (followed by context `t`), no
position of `s` with a passing lookbehind starts a reference match.
This is the formal reading of "contains no cell reference". -/
def scanClean (t : List Char) : Bool → List Char → Bool
  | _, [] => true
  | prevB, c :: cs =>
    (prevB || (tryMatch (c :: (cs ++ t))).isNone) && scanClean t (isBoundaryCh c) cs

/-- Shape constraints on a single reference token. -/
def refShapeOk : FTok → Bool
  | .text _ => true
  | .ref _ col _ ds =>
    decide (col ≠ []) && decide (col.length ≤ 3) && col.all isRefLetter &&
      decide (ds ≠ []) && ds.all isDigitCh

/-- The token following a reference must put a non-identifier character
(or the end of the formula) right after the reference's digits. -/
def followOk : List FTok → Bool
  | [] => true
  | .text (c :: _) :: _ => !isBoundaryCh c
  | _ => false

/-- Well-formed tokenization: every reference has the required shape, sits
at a position whose preceding character is outside the boundary class, and
is followed by a non-identifier character; text segments are nonempty and
contain no reference of their own. -/
def wfToks : Bool → List FTok → Bool
  | _, [] => true
  | prevB, .text s :: rest =>
    decide (s ≠ []) && scanClean (renderToks rest) prevB s && wfToks (exitB prevB s) rest
  | prevB, .ref cD col rD ds :: rest =>
    !prevB && refShapeOk (.ref cD col rD ds) && followOk rest && wfToks true rest

/-- A digit run is canonical if reparsing and reprinting it is the
identity (no leading zeros). -/
def canonicalTok : FTok → Bool
  | .text _ => true
  | .ref _ _ _ ds => decide (ds = (toString (digitsToNat ds)).data)

-- ==================================================
-- Statement-level definitions
-- ==================================================

/-- Cell-wise equality of two sheets ("every cell has the same value,
style and validation"). -/
def Sheet.EqCells (ws1 ws2 : Sheet) : Prop :=
  ∀ r c, ws1.getCell r c = ws2.getCell r c

def scalarIsDate : Scalar → Bool
  | .date _ _ _ => true
  | _ => false

/-- The key value of a record is not a JS `Date` object. -/
def recKeyNotDate (rec : Rec) : Prop :=
  ∀ v, recGet rec CANDIDATE_KEY = some v → scalarIsDate v = false

/-- The columns rewritten on the target row of every processed record
(base data, re-derived formulas, SLA columns and validated date/list
columns); columns 11 (`JR No.`) and 32 (`Resume`) are exactly the ones
left alone. -/
def case2Col (c : Nat) : Prop :=
  (1 ≤ c ∧ c ≤ 10) ∨ (12 ≤ c ∧ c ≤ 31) ∨ (33 ≤ c ∧ c ≤ 38)

/-- The tokenization of the specification's formula-shift scenario
`=VLOOKUP($A5,Sheet2!$A:$B,2,0)`. -/
def exTokens : List FTok :=
  [.text "=VLOOKUP(".data, .ref true ['A'] false ['5'], .text ",Sheet2!$A:$B,2,0)".data]

/-- The destination cell produced by one column of the Row Template Cloner
(when the source and destination rows differ). -/
def cloneDestCell (ws : Sheet) (fromRow toRow c : Nat) : Cell :=
  { value :=
      if 22 ≤ c ∧ c ≤ 31 then .empty
      else
        match (ws.getCell fromRow c).value with
        | .formula f _ => .formula (shiftFormulaRows f ((toRow : Int) - (fromRow : Int))) none
        | sv => cloneCellValue sv
    style := (ws.getCell fromRow c).style
    dataValidation :=
      match (ws.getCell fromRow c).dataValidation with
      | some dv => some dv
      | none => (ws.getCell toRow c).dataValidation }

/-- The base-column information resolved against the candidate output
header order: the ten base columns sit at columns 1–10. -/
def candBaseInfo : List (String × Nat) :=
  [("คำนำหน้าชื่อ", 1), ("ชื่อ (ไทย)", 2), ("สกุล (ไทย)", 3), ("ชื่อ (อังกฤษ)", 4),
   ("สกุล (อังกฤษ)", 5), ("ชื่อเล่น", 6), ("รหัสบัตรประชาชน", 7), ("วันเกิด", 8),
   ("เบอร์ติดต่อ", 9), ("email", 10)]

/-- The record-loop state invariant: the cursor is at least 1 and every
indexed row lies between 2 and the cursor. -/
def StInv (st : UpState) : Prop :=
  1 ≤ st.lastDataRow ∧
    ∀ k r, lookupAssoc k st.keyToRow = some r → 2 ≤ r ∧ r ≤ st.lastDataRow

/-- The kind (value / format / validation) and column of an assignment —
its target "shape", forgetting the assigned payload. -/
def opKey : WriteOp → Nat × Nat
  | .val c _ => (0, c)
  | .fmt c _ => (1, c)
  | .dv c _ => (2, c)

/-- `v instanceof Date` for a scalar. -/
def isJsDate : Scalar → Bool
  | .date _ _ _ => true
  | _ => false

/-- A row the key-index scan skips over: its key column reads back empty
and none of the base columns holds data. -/
def RowBlank (ws : Sheet) (r : Nat) : Prop :=
  excelCellValueToString (ws.getCell r 7).value = "" ∧
  (candBaseInfo.any fun b => excelCellValueToString (ws.getCell r b.2).value ≠ "") = false

/-- The replay invariant of the record loop (against the canonical column
resolution): re-scanning the current worksheet reproduces exactly the
loop's own key index and cursor, every row beyond the cursor is blank,
and the cursor stays within the sheet's row count. -/
def UpInv (st : UpState) : Prop :=
  scanSheet st.ws 7 candBaseInfo = { keyToRow := st.keyToRow, lastDataRow := st.lastDataRow } ∧
  (∀ r, st.lastDataRow < r → RowBlank st.ws r) ∧
  st.lastDataRow ≤ st.ws.rowMax ∧ 1 ≤ st.ws.rowMax

/-- Concrete sheets and records used as counterexample / witness inputs. -/
def cexCloneSheet : Sheet :=
  { cells := [((2, 23), { value := .scal (.str "X") })], rowMax := 2, colMax := 23 }

def cexMatchedSheet : Sheet :=
  { cells := [((2, 7), { value := .scal (.str "K") }), ((2, 12), { value := .scal (.str "X") })],
    rowMax := 2, colMax := 12 }

def cexMatchedRec : Rec := [(CANDIDATE_KEY, .str "K")]

def cexHeaderSheet : Sheet :=
  { cells := [((1, 1), { value := .scal (.str "A") })], rowMax := 1, colMax := 1 }

def cexDateRec : Rec :=
  [(CANDIDATE_KEY, .date true "Wed Jan 01 2020" "2020-01-01T00:00:00.000Z")]

def cexJRZeroRec : Rec := [(CANDIDATE_KEY, .str "K"), (JR_NO_ALIAS, .num 0)]

def witJRRec : Rec := [(CANDIDATE_KEY, .str "K"), (JR_NO_ALIAS, .str "JR-77")]

def witC6Rec1 : Rec := [(CANDIDATE_KEY, .str "K"), ("ชื่อ (ไทย)", .str "v1")]

def witC6Rec2 : Rec := [(CANDIDATE_KEY, .str "K"), ("ชื่อ (ไทย)", .str "v2")]

def witSheetC9 : Sheet := { rowMax := 1, colMax := 2 }

/-- The last record of a batch whose key reads as `k` — the record whose
base-column values win under the engine's last-write-wins processing
order. -/
def lastKeyRec (k : String) : List Rec → Option Rec
  | [] => none
  | rec :: rest =>
    match lastKeyRec k rest with
    | some r => some r
    | none => if safeStr (recGet rec CANDIDATE_KEY) = k then some rec else none

-- ==================================================
-- Infrastructure lemmas: association lists and cells
-- ==================================================

theorem lookupAssoc_updateAssoc [DecidableEq κ] (k k' : κ) (f : Option ν → ν) (l : List (κ × ν)) :
    lookupAssoc k' (updateAssoc k f l) =
      if k' = k then some (f (lookupAssoc k l)) else lookupAssoc k' l := by
  induction l with
  | nil =>
    by_cases h : k' = k
    · subst h; simp [updateAssoc, lookupAssoc]
    · have h2 : k ≠ k' := fun hh => h hh.symm
      simp [updateAssoc, lookupAssoc, h, h2]
  | cons e rest ih =>
    by_cases he : e.1 = k
    · by_cases h : k' = k
      · subst h
        simp [updateAssoc, lookupAssoc, he]
      · have h2 : k ≠ k' := fun hh => h hh.symm
        have h3 : e.1 ≠ k' := he ▸ h2
        simp [updateAssoc, lookupAssoc, he, h, h2, h3]
    · by_cases h : k' = k
      · subst h
        simp [updateAssoc, lookupAssoc, he, ih]
      · by_cases h4 : e.1 = k'
        · simp [updateAssoc, lookupAssoc, he, h4, h]
        · simp [updateAssoc, lookupAssoc, he, h4, h, ih]

theorem Sheet.getCell_putCell (ws : Sheet) (r c r' c' : Nat) (f : Cell → Cell) :
    (ws.putCell r c f).getCell r' c' =
      if r' = r ∧ c' = c then f (ws.getCell r c) else ws.getCell r' c' := by
  unfold Sheet.getCell Sheet.findCell Sheet.putCell
  simp only [lookupAssoc_updateAssoc, Prod.mk.injEq]
  by_cases h : r' = r ∧ c' = c
  · simp [h]
  · rw [if_neg h, if_neg (by tauto)]

theorem Sheet.getCell_putCell_ne (ws : Sheet) (r c r' c' : Nat) (f : Cell → Cell)
    (h : ¬(r' = r ∧ c' = c)) :
    (ws.putCell r c f).getCell r' c' = ws.getCell r' c' := by
  rw [Sheet.getCell_putCell, if_neg h]

theorem Sheet.getCell_putCell_self (ws : Sheet) (r c : Nat) (f : Cell → Cell) :
    (ws.putCell r c f).getCell r c = f (ws.getCell r c) := by
  rw [Sheet.getCell_putCell, if_pos ⟨rfl, rfl⟩]

theorem Sheet.rowMax_putCell (ws : Sheet) (r c : Nat) (f : Cell → Cell) :
    (ws.putCell r c f).rowMax = max ws.rowMax r := rfl

theorem Sheet.colMax_putCell (ws : Sheet) (r c : Nat) (f : Cell → Cell) :
    (ws.putCell r c f).colMax = max ws.colMax c := rfl

-- ==================================================
-- Formula Reference Shifter: character classes
-- ==================================================

theorem isRefLetter_of_isDigitCh {c : Char} (h : isDigitCh c = true) : isRefLetter c = false := by
  simp [isDigitCh, isRefLetter] at *
  obtain ⟨h1, h2⟩ := h
  exact ⟨fun h3 => absurd (le_trans h3 h2) (by decide),
         fun h3 => absurd (le_trans h3 h2) (by decide)⟩

theorem ne_dollar_of_isRefLetter {c : Char} (h : isRefLetter c = true) : c ≠ '$' := by
  rintro rfl
  simp [isRefLetter] at h

theorem ne_dollar_of_isDigitCh {c : Char} (h : isDigitCh c = true) : c ≠ '$' := by
  rintro rfl
  simp [isDigitCh] at h

theorem isBoundaryCh_of_isDigitCh {c : Char} (h : isDigitCh c = true) : isBoundaryCh c = true := by
  simp [isBoundaryCh, h]

theorem isBoundaryCh_of_isRefLetter {c : Char} (h : isRefLetter c = true) : isBoundaryCh c = true := by
  simp [isBoundaryCh, h]

theorem isDigitCh_of_not_isBoundaryCh {c : Char} (h : isBoundaryCh c = false) : isDigitCh c = false := by
  simp only [isBoundaryCh, Bool.or_eq_false_iff, decide_eq_false_iff_not] at h
  exact h.1.2

theorem isRefLetter_of_not_isBoundaryCh {c : Char} (h : isBoundaryCh c = false) : isRefLetter c = false := by
  simp only [isBoundaryCh, Bool.or_eq_false_iff, decide_eq_false_iff_not] at h
  exact h.1.1

-- ==================================================
-- Formula Reference Shifter: scanner lemmas
-- ==================================================

theorem dollarChars_true : dollarChars true = ['$'] := rfl

theorem dollarChars_false : dollarChars false = [] := rfl

theorem stripDollar_length (s : List Char) : (stripDollar s).2.length ≤ s.length := by
  cases s with
  | nil => simp [stripDollar]
  | cons c cs =>
    show ((if c = '$' then ((true : Bool), cs) else (false, c :: cs)).2.length ≤ cs.length + 1)
    by_cases h : c = '$' <;> simp [h]

theorem stripDollar_dollar (t : List Char) : stripDollar ('$' :: t) = (true, t) := rfl

theorem stripDollar_not_dollar {s : List Char} (h : ∀ c, s.head? = some c → c ≠ '$') :
    stripDollar s = (false, s) := by
  cases s with
  | nil => rfl
  | cons c cs =>
    show (if c = '$' then ((true : Bool), cs) else (false, c :: cs)) = (false, c :: cs)
    rw [if_neg (h c rfl)]

theorem takeWhile_append_all {p : Char → Bool} {l1 : List Char} (l2 : List Char)
    (h : l1.all p = true) : (l1 ++ l2).takeWhile p = l1 ++ l2.takeWhile p := by
  induction l1 with
  | nil => simp
  | cons c cs ih =>
    simp only [List.all_cons, Bool.and_eq_true] at h
    simp [List.takeWhile_cons, h.1, ih h.2]

theorem takeWhile_eq_nil_of_head {p : Char → Bool} {l : List Char}
    (h : ∀ c, l.head? = some c → p c = false) : l.takeWhile p = [] := by
  cases l with
  | nil => rfl
  | cons c cs => simp [List.takeWhile_cons, h c rfl]

theorem tryMatch_length {s : List Char} {cD rD : Bool} {L ds rest : List Char}
    (h : tryMatch s = some (cD, L, rD, ds, rest)) : rest.length + 2 ≤ s.length := by
  simp only [tryMatch] at h
  set s1 := (stripDollar s).2 with hs1
  set letters := s1.takeWhile isRefLetter with hL
  set s2 := s1.drop letters.length with hs2
  set s3 := (stripDollar s2).2 with hs3
  set dsx := s3.takeWhile isDigitCh with hds
  set restx := s3.drop dsx.length with hrest
  have e1 : s1.length ≤ s.length := stripDollar_length s
  have e2 : s2.length = s1.length - letters.length := by rw [hs2]; simp
  have e3 : s3.length ≤ s2.length := stripDollar_length s2
  have e4 : restx.length = s3.length - dsx.length := by rw [hrest]; simp
  have e5 : dsx.length ≤ s3.length := by rw [hds]; exact (List.takeWhile_sublist _).length_le
  have e6 : letters.length ≤ s1.length := by rw [hL]; exact (List.takeWhile_sublist _).length_le
  clear_value s1 letters s2 s3 dsx restx
  split at h
  · exact absurd h (by simp)
  · rename_i hcond
    simp only [Bool.or_eq_true, decide_eq_true_eq, not_or] at hcond
    obtain ⟨⟨hL1, _⟩, hd1⟩ := hcond
    split at h
    · simp only [Option.some.injEq, Prod.mk.injEq] at h
      obtain ⟨-, -, -, -, hr⟩ := h
      rw [← hr]
      simp only [List.length_nil]
      omega
    · split at h
      · exact absurd h (by simp)
      · simp only [Option.some.injEq, Prod.mk.injEq] at h
        obtain ⟨-, -, -, -, hr⟩ := h
        rw [← hr]
        omega

theorem shiftGo_nil (rowDelta : Int) (fuel : Nat) (b : Bool) : shiftGo rowDelta fuel b [] = [] := by
  cases fuel <;> rfl

theorem shiftGo_fuel (rowDelta : Int) :
    ∀ (n : Nat) (s : List Char) (b : Bool) (f1 f2 : Nat), s.length ≤ n →
      s.length ≤ f1 → s.length ≤ f2 →
      shiftGo rowDelta f1 b s = shiftGo rowDelta f2 b s := by
  intro n
  induction n with
  | zero =>
    intro s b f1 f2 hn _ _
    rw [List.length_eq_zero.mp (Nat.le_zero.mp hn)]
    rw [shiftGo_nil, shiftGo_nil]
  | succ n ih =>
    intro s b f1 f2 hn h1 h2
    cases s with
    | nil => rw [shiftGo_nil, shiftGo_nil]
    | cons c cs =>
      simp only [List.length_cons] at hn h1 h2
      obtain ⟨a1, rfl⟩ : ∃ a, f1 = a + 1 := ⟨f1 - 1, by omega⟩
      obtain ⟨a2, rfl⟩ : ∃ a, f2 = a + 1 := ⟨f2 - 1, by omega⟩
      cases b with
      | true =>
        show c :: shiftGo rowDelta a1 (isBoundaryCh c) cs = c :: shiftGo rowDelta a2 (isBoundaryCh c) cs
        rw [ih cs _ a1 a2 (by omega) (by omega) (by omega)]
      | false =>
        have eunf : ∀ a, shiftGo rowDelta (a + 1) false (c :: cs) =
            match tryMatch (c :: cs) with
            | some (colD, letters, rowD, dsx, restx) =>
              dollarChars colD ++ letters ++ dollarChars rowD ++
                shiftDigits rowDelta rowD dsx ++ shiftGo rowDelta a true restx
            | none => c :: shiftGo rowDelta a (isBoundaryCh c) cs := fun _ => rfl
        rw [eunf a1, eunf a2]
        cases hm : tryMatch (c :: cs) with
        | none =>
          simp only []
          rw [ih cs _ a1 a2 (by omega) (by omega) (by omega)]
        | some out =>
          obtain ⟨cD, L, rD, dsx, restx⟩ := out
          have hlen := tryMatch_length hm
          simp only [List.length_cons] at hlen
          simp only []
          rw [ih restx _ a1 a2 (by omega) (by omega) (by omega)]

theorem tryMatch_render (cD rD : Bool) (col ds t : List Char)
    (hc : col ≠ []) (hc3 : col.length ≤ 3) (hca : col.all isRefLetter = true)
    (hd : ds ≠ []) (hda : ds.all isDigitCh = true)
    (ht : ∀ c, t.head? = some c → isBoundaryCh c = false) :
    tryMatch (dollarChars cD ++ col ++ dollarChars rD ++ ds ++ t) = some (cD, col, rD, ds, t) := by
  have hcol_head : ∀ c, (col ++ dollarChars rD ++ ds ++ t).head? = some c → c ≠ '$' := by
    cases col with
    | nil => exact absurd rfl hc
    | cons c0 _ =>
      intro c hc'
      simp only [List.cons_append, List.head?_cons, Option.some.injEq] at hc'
      subst hc'
      simp only [List.all_cons, Bool.and_eq_true] at hca
      exact ne_dollar_of_isRefLetter hca.1
  have hstrip1 : stripDollar (dollarChars cD ++ col ++ dollarChars rD ++ ds ++ t) =
      (cD, col ++ dollarChars rD ++ ds ++ t) := by
    cases cD with
    | true => simp [dollarChars, stripDollar_dollar]
    | false =>
      rw [dollarChars_false, List.nil_append]
      exact stripDollar_not_dollar hcol_head
  have hds_head : ∀ c, (ds ++ t).head? = some c → isDigitCh c = true := by
    cases ds with
    | nil => exact absurd rfl hd
    | cons d0 _ =>
      intro c hc'
      simp only [List.cons_append, List.head?_cons, Option.some.injEq] at hc'
      subst hc'
      simp only [List.all_cons, Bool.and_eq_true] at hda
      exact hda.1
  have htail_head : ∀ c, (dollarChars rD ++ ds ++ t).head? = some c → isRefLetter c = false := by
    cases rD with
    | true =>
      intro c hc'
      rw [dollarChars_true] at hc'
      simp only [List.cons_append, List.head?_cons, Option.some.injEq] at hc'
      subst hc'
      decide
    | false =>
      intro c hc'
      rw [dollarChars_false, List.nil_append] at hc'
      exact isRefLetter_of_isDigitCh (hds_head c hc')
  have htake1 : (col ++ dollarChars rD ++ ds ++ t).takeWhile isRefLetter = col := by
    rw [List.append_assoc, List.append_assoc, takeWhile_append_all _ hca,
      takeWhile_eq_nil_of_head (by rw [← List.append_assoc]; exact htail_head), List.append_nil]
  have hdrop1 : (col ++ dollarChars rD ++ ds ++ t).drop col.length = dollarChars rD ++ ds ++ t := by
    rw [List.append_assoc, List.append_assoc, List.drop_left, ← List.append_assoc]
  have hstrip2 : stripDollar (dollarChars rD ++ ds ++ t) = (rD, ds ++ t) := by
    cases rD with
    | true => simp [dollarChars, stripDollar_dollar]
    | false =>
      rw [dollarChars_false, List.nil_append]
      exact stripDollar_not_dollar (fun c h => ne_dollar_of_isDigitCh (hds_head c h))
  have htake2 : (ds ++ t).takeWhile isDigitCh = ds := by
    rw [takeWhile_append_all _ hda,
      takeWhile_eq_nil_of_head (fun c h => isDigitCh_of_not_isBoundaryCh (ht c h)), List.append_nil]
  have hdrop2 : (ds ++ t).drop ds.length = t := List.drop_left ds t
  unfold tryMatch
  rw [hstrip1]
  simp only [htake1, hdrop1, hstrip2, htake2, hdrop2]
  have hcond : (decide (col.length = 0) || decide (3 < col.length) || decide (ds.length = 0)) = false := by
    simp only [Bool.or_eq_false_iff, decide_eq_false_iff_not]
    refine ⟨⟨fun h => hc (List.length_eq_zero.mp h), by omega⟩, fun h => hd (List.length_eq_zero.mp h)⟩
  rw [if_neg (by rw [hcond]; exact Bool.false_ne_true)]
  cases t with
  | nil => rfl
  | cons c cs =>
    show (if isBoundaryCh c = true then none else some (cD, col, rD, ds, c :: cs)) =
      some (cD, col, rD, ds, c :: cs)
    rw [if_neg (by rw [ht c rfl]; exact Bool.false_ne_true)]

theorem exitB_cons (b : Bool) (c : Char) (cs : List Char) :
    exitB b (c :: cs) = exitB (isBoundaryCh c) cs := rfl

theorem shiftGo_text (rowDelta : Int) :
    ∀ (s t : List Char) (b : Bool) (fuel : Nat), scanClean t b s = true →
      s.length + t.length ≤ fuel →
      shiftGo rowDelta fuel b (s ++ t) = s ++ shiftGo rowDelta (fuel - s.length) (exitB b s) t := by
  intro s
  induction s with
  | nil =>
    intro t b fuel _ _
    simp [exitB]
  | cons c cs ih =>
    intro t b fuel hclean hfuel
    simp only [scanClean, Bool.and_eq_true, Bool.or_eq_true, Option.isNone_iff_eq_none] at hclean
    obtain ⟨hc1, hc2⟩ := hclean
    simp only [List.length_cons] at hfuel
    obtain ⟨a, rfl⟩ : ∃ a, fuel = a + 1 := ⟨fuel - 1, by omega⟩
    have harith : a + 1 - (c :: cs).length = a - cs.length := by simp
    rw [harith, exitB_cons, List.cons_append]
    cases b with
    | true =>
      show c :: shiftGo rowDelta a (isBoundaryCh c) (cs ++ t) = _
      rw [ih t (isBoundaryCh c) a hc2 (by omega)]
      simp
    | false =>
      have hnone : tryMatch (c :: (cs ++ t)) = none := by
        rcases hc1 with h | h
        · exact absurd h (by simp)
        · exact h
      have hstep : shiftGo rowDelta (a + 1) false (c :: (cs ++ t)) =
          match tryMatch (c :: (cs ++ t)) with
          | some (colD, letters, rowD, dsx, restx) =>
            dollarChars colD ++ letters ++ dollarChars rowD ++
              shiftDigits rowDelta rowD dsx ++ shiftGo rowDelta a true restx
          | none => c :: shiftGo rowDelta a (isBoundaryCh c) (cs ++ t) := rfl
      rw [hstep, hnone]
      simp only []
      rw [ih t (isBoundaryCh c) a hc2 (by omega)]
      simp

theorem renderToks_cons (tok : FTok) (rest : List FTok) :
    renderToks (tok :: rest) = renderTok tok ++ renderToks rest := by
  simp [renderToks]

theorem renderShiftedToks_cons (rowDelta : Int) (tok : FTok) (rest : List FTok) :
    renderShiftedToks rowDelta (tok :: rest) = shiftTokChars rowDelta tok ++ renderShiftedToks rowDelta rest := by
  simp [renderShiftedToks]

theorem shiftGo_toks (rowDelta : Int) :
    ∀ (ts : List FTok) (b : Bool) (fuel : Nat), wfToks b ts = true →
      (renderToks ts).length ≤ fuel →
      shiftGo rowDelta fuel b (renderToks ts) = renderShiftedToks rowDelta ts := by
  intro ts
  induction ts with
  | nil =>
    intro b fuel _ _
    simp only [renderToks, renderShiftedToks, List.map_nil, List.flatten_nil]
    exact shiftGo_nil rowDelta fuel b
  | cons tok rest ih =>
    intro b fuel hwf hfuel
    cases tok with
    | text s =>
      simp only [wfToks, Bool.and_eq_true, decide_eq_true_eq] at hwf
      obtain ⟨⟨hne, hclean⟩, hwf2⟩ := hwf
      rw [renderToks_cons] at hfuel ⊢
      simp only [renderTok] at hfuel ⊢
      simp only [List.length_append] at hfuel
      rw [shiftGo_text rowDelta s (renderToks rest) b fuel hclean (by omega)]
      rw [ih (exitB b s) (fuel - s.length) hwf2 (by omega)]
      rw [renderShiftedToks_cons]
      rfl
    | ref cD col rD ds =>
      simp only [wfToks, Bool.and_eq_true, Bool.not_eq_true'] at hwf
      obtain ⟨⟨⟨hb, hshape⟩, hfollow⟩, hwf2⟩ := hwf
      subst hb
      simp only [refShapeOk, Bool.and_eq_true, decide_eq_true_eq] at hshape
      obtain ⟨⟨⟨⟨hc, hc3⟩, hca⟩, hd⟩, hda⟩ := hshape
      have hfoll : ∀ cc, (renderToks rest).head? = some cc → isBoundaryCh cc = false := by
        cases rest with
        | nil => simp [renderToks]
        | cons tk2 rest2 =>
          cases tk2 with
          | text s2 =>
            cases s2 with
            | nil => simp [followOk] at hfollow
            | cons c2 cs2 =>
              intro cc hcc
              simp only [followOk, Bool.not_eq_true'] at hfollow
              rw [renderToks_cons] at hcc
              simp only [renderTok, List.cons_append, List.head?_cons, Option.some.injEq] at hcc
              rw [← hcc]
              exact hfollow
          | ref cD2 col2 rD2 ds2 => simp [followOk] at hfollow
      have hmatch := tryMatch_render cD rD col ds (renderToks rest) hc hc3 hca hd hda hfoll
      rw [renderToks_cons] at hfuel ⊢
      simp only [renderTok] at hfuel ⊢
      simp only [List.append_assoc] at hmatch hfuel ⊢
      have h1 : 1 ≤ col.length := List.length_pos.mpr hc
      have h2 : 1 ≤ ds.length := List.length_pos.mpr hd
      have hlen : 2 + (renderToks rest).length ≤
          (dollarChars cD ++ (col ++ (dollarChars rD ++ (ds ++ renderToks rest)))).length := by
        simp only [List.length_append]
        omega
      obtain ⟨a, rfl⟩ : ∃ a, fuel = a + 1 := ⟨fuel - 1, by omega⟩
      cases hE : dollarChars cD ++ (col ++ (dollarChars rD ++ (ds ++ renderToks rest))) with
      | nil =>
        rw [hE] at hlen
        simp at hlen
      | cons c0 cs0 =>
        have hstep : shiftGo rowDelta (a + 1) false (c0 :: cs0) =
            match tryMatch (c0 :: cs0) with
            | some (colD, letters, rowD, dsx, restx) =>
              dollarChars colD ++ letters ++ dollarChars rowD ++
                shiftDigits rowDelta rowD dsx ++ shiftGo rowDelta a true restx
            | none => c0 :: shiftGo rowDelta a (isBoundaryCh c0) cs0 := rfl
        rw [hstep]
        rw [← hE]
        rw [hmatch]
        simp only []
        rw [ih true a hwf2 (by
          rw [hE] at hlen hfuel
          simp only [List.length_cons] at hlen hfuel
          omega)]
        rw [renderShiftedToks_cons]
        simp [shiftTokChars]

theorem shiftFormulaRows_renders (rowDelta : Int) (ts : List FTok)
    (h : wfToks false ts = true) :
    shiftFormulaRows ⟨renderToks ts⟩ rowDelta = ⟨renderShiftedToks rowDelta ts⟩ := by
  unfold shiftFormulaRows
  exact congrArg String.mk (shiftGo_toks rowDelta ts false _ h (le_refl _))

theorem renderShiftedToks_zero (ts : List FTok) (hc : ts.all canonicalTok = true) :
    renderShiftedToks 0 ts = renderToks ts := by
  induction ts with
  | nil => rfl
  | cons tok rest ih =>
    simp only [List.all_cons, Bool.and_eq_true] at hc
    rw [renderShiftedToks_cons, renderToks_cons, ih hc.2]
    congr 1
    cases tok with
    | text s => rfl
    | ref cD col rD ds =>
      have hcanon := hc.1
      simp only [canonicalTok, decide_eq_true_eq] at hcanon
      simp only [shiftTokChars, renderTok, shiftDigits]
      congr 1
      cases rD with
      | true => simp [← hcanon]
      | false =>
        simp only [Bool.false_eq_true, if_false, add_zero]
        rw [show toString ((digitsToNat ds : Nat) : Int) = toString (digitsToNat ds) from rfl]
        rw [← hcanon]

-- ==================================================
-- Claim C3
-- ==================================================

/-- C3 counterexample: the claim asserts that with delta = 0 the Formula
Reference Shifter returns its input unchanged, for every formula string.
It does not: a matched row number is reparsed with `Number` and reprinted,
so `"A05"` (a reference with a leading zero in its row) becomes `"A5"`
already at delta 0. -/
theorem C3_delta_zero_counterexample :
    shiftFormulaRows "A05" 0 = "A5" ∧ shiftFormulaRows "A05" 0 ≠ "A05" := by
  exact ⟨by decide, by decide⟩

/-- C3 (amended): for every integer row delta and every well-formed
tokenization of a formula into reference and non-reference segments
(references have 1–3 column letters with optional `$` markers and a digit
row, sit at non-identifier boundaries on both sides, and non-reference
segments contain no reference), `shiftFormulaRows` rewrites exactly the
reference tokens: column letters and `$` markers are kept, a `$`-marked
row keeps its numeric value, and a bare row is increased by the delta;
row numbers are reprinted in canonical decimal.  Consequently with
delta = 0 the function returns the input unchanged provided every matched
row number is written canonically (no leading zeros). -/
theorem C3_shifter_tokenwise (rowDelta : Int) (ts : List FTok) (hwf : wfToks false ts = true) :
    shiftFormulaRows ⟨renderToks ts⟩ rowDelta = ⟨renderShiftedToks rowDelta ts⟩ ∧
      (ts.all canonicalTok = true → shiftFormulaRows ⟨renderToks ts⟩ 0 = ⟨renderToks ts⟩) := by
  refine ⟨shiftFormulaRows_renders rowDelta ts hwf, fun hcanon => ?_⟩
  rw [shiftFormulaRows_renders 0 ts hwf, renderShiftedToks_zero ts hcanon]

/-- C3 witness: the amended theorem applied to the specification's own
scenario: cloning `=VLOOKUP($A5,Sheet2!$A:$B,2,0)` four rows down yields
`=VLOOKUP($A9,Sheet2!$A:$B,2,0)`. -/
theorem C3_shifter_tokenwise_witness :
    wfToks false exTokens = true ∧
      shiftFormulaRows "=VLOOKUP($A5,Sheet2!$A:$B,2,0)" 4 = "=VLOOKUP($A9,Sheet2!$A:$B,2,0)" := by
  constructor
  · decide
  · have h := (C3_shifter_tokenwise 4 exTokens (by decide)).1
    have e1 : (⟨renderToks exTokens⟩ : String) = "=VLOOKUP($A5,Sheet2!$A:$B,2,0)" := by decide
    have e2 : (⟨renderShiftedToks 4 exTokens⟩ : String) = "=VLOOKUP($A9,Sheet2!$A:$B,2,0)" := by decide
    rw [← e1, ← e2]
    exact h

-- ==================================================
-- Worksheet operation characterizations
-- ==================================================

theorem Sheet.getCell_setValue (ws : Sheet) (r c r' c' : Nat) (v : CellVal) :
    (ws.setValue r c v).getCell r' c' =
      if r' = r ∧ c' = c then { ws.getCell r c with value := v } else ws.getCell r' c' :=
  Sheet.getCell_putCell ws r c r' c' _

theorem Sheet.getCell_setNumFmt (ws : Sheet) (r c r' c' : Nat) (fmt : String) :
    (ws.setNumFmt r c fmt).getCell r' c' =
      if r' = r ∧ c' = c then
        { ws.getCell r c with style := { (ws.getCell r c).style with numFmt := some fmt } }
      else ws.getCell r' c' :=
  Sheet.getCell_putCell ws r c r' c' _

theorem Sheet.getCell_setDV (ws : Sheet) (r c r' c' : Nat) (dv : DVRule) :
    (ws.setDV r c dv).getCell r' c' =
      if r' = r ∧ c' = c then { ws.getCell r c with dataValidation := some dv }
      else ws.getCell r' c' :=
  Sheet.getCell_putCell ws r c r' c' _

theorem Sheet.getCell_setStyle (ws : Sheet) (r c r' c' : Nat) (st : Style) :
    (ws.setStyle r c st).getCell r' c' =
      if r' = r ∧ c' = c then { ws.getCell r c with style := st }
      else ws.getCell r' c' :=
  Sheet.getCell_putCell ws r c r' c' _

theorem Sheet.colWidths_putCell (ws : Sheet) (r c : Nat) (f : Cell → Cell) :
    (ws.putCell r c f).colWidths = ws.colWidths := rfl

theorem Sheet.rowMax_setValue (ws : Sheet) (r c : Nat) (v : CellVal) :
    (ws.setValue r c v).rowMax = max ws.rowMax r := rfl

theorem Sheet.colMax_setValue (ws : Sheet) (r c : Nat) (v : CellVal) :
    (ws.setValue r c v).colMax = max ws.colMax c := rfl

theorem Sheet.rowMax_setNumFmt (ws : Sheet) (r c : Nat) (fmt : String) :
    (ws.setNumFmt r c fmt).rowMax = max ws.rowMax r := rfl

theorem Sheet.colMax_setNumFmt (ws : Sheet) (r c : Nat) (fmt : String) :
    (ws.setNumFmt r c fmt).colMax = max ws.colMax c := rfl

theorem Sheet.rowMax_setDV (ws : Sheet) (r c : Nat) (dv : DVRule) :
    (ws.setDV r c dv).rowMax = max ws.rowMax r := rfl

theorem Sheet.colMax_setDV (ws : Sheet) (r c : Nat) (dv : DVRule) :
    (ws.setDV r c dv).colMax = max ws.colMax c := rfl

theorem Sheet.rowMax_setStyle (ws : Sheet) (r c : Nat) (st : Style) :
    (ws.setStyle r c st).rowMax = max ws.rowMax r := rfl

theorem Sheet.colMax_setStyle (ws : Sheet) (r c : Nat) (st : Style) :
    (ws.setStyle r c st).colMax = max ws.colMax c := rfl

theorem Sheet.views_putCell (ws : Sheet) (r c : Nat) (f : Cell → Cell) :
    (ws.putCell r c f).views = ws.views := rfl

theorem writeHeaderRow_getCell (headerOrder : List String) (maxCol : Nat) (ws : Sheet) (r c : Nat) :
    (writeHeaderRow headerOrder maxCol ws).getCell r c =
      if r = 1 ∧ 1 ≤ c ∧ c ≤ maxCol then
        { ws.getCell 1 c with value := .scal (.str (headerOrder.getD (c - 1) "")) }
      else ws.getCell r c := by
  induction maxCol with
  | zero =>
    rw [if_neg (by omega)]
    rfl
  | succ n ih =>
    unfold writeHeaderRow at ih ⊢
    rw [List.range'_1_concat, List.foldl_append, List.foldl_cons, List.foldl_nil]
    rw [Sheet.getCell_setValue]
    by_cases hrc : r = 1 ∧ c = 1 + n
    · rw [if_pos hrc]
      obtain ⟨hr, hc⟩ := hrc
      subst hr hc
      rw [ih]
      rw [if_neg (by omega), if_pos (by omega)]
    · rw [if_neg hrc, ih]
      by_cases h2 : r = 1 ∧ 1 ≤ c ∧ c ≤ n
      · rw [if_pos h2, if_pos (by omega)]
      · rw [if_neg h2, if_neg (by omega)]

theorem writeHeaderRow_rowMax (headerOrder : List String) (maxCol : Nat) (ws : Sheet)
    (h : 1 ≤ maxCol) :
    (writeHeaderRow headerOrder maxCol ws).rowMax = max ws.rowMax 1 := by
  induction maxCol with
  | zero => omega
  | succ n ih =>
    unfold writeHeaderRow at ih ⊢
    rw [List.range'_1_concat, List.foldl_append, List.foldl_cons, List.foldl_nil]
    rw [Sheet.rowMax_setValue]
    rcases Nat.eq_or_lt_of_le h with h1 | h1
    · have : n = 0 := by omega
      subst this
      simp [writeHeaderRow]
    · rw [ih (by omega)]
      omega

theorem writeHeaderRow_colMax (headerOrder : List String) (maxCol : Nat) (ws : Sheet) :
    (writeHeaderRow headerOrder maxCol ws).colMax = max ws.colMax maxCol := by
  induction maxCol with
  | zero => simp [writeHeaderRow]
  | succ n ih =>
    unfold writeHeaderRow at ih ⊢
    rw [List.range'_1_concat, List.foldl_append, List.foldl_cons, List.foldl_nil]
    rw [Sheet.colMax_setValue, ih]
    omega

theorem lookupAssoc_filter_le (keep : Nat) (l : List ((Nat × Nat) × Cell)) (r c : Nat) :
    lookupAssoc (r, c) (l.filter (fun e => e.1.2 ≤ keep)) =
      if c ≤ keep then lookupAssoc (r, c) l else none := by
  induction l with
  | nil => simp [lookupAssoc]
  | cons e rest ih =>
    by_cases he : e.1 = (r, c)
    · have hc2 : e.1.2 = c := by rw [he]
      by_cases hck : c ≤ keep
      · rw [List.filter_cons_of_pos (by simpa [hc2]), if_pos hck]
        simp [lookupAssoc, he, hck]
      · rw [List.filter_cons_of_neg (by simp [hc2]; omega), if_neg hck, ih, if_neg hck]
    · by_cases hek : e.1.2 ≤ keep
      · rw [List.filter_cons_of_pos (by simpa)]
        simp only [lookupAssoc, he, if_false]
        rw [ih]
      · rw [List.filter_cons_of_neg (by simp; omega), ih]
        by_cases hck : c ≤ keep
        · rw [if_pos hck, if_pos hck]
          simp [lookupAssoc, he]
        · rw [if_neg hck, if_neg hck]

theorem Sheet.getCell_spliceTailColumns (ws : Sheet) (keep r c : Nat) :
    (ws.spliceTailColumns keep).getCell r c =
      if c ≤ keep then ws.getCell r c else defaultCell := by
  unfold Sheet.getCell Sheet.findCell Sheet.spliceTailColumns
  simp only
  rw [lookupAssoc_filter_le]
  by_cases h : c ≤ keep
  · rw [if_pos h, if_pos h]
  · rw [if_neg h, if_neg h]
    rfl

-- ==================================================
-- Write-op fold characterization
-- ==================================================

theorem Cell.ext2 {a b : Cell} (hv : a.value = b.value) (hs : a.style = b.style)
    (hd : a.dataValidation = b.dataValidation) : a = b := by
  cases a
  cases b
  simp_all

theorem Style.ext5 {a b : Style} (h1 : a.numFmt = b.numFmt) (h2 : a.font = b.font)
    (h3 : a.border = b.border) (h4 : a.fill = b.fill) (h5 : a.alignment = b.alignment) :
    a = b := by
  cases a
  cases b
  simp_all

theorem getCell_applyWriteOp_same_row (r : Nat) (ws : Sheet) (op : WriteOp) (c : Nat) :
    (applyWriteOp r ws op).getCell r c = applyWriteOpCell c (ws.getCell r c) op := by
  cases op with
  | val c2 v =>
    show (ws.setValue r c2 v).getCell r c = _
    rw [Sheet.getCell_setValue, applyWriteOpCell]
    by_cases h : c = c2
    · subst h
      rw [if_pos ⟨rfl, rfl⟩, if_pos rfl]
    · rw [if_neg (by tauto), if_neg (fun hh => h hh.symm)]
  | fmt c2 s =>
    show (ws.setNumFmt r c2 s).getCell r c = _
    rw [Sheet.getCell_setNumFmt, applyWriteOpCell]
    by_cases h : c = c2
    · subst h
      rw [if_pos ⟨rfl, rfl⟩, if_pos rfl]
    · rw [if_neg (by tauto), if_neg (fun hh => h hh.symm)]
  | dv c2 rule =>
    show (ws.setDV r c2 rule).getCell r c = _
    rw [Sheet.getCell_setDV, applyWriteOpCell]
    by_cases h : c = c2
    · subst h
      rw [if_pos ⟨rfl, rfl⟩, if_pos rfl]
    · rw [if_neg (by tauto), if_neg (fun hh => h hh.symm)]

theorem getCell_applyWriteOp_ne_row (r : Nat) (ws : Sheet) (op : WriteOp) (r' c : Nat)
    (h : r' ≠ r) : (applyWriteOp r ws op).getCell r' c = ws.getCell r' c := by
  cases op with
  | val c2 v => exact (Sheet.getCell_setValue ws r c2 r' c v).trans (if_neg (by tauto))
  | fmt c2 s => exact (Sheet.getCell_setNumFmt ws r c2 r' c s).trans (if_neg (by tauto))
  | dv c2 rule => exact (Sheet.getCell_setDV ws r c2 r' c rule).trans (if_neg (by tauto))

theorem getCell_foldl_ops (r : Nat) (ops : List WriteOp) (ws : Sheet) (c : Nat) :
    (ops.foldl (applyWriteOp r) ws).getCell r c = ops.foldl (applyWriteOpCell c) (ws.getCell r c) := by
  induction ops generalizing ws with
  | nil => rfl
  | cons op rest ih =>
    rw [List.foldl_cons, List.foldl_cons, ih, getCell_applyWriteOp_same_row]

theorem getCell_foldl_ops_ne_row (r : Nat) (ops : List WriteOp) (ws : Sheet) (r' c : Nat)
    (h : r' ≠ r) :
    (ops.foldl (applyWriteOp r) ws).getCell r' c = ws.getCell r' c := by
  induction ops generalizing ws with
  | nil => rfl
  | cons op rest ih =>
    rw [List.foldl_cons, ih, getCell_applyWriteOp_ne_row r ws op r' c h]

theorem lastValWrite_acc (c : Nat) (ops : List WriteOp) (acc : Option CellVal) :
    ops.foldl (fun a op => match op with | .val c2 v => if c2 = c then some v else a | _ => a) acc =
      match lastValWrite c ops with
      | some v => some v
      | none => acc := by
  induction ops generalizing acc with
  | nil => rfl
  | cons op rest ih =>
    rw [List.foldl_cons]
    unfold lastValWrite
    rw [List.foldl_cons, ih, ih]
    cases op with
    | val c2 v =>
      by_cases h : c2 = c
      · simp only [if_pos h]
        cases lastValWrite c rest <;> rfl
      · simp only [if_neg h]
        cases lastValWrite c rest <;> rfl
    | fmt c2 s => cases lastValWrite c rest <;> rfl
    | dv c2 rule => cases lastValWrite c rest <;> rfl

theorem lastFmtWrite_acc (c : Nat) (ops : List WriteOp) (acc : Option String) :
    ops.foldl (fun a op => match op with | .fmt c2 s => if c2 = c then some s else a | _ => a) acc =
      match lastFmtWrite c ops with
      | some s => some s
      | none => acc := by
  induction ops generalizing acc with
  | nil => rfl
  | cons op rest ih =>
    rw [List.foldl_cons]
    unfold lastFmtWrite
    rw [List.foldl_cons, ih, ih]
    cases op with
    | fmt c2 s =>
      by_cases h : c2 = c
      · simp only [if_pos h]
        cases lastFmtWrite c rest <;> rfl
      · simp only [if_neg h]
        cases lastFmtWrite c rest <;> rfl
    | val c2 v => cases lastFmtWrite c rest <;> rfl
    | dv c2 rule => cases lastFmtWrite c rest <;> rfl

theorem lastDVWrite_acc (c : Nat) (ops : List WriteOp) (acc : Option DVRule) :
    ops.foldl (fun a op => match op with | .dv c2 rule => if c2 = c then some rule else a | _ => a) acc =
      match lastDVWrite c ops with
      | some rule => some rule
      | none => acc := by
  induction ops generalizing acc with
  | nil => rfl
  | cons op rest ih =>
    rw [List.foldl_cons]
    unfold lastDVWrite
    rw [List.foldl_cons, ih, ih]
    cases op with
    | dv c2 rule =>
      by_cases h : c2 = c
      · simp only [if_pos h]
        cases lastDVWrite c rest <;> rfl
      · simp only [if_neg h]
        cases lastDVWrite c rest <;> rfl
    | val c2 v => cases lastDVWrite c rest <;> rfl
    | fmt c2 s => cases lastDVWrite c rest <;> rfl

theorem value_foldl_cellops (c : Nat) (ops : List WriteOp) (cell : Cell) :
    (ops.foldl (applyWriteOpCell c) cell).value =
      match lastValWrite c ops with
      | some v => v
      | none => cell.value := by
  induction ops generalizing cell with
  | nil => rfl
  | cons op rest ih =>
    rw [List.foldl_cons, ih]
    have hcons : lastValWrite c (op :: rest) =
        match lastValWrite c rest with
        | some v => some v
        | none =>
          match op with
          | .val c2 v => if c2 = c then some v else none
          | _ => none := by
      unfold lastValWrite
      rw [List.foldl_cons]
      exact lastValWrite_acc c rest _
    rw [hcons]
    cases hl : lastValWrite c rest with
    | some v => rfl
    | none =>
      cases op with
      | val c2 v =>
        by_cases h : c2 = c
        · simp only [if_pos h, applyWriteOpCell]
        · simp only [if_neg h, applyWriteOpCell]
      | fmt c2 s =>
        simp only [applyWriteOpCell]
        by_cases h : c2 = c
        · simp only [if_pos h]
        · simp only [if_neg h]
      | dv c2 rule =>
        simp only [applyWriteOpCell]
        by_cases h : c2 = c
        · simp only [if_pos h]
        · simp only [if_neg h]

theorem numFmt_foldl_cellops (c : Nat) (ops : List WriteOp) (cell : Cell) :
    (ops.foldl (applyWriteOpCell c) cell).style.numFmt =
      match lastFmtWrite c ops with
      | some s => some s
      | none => cell.style.numFmt := by
  induction ops generalizing cell with
  | nil => rfl
  | cons op rest ih =>
    rw [List.foldl_cons, ih]
    have hcons : lastFmtWrite c (op :: rest) =
        match lastFmtWrite c rest with
        | some s => some s
        | none =>
          match op with
          | .fmt c2 s => if c2 = c then some s else none
          | _ => none := by
      unfold lastFmtWrite
      rw [List.foldl_cons]
      exact lastFmtWrite_acc c rest _
    rw [hcons]
    cases hl : lastFmtWrite c rest with
    | some s => rfl
    | none =>
      cases op with
      | fmt c2 s =>
        by_cases h : c2 = c
        · simp only [if_pos h, applyWriteOpCell]
        · simp only [if_neg h, applyWriteOpCell]
      | val c2 v =>
        simp only [applyWriteOpCell]
        by_cases h : c2 = c
        · simp only [if_pos h]
        · simp only [if_neg h]
      | dv c2 rule =>
        simp only [applyWriteOpCell]
        by_cases h : c2 = c
        · simp only [if_pos h]
        · simp only [if_neg h]

theorem dv_foldl_cellops (c : Nat) (ops : List WriteOp) (cell : Cell) :
    (ops.foldl (applyWriteOpCell c) cell).dataValidation =
      match lastDVWrite c ops with
      | some rule => some rule
      | none => cell.dataValidation := by
  induction ops generalizing cell with
  | nil => rfl
  | cons op rest ih =>
    rw [List.foldl_cons, ih]
    have hcons : lastDVWrite c (op :: rest) =
        match lastDVWrite c rest with
        | some rule => some rule
        | none =>
          match op with
          | .dv c2 rule => if c2 = c then some rule else none
          | _ => none := by
      unfold lastDVWrite
      rw [List.foldl_cons]
      exact lastDVWrite_acc c rest _
    rw [hcons]
    cases hl : lastDVWrite c rest with
    | some rule => rfl
    | none =>
      cases op with
      | dv c2 rule =>
        by_cases h : c2 = c
        · simp only [if_pos h, applyWriteOpCell]
        · simp only [if_neg h, applyWriteOpCell]
      | val c2 v =>
        simp only [applyWriteOpCell]
        by_cases h : c2 = c
        · simp only [if_pos h]
        · simp only [if_neg h]
      | fmt c2 s =>
        simp only [applyWriteOpCell]
        by_cases h : c2 = c
        · simp only [if_pos h]
        · simp only [if_neg h]

theorem font_foldl_cellops (c : Nat) (ops : List WriteOp) (cell : Cell) :
    (ops.foldl (applyWriteOpCell c) cell).style.font = cell.style.font ∧
    (ops.foldl (applyWriteOpCell c) cell).style.border = cell.style.border ∧
    (ops.foldl (applyWriteOpCell c) cell).style.fill = cell.style.fill ∧
    (ops.foldl (applyWriteOpCell c) cell).style.alignment = cell.style.alignment := by
  induction ops generalizing cell with
  | nil => exact ⟨rfl, rfl, rfl, rfl⟩
  | cons op rest ih =>
    rw [List.foldl_cons]
    refine ⟨((ih _).1).trans ?_, ((ih _).2.1).trans ?_, ((ih _).2.2.1).trans ?_, ((ih _).2.2.2).trans ?_⟩ <;>
      (cases op with
       | val c2 v =>
         simp only [applyWriteOpCell]
         by_cases h : c2 = c
         · simp only [if_pos h]
         · simp only [if_neg h]
       | fmt c2 s =>
         simp only [applyWriteOpCell]
         by_cases h : c2 = c
         · simp only [if_pos h]
         · simp only [if_neg h]
       | dv c2 rule =>
         simp only [applyWriteOpCell]
         by_cases h : c2 = c
         · simp only [if_pos h]
         · simp only [if_neg h])

theorem rowMax_foldl_ops (r : Nat) (ops : List WriteOp) (ws : Sheet) (h : ops ≠ []) :
    (ops.foldl (applyWriteOp r) ws).rowMax = max ws.rowMax r := by
  induction ops generalizing ws with
  | nil => exact absurd rfl h
  | cons op rest ih =>
    rw [List.foldl_cons]
    have hop : (applyWriteOp r ws op).rowMax = max ws.rowMax r := by
      cases op <;> rfl
    cases rest with
    | nil => simpa using hop
    | cons op2 rest2 =>
      rw [ih _ (by simp), hop]
      omega

theorem colMax_foldl_ops (r : Nat) (ops : List WriteOp) (ws : Sheet)
    (hops : ∀ op ∈ ops, op.col ≤ 38) (h38 : 38 ≤ ws.colMax) :
    (ops.foldl (applyWriteOp r) ws).colMax = ws.colMax := by
  induction ops generalizing ws with
  | nil => rfl
  | cons op rest ih =>
    rw [List.foldl_cons]
    have hop : (applyWriteOp r ws op).colMax = max ws.colMax op.col := by
      cases op <;> rfl
    have hcol : op.col ≤ 38 := hops op (by simp)
    have heq : (applyWriteOp r ws op).colMax = ws.colMax := by omega
    rw [ih _ (fun o ho => hops o (by simp [ho])), heq]
    rw [heq]
    exact h38

-- ==================================================
-- Row Template Cloner characterization (Claim C4)
-- ==================================================

theorem cloneStep_getCell (fromRow toRow j : Nat) (hne : fromRow ≠ toRow)
    (acc : Sheet) (r c : Nat) :
    (cloneStep fromRow toRow acc j).getCell r c =
      if r = toRow ∧ c = j then cloneDestCell acc fromRow toRow j
      else acc.getCell r c := by
  by_cases hrc : r = toRow ∧ c = j
  · obtain ⟨rfl, rfl⟩ := hrc
    rw [if_pos ⟨rfl, rfl⟩]
    unfold cloneStep cloneDestCell
    cases hdv : (acc.getCell fromRow c).dataValidation <;>
      cases hv : (acc.getCell fromRow c).value <;>
        by_cases hrst : 22 ≤ c ∧ c ≤ 31 <;>
          simp [hdv, hv, hrst, Sheet.getCell_setValue, Sheet.getCell_setDV, Sheet.getCell_setStyle]
  · rw [if_neg hrc]
    unfold cloneStep
    cases hdv : (acc.getCell fromRow j).dataValidation <;>
      cases hv : (acc.getCell fromRow j).value <;>
        by_cases hrst : 22 ≤ j ∧ j ≤ 31 <;>
          simp [hdv, hv, hrst, hrc, Sheet.getCell_setValue, Sheet.getCell_setDV, Sheet.getCell_setStyle]

theorem cloneCandidateRowTemplate_getCell (ws : Sheet) (fromRow toRow maxCol : Nat)
    (hne : fromRow ≠ toRow) :
    ∀ r c, (cloneCandidateRowTemplate ws fromRow toRow maxCol).getCell r c =
      if r = toRow ∧ 1 ≤ c ∧ c ≤ maxCol then cloneDestCell ws fromRow toRow c
      else ws.getCell r c := by
  induction maxCol with
  | zero =>
    intro r c
    rw [if_neg (by omega)]
    rfl
  | succ n ih =>
    intro r c
    unfold cloneCandidateRowTemplate at ih ⊢
    rw [List.range'_1_concat, List.foldl_append, List.foldl_cons, List.foldl_nil]
    rw [cloneStep_getCell fromRow toRow (1 + n) hne]
    have e1 : (List.foldl (cloneStep fromRow toRow) ws (List.range' 1 n)).getCell fromRow (1 + n) =
        ws.getCell fromRow (1 + n) := by
      rw [ih fromRow (1 + n), if_neg (fun hh => hne hh.1)]
    have e2 : (List.foldl (cloneStep fromRow toRow) ws (List.range' 1 n)).getCell toRow (1 + n) =
        ws.getCell toRow (1 + n) := by
      rw [ih toRow (1 + n), if_neg (by omega)]
    by_cases hrc : r = toRow ∧ c = 1 + n
    · rw [if_pos hrc, if_pos (by omega)]
      obtain ⟨h1, h2⟩ := hrc
      subst h1 h2
      unfold cloneDestCell
      rw [e1, e2]
    · rw [if_neg hrc, ih r c]
      by_cases h2 : r = toRow ∧ 1 ≤ c ∧ c ≤ n
      · rw [if_pos h2, if_pos (by omega)]
      · rw [if_neg h2, if_neg (by omega)]

-- ==================================================
-- Claim C4
-- ==================================================

set_option maxRecDepth 4000 in
/-- C4 counterexample: the Row Template Cloner does NOT leave the source
row untouched for every source/destination pair: with destination =
source, the reset range (columns 22–31) is forced to null on the very row
being read, so the source row's cell 23 loses its value. -/
theorem C4_clone_counterexample :
    ((cloneCandidateRowTemplate cexCloneSheet 2 2 38).getCell 2 23).value = .empty ∧
      (cexCloneSheet.getCell 2 23).value = .scal (.str "X") := by
  exact ⟨by decide, by decide⟩

/-- C4 (amended): for distinct source and destination rows, the Row
Template Cloner leaves every cell outside the destination row (the source
row in particular) untouched; on the destination row, columns
1..columnCount receive the source cell's style, the source cell's
data-validation when it has one (the destination's own rule is kept when
the source has none), and a value that is null in the reset range
(columns 22–31), a formula shifted by destRow − sourceRow when the source
is formula-backed, and a value-copy of the literal otherwise (an invalid
`Date` becomes null); destination columns outside 1..columnCount are
untouched. -/
theorem C4_clone_spec (ws : Sheet) (fromRow toRow maxCol : Nat) (hne : fromRow ≠ toRow) :
    (∀ r c, r ≠ toRow →
      (cloneCandidateRowTemplate ws fromRow toRow maxCol).getCell r c = ws.getCell r c) ∧
    (∀ c, 1 ≤ c → c ≤ maxCol →
      ((cloneCandidateRowTemplate ws fromRow toRow maxCol).getCell toRow c).style =
          (ws.getCell fromRow c).style ∧
        ((cloneCandidateRowTemplate ws fromRow toRow maxCol).getCell toRow c).dataValidation =
          (match (ws.getCell fromRow c).dataValidation with
           | some dvr => some dvr
           | none => (ws.getCell toRow c).dataValidation) ∧
        ((cloneCandidateRowTemplate ws fromRow toRow maxCol).getCell toRow c).value =
          (if 22 ≤ c ∧ c ≤ 31 then .empty
           else
             match (ws.getCell fromRow c).value with
             | .formula f _ =>
               .formula (shiftFormulaRows f ((toRow : Int) - (fromRow : Int))) none
             | sv => cloneCellValue sv)) ∧
    (∀ c, c < 1 ∨ maxCol < c →
      (cloneCandidateRowTemplate ws fromRow toRow maxCol).getCell toRow c = ws.getCell toRow c) := by
  refine ⟨?_, ?_, ?_⟩
  · intro r c hr
    rw [cloneCandidateRowTemplate_getCell ws fromRow toRow maxCol hne r c, if_neg (by tauto)]
  · intro c h1 h2
    rw [cloneCandidateRowTemplate_getCell ws fromRow toRow maxCol hne toRow c,
      if_pos ⟨rfl, h1, h2⟩]
    exact ⟨rfl, rfl, rfl⟩
  · intro c hc
    rw [cloneCandidateRowTemplate_getCell ws fromRow toRow maxCol hne toRow c, if_neg (by omega)]

/-- C4 witness: the amended theorem at a concrete sheet: cloning row 2
into row 3 copies the style, nulls column 23 on the destination while the
source keeps its value. -/
theorem C4_clone_spec_witness :
    (2 : Nat) ≠ 3 ∧
      ((cloneCandidateRowTemplate cexCloneSheet 2 3 38).getCell 2 23).value = .scal (.str "X") ∧
      ((cloneCandidateRowTemplate cexCloneSheet 2 3 38).getCell 3 23).value = .empty := by
  refine ⟨by decide, ?_, ?_⟩
  · have h := (C4_clone_spec cexCloneSheet 2 3 38 (by decide)).1 2 23 (by decide)
    rw [h]
    decide
  · have h := ((C4_clone_spec cexCloneSheet 2 3 38 (by decide)).2.1 23 (by decide) (by decide)).2.2
    rw [h]
    decide

-- ==================================================
-- Claim C8
-- ==================================================

theorem processRecord_empty_key (B : List (String × Nat)) (maxCol : Nat) (st : UpState) (rec : Rec)
    (h : safeStr (recGet rec CANDIDATE_KEY) = "") :
    processRecord B maxCol st rec = st := by
  unfold processRecord
  simp [h]

/-- C8: a record whose key value is empty or whitespace-only is skipped
without an error: the upsert of a batch containing it returns exactly the
same worksheet and `lastDataRow` as the upsert of the batch with the
record removed — no row is created or modified for it and it is not
registered in the key index. -/
theorem C8_empty_key_drop (ws : Sheet) (l1 l2 : List Rec) (rec : Rec) (headerOrder : List String)
    (h : safeStr (recGet rec CANDIDATE_KEY) = "") :
    upsertCandidateSheetWithExcelJS ws (l1 ++ rec :: l2) headerOrder =
      upsertCandidateSheetWithExcelJS ws (l1 ++ l2) headerOrder := by
  unfold upsertCandidateSheetWithExcelJS
  have key : ∀ (B : List (String × Nat)) (mC : Nat) (st : UpState),
      (l1 ++ rec :: l2).foldl (processRecord B mC) st =
        (l1 ++ l2).foldl (processRecord B mC) st := by
    intro B mC st
    rw [List.foldl_append, List.foldl_append, List.foldl_cons,
      processRecord_empty_key B mC _ rec h]
  simp only [key]

/-- C8 witness: a whitespace-only key record dropped from a concrete
batch. -/
theorem C8_empty_key_drop_witness :
    safeStr (recGet [(CANDIDATE_KEY, Scalar.str "   ")] CANDIDATE_KEY) = "" ∧
      upsertCandidateSheetWithExcelJS {} ([] ++ [(CANDIDATE_KEY, Scalar.str "   ")] :: [witJRRec])
          CANDIDATE_OUTPUT_HEADER_ORDER =
        upsertCandidateSheetWithExcelJS {} ([] ++ [witJRRec]) CANDIDATE_OUTPUT_HEADER_ORDER :=
  ⟨by decide, C8_empty_key_drop {} [] [witJRRec] _ CANDIDATE_OUTPUT_HEADER_ORDER (by decide)⟩

-- ==================================================
-- Remaining sub-operation characterizations
-- ==================================================

theorem lookupAssoc_mem [DecidableEq κ] {k : κ} {v : ν} {l : List (κ × ν)}
    (h : lookupAssoc k l = some v) : (k, v) ∈ l := by
  induction l with
  | nil => exact absurd h (by simp [lookupAssoc])
  | cons e rest ih =>
    unfold lookupAssoc at h
    by_cases he : e.1 = k
    · rw [if_pos he] at h
      have hv : e.2 = v := by injection h
      have : (k, v) = e := by
        rw [← he, ← hv]
      rw [this]
      exact List.mem_cons_self e rest
    · rw [if_neg he] at h
      exact List.mem_cons_of_mem _ (ih h)

/-- On a well-formed sheet, cells beyond the column count read empty. -/
theorem Sheet.getCell_beyond_col (ws : Sheet) (hWF : ws.WF) (r c : Nat) (h : ws.colMax < c) :
    ws.getCell r c = defaultCell := by
  unfold Sheet.getCell Sheet.findCell
  cases hl : lookupAssoc (r, c) ws.cells with
  | none => rfl
  | some cell =>
    have hm := hWF _ (lookupAssoc_mem hl)
    simp at hm
    omega

/-- On a well-formed sheet, cells beyond the row count read empty. -/
theorem Sheet.getCell_beyond_row (ws : Sheet) (hWF : ws.WF) (r c : Nat) (h : ws.rowMax < r) :
    ws.getCell r c = defaultCell := by
  unfold Sheet.getCell Sheet.findCell
  cases hl : lookupAssoc (r, c) ws.cells with
  | none => rfl
  | some cell =>
    have hm := hWF _ (lookupAssoc_mem hl)
    simp at hm
    omega

theorem headerAndTruncate_colMax (headerOrder : List String) (maxCol : Nat) (ws : Sheet) :
    (headerAndTruncate headerOrder maxCol ws).colMax = maxCol := by
  unfold headerAndTruncate
  by_cases h : maxCol < (writeHeaderRow headerOrder maxCol ws).colMax
  · rw [if_pos h]
    rfl
  · rw [if_neg h]
    have := writeHeaderRow_colMax headerOrder maxCol ws
    omega

theorem Sheet.rowMax_spliceTailColumns (ws : Sheet) (keep : Nat) :
    (ws.spliceTailColumns keep).rowMax = ws.rowMax := rfl

theorem headerAndTruncate_rowMax (headerOrder : List String) (maxCol : Nat) (ws : Sheet)
    (hmc : 1 ≤ maxCol) :
    (headerAndTruncate headerOrder maxCol ws).rowMax = max ws.rowMax 1 := by
  unfold headerAndTruncate
  by_cases h : maxCol < (writeHeaderRow headerOrder maxCol ws).colMax
  · rw [if_pos h, Sheet.rowMax_spliceTailColumns, writeHeaderRow_rowMax _ _ _ hmc]
  · rw [if_neg h, writeHeaderRow_rowMax _ _ _ hmc]

theorem headerAndTruncate_getCell (headerOrder : List String) (maxCol : Nat) (ws : Sheet)
    (hWF : ws.WF) (r c : Nat) :
    (headerAndTruncate headerOrder maxCol ws).getCell r c =
      if c ≤ maxCol then
        if r = 1 ∧ 1 ≤ c then
          { ws.getCell 1 c with value := .scal (.str (headerOrder.getD (c - 1) "")) }
        else ws.getCell r c
      else defaultCell := by
  unfold headerAndTruncate
  by_cases h : maxCol < (writeHeaderRow headerOrder maxCol ws).colMax
  · rw [if_pos h, Sheet.getCell_spliceTailColumns, writeHeaderRow_getCell]
    by_cases hc : c ≤ maxCol
    · rw [if_pos hc, if_pos hc]
      by_cases hr : r = 1 ∧ 1 ≤ c
      · rw [if_pos (by tauto), if_pos hr]
      · rw [if_neg (by tauto), if_neg hr]
    · rw [if_neg hc, if_neg hc]
  · rw [if_neg h, writeHeaderRow_getCell]
    have hcm := writeHeaderRow_colMax headerOrder maxCol ws
    by_cases hc : c ≤ maxCol
    · rw [if_pos hc]
      by_cases hr : r = 1 ∧ 1 ≤ c
      · rw [if_pos (by tauto), if_pos hr]
      · rw [if_neg (by tauto), if_neg hr]
    · rw [if_neg (by omega), if_neg hc]
      exact Sheet.getCell_beyond_col ws hWF r c (by omega)

theorem resetRangeNulls_getCell (t : Nat) (ws : Sheet) (r c : Nat) :
    (resetRangeNulls t ws).getCell r c =
      if r = t ∧ 22 ≤ c ∧ c ≤ 31 then { ws.getCell t c with value := .empty }
      else ws.getCell r c := by
  have gen : ∀ (n : Nat) (ws : Sheet),
      ((List.range' 22 n).foldl (fun acc c2 => acc.setValue t c2 .empty) ws).getCell r c =
        if r = t ∧ 22 ≤ c ∧ c < 22 + n then { ws.getCell t c with value := .empty }
        else ws.getCell r c := by
    intro n
    induction n with
    | zero =>
      intro ws
      rw [if_neg (by omega)]
      rfl
    | succ m ih =>
      intro ws
      rw [List.range'_1_concat, List.foldl_append, List.foldl_cons, List.foldl_nil]
      rw [Sheet.getCell_setValue]
      by_cases hrc : r = t ∧ c = 22 + m
      · rw [if_pos hrc]
        obtain ⟨h1, h2⟩ := hrc
        subst h1 h2
        rw [ih ws, if_neg (by omega), if_pos (by omega)]
      · rw [if_neg hrc, ih ws]
        by_cases h2 : r = t ∧ 22 ≤ c ∧ c < 22 + m
        · rw [if_pos h2, if_pos (by omega)]
        · rw [if_neg h2, if_neg (by omega)]
  rw [show resetRangeNulls t ws = (List.range' 22 10).foldl (fun acc c2 => acc.setValue t c2 .empty) ws from rfl]
  rw [gen 10 ws]
  by_cases h : r = t ∧ 22 ≤ c ∧ c ≤ 31
  · rw [if_pos (by omega), if_pos h]
  · rw [if_neg (by omega), if_neg h]

theorem writeJRNo_getCell (rec : Rec) (t : Nat) (ws : Sheet) (r c : Nat) :
    (writeJRNo rec t ws).getCell r c =
      match recGet rec JR_NO_ALIAS with
      | some v =>
        if scalarTruthy v ∧ r = t ∧ c = 11 then { ws.getCell t 11 with value := .scal v }
        else ws.getCell r c
      | none => ws.getCell r c := by
  unfold writeJRNo
  cases hj : recGet rec JR_NO_ALIAS with
  | none => rfl
  | some v =>
    simp only
    by_cases ht : scalarTruthy v = true
    · rw [if_pos ht, Sheet.getCell_setValue]
      by_cases hrc : r = t ∧ c = 11
      · rw [if_pos (by tauto), if_pos (by tauto)]
      · rw [if_neg (by tauto), if_neg (by tauto)]
    · rw [if_neg ht, if_neg (by tauto)]

/-- `processRecord` unfolded: a record with a known key rewrites its
existing row; a record with a fresh key allocates, clones, resets, writes
`JR No.`, registers the key, and then rewrites the new row. -/
theorem processRecord_eq (B : List (String × Nat)) (maxCol : Nat) (st : UpState) (rec : Rec)
    (hk : safeStr (recGet rec CANDIDATE_KEY) ≠ "") :
    processRecord B maxCol st rec =
      match lookupAssoc (safeStr (recGet rec CANDIDATE_KEY)) st.keyToRow with
      | some r =>
        { ws := applyExistingRowWrites rec B r st.ws, keyToRow := st.keyToRow,
          lastDataRow := st.lastDataRow }
      | none =>
        { ws := applyExistingRowWrites rec B (st.lastDataRow + 1)
            (writeJRNo rec (st.lastDataRow + 1)
              (resetRangeNulls (st.lastDataRow + 1)
                (if 2 ≤ st.lastDataRow then
                  cloneCandidateRowTemplate st.ws st.lastDataRow (st.lastDataRow + 1) maxCol
                 else st.ws)))
          keyToRow := updateAssoc (safeStr (recGet rec CANDIDATE_KEY))
            (fun _ => st.lastDataRow + 1) st.keyToRow
          lastDataRow := st.lastDataRow + 1 } := by
  unfold processRecord allocNewRow
  rw [if_neg hk]
  cases hl : lookupAssoc (safeStr (recGet rec CANDIDATE_KEY)) st.keyToRow with
  | some r => rfl
  | none => rfl

-- ==================================================
-- Column bounds of the per-record writes
-- ==================================================

theorem case2Ops_map_col (rec : Rec) (B : List (String × Nat)) (r : Nat) :
    (case2Ops rec B r).map WriteOp.col =
      B.map Prod.snd ++
        [12, 13, 14, 15, 16, 17, 18, 18, 19, 20, 20, 21, 33, 33, 34, 34, 35, 35, 36, 36,
         37, 37, 38, 38, 22, 22, 23, 23, 24, 24, 25, 25, 26, 26, 27, 27, 28, 28, 29, 30, 31, 31] := by
  unfold case2Ops
  rw [List.map_append, List.map_append, List.map_append, List.map_map]
  simp only [List.append_assoc]
  congr 1

theorem case2Ops_cols (rec : Rec) (B : List (String × Nat)) (r : Nat)
    (hB : ∀ b ∈ B, b.2 ≤ 38) : ∀ op ∈ case2Ops rec B r, op.col ≤ 38 := by
  intro op hop
  have hm : op.col ∈ (case2Ops rec B r).map WriteOp.col := List.mem_map_of_mem _ hop
  rw [case2Ops_map_col, List.mem_append] at hm
  rcases hm with hm | hm
  · rw [List.mem_map] at hm
    obtain ⟨b, hb, he⟩ := hm
    have := hB b hb
    omega
  · exact (by decide :
      ∀ x ∈ ([12, 13, 14, 15, 16, 17, 18, 18, 19, 20, 20, 21, 33, 33, 34, 34, 35, 35, 36, 36,
        37, 37, 38, 38, 22, 22, 23, 23, 24, 24, 25, 25, 26, 26, 27, 27, 28, 28, 29, 30, 31, 31] : List Nat),
        x ≤ 38) op.col hm

theorem case2Ops_ne_nil (rec : Rec) (B : List (String × Nat)) (r : Nat) :
    case2Ops rec B r ≠ [] := by
  intro h
  have hl := congrArg (List.map WriteOp.col) h
  rw [case2Ops_map_col] at hl
  simp at hl

theorem lastValWrite_none_of_cols (c : Nat) (ops : List WriteOp)
    (h : ∀ op ∈ ops, op.col ≤ 38) (hc : 38 < c) : lastValWrite c ops = none := by
  induction ops with
  | nil => rfl
  | cons op rest ih =>
    have hrest := ih (fun o ho => h o (List.mem_cons_of_mem _ ho))
    cases op with
    | val c2 v =>
      have h2 : c2 ≤ 38 := h (.val c2 v) (List.mem_cons_self _ _)
      unfold lastValWrite
      rw [List.foldl_cons]
      refine (lastValWrite_acc c rest (if c2 = c then some v else none)).trans ?_
      rw [hrest]
      exact if_neg (by omega)
    | fmt c2 s =>
      unfold lastValWrite
      rw [List.foldl_cons]
      exact (lastValWrite_acc c rest none).trans (by rw [hrest])
    | dv c2 rule =>
      unfold lastValWrite
      rw [List.foldl_cons]
      exact (lastValWrite_acc c rest none).trans (by rw [hrest])

theorem lastFmtWrite_none_of_cols (c : Nat) (ops : List WriteOp)
    (h : ∀ op ∈ ops, op.col ≤ 38) (hc : 38 < c) : lastFmtWrite c ops = none := by
  induction ops with
  | nil => rfl
  | cons op rest ih =>
    have hrest := ih (fun o ho => h o (List.mem_cons_of_mem _ ho))
    cases op with
    | fmt c2 s =>
      have h2 : c2 ≤ 38 := h (.fmt c2 s) (List.mem_cons_self _ _)
      unfold lastFmtWrite
      rw [List.foldl_cons]
      refine (lastFmtWrite_acc c rest (if c2 = c then some s else none)).trans ?_
      rw [hrest]
      exact if_neg (by omega)
    | val c2 v =>
      unfold lastFmtWrite
      rw [List.foldl_cons]
      exact (lastFmtWrite_acc c rest none).trans (by rw [hrest])
    | dv c2 rule =>
      unfold lastFmtWrite
      rw [List.foldl_cons]
      exact (lastFmtWrite_acc c rest none).trans (by rw [hrest])

theorem lastDVWrite_none_of_cols (c : Nat) (ops : List WriteOp)
    (h : ∀ op ∈ ops, op.col ≤ 38) (hc : 38 < c) : lastDVWrite c ops = none := by
  induction ops with
  | nil => rfl
  | cons op rest ih =>
    have hrest := ih (fun o ho => h o (List.mem_cons_of_mem _ ho))
    cases op with
    | dv c2 rule =>
      have h2 : c2 ≤ 38 := h (.dv c2 rule) (List.mem_cons_self _ _)
      unfold lastDVWrite
      rw [List.foldl_cons]
      refine (lastDVWrite_acc c rest (if c2 = c then some rule else none)).trans ?_
      rw [hrest]
      exact if_neg (by omega)
    | val c2 v =>
      unfold lastDVWrite
      rw [List.foldl_cons]
      exact (lastDVWrite_acc c rest none).trans (by rw [hrest])
    | fmt c2 s =>
      unfold lastDVWrite
      rw [List.foldl_cons]
      exact (lastDVWrite_acc c rest none).trans (by rw [hrest])

theorem foldl_ops_getCell_beyond (r : Nat) (ops : List WriteOp) (ws : Sheet)
    (hops : ∀ op ∈ ops, op.col ≤ 38) (r' c : Nat) (hc : 38 < c) :
    (ops.foldl (applyWriteOp r) ws).getCell r' c = ws.getCell r' c := by
  by_cases hr : r' = r
  · subst hr
    rw [getCell_foldl_ops]
    apply Cell.ext2
    · rw [value_foldl_cellops, lastValWrite_none_of_cols c ops hops hc]
    · apply Style.ext5
      · rw [numFmt_foldl_cellops, lastFmtWrite_none_of_cols c ops hops hc]
      · exact (font_foldl_cellops c ops _).1
      · exact (font_foldl_cellops c ops _).2.1
      · exact (font_foldl_cellops c ops _).2.2.1
      · exact (font_foldl_cellops c ops _).2.2.2
    · rw [dv_foldl_cellops, lastDVWrite_none_of_cols c ops hops hc]
  · exact getCell_foldl_ops_ne_row r ops ws r' c hr

-- ==================================================
-- Row/column counters of the sub-operations
-- ==================================================

theorem cloneStep_rowMax (fromRow toRow : Nat) (acc : Sheet) (j : Nat) :
    (cloneStep fromRow toRow acc j).rowMax = max acc.rowMax toRow := by
  unfold cloneStep
  cases hdv : (acc.getCell fromRow j).dataValidation <;>
    cases hv : (acc.getCell fromRow j).value <;>
      by_cases hrst : 22 ≤ j ∧ j ≤ 31 <;>
        simp [hdv, hv, hrst, Sheet.rowMax_setValue, Sheet.rowMax_setDV, Sheet.rowMax_setStyle]

theorem cloneStep_colMax (fromRow toRow : Nat) (acc : Sheet) (j : Nat) :
    (cloneStep fromRow toRow acc j).colMax = max acc.colMax j := by
  unfold cloneStep
  cases hdv : (acc.getCell fromRow j).dataValidation <;>
    cases hv : (acc.getCell fromRow j).value <;>
      by_cases hrst : 22 ≤ j ∧ j ≤ 31 <;>
        simp [hdv, hv, hrst, Sheet.colMax_setValue, Sheet.colMax_setDV, Sheet.colMax_setStyle]

theorem cloneCandidateRowTemplate_rowMax (ws : Sheet) (fromRow toRow maxCol : Nat)
    (h1 : 1 ≤ maxCol) :
    (cloneCandidateRowTemplate ws fromRow toRow maxCol).rowMax = max ws.rowMax toRow := by
  induction maxCol with
  | zero => omega
  | succ n ih =>
    unfold cloneCandidateRowTemplate at ih ⊢
    rw [List.range'_1_concat, List.foldl_append, List.foldl_cons, List.foldl_nil]
    rw [cloneStep_rowMax]
    by_cases hn : 1 ≤ n
    · rw [ih hn]
      omega
    · have hn0 : n = 0 := by omega
      subst hn0
      rfl

theorem cloneCandidateRowTemplate_colMax (ws : Sheet) (fromRow toRow maxCol : Nat)
    (h1 : 1 ≤ maxCol) :
    (cloneCandidateRowTemplate ws fromRow toRow maxCol).colMax = max ws.colMax maxCol := by
  induction maxCol with
  | zero => omega
  | succ n ih =>
    unfold cloneCandidateRowTemplate at ih ⊢
    rw [List.range'_1_concat, List.foldl_append, List.foldl_cons, List.foldl_nil]
    rw [cloneStep_colMax]
    by_cases hn : 1 ≤ n
    · rw [ih hn]
      omega
    · have hn0 : n = 0 := by omega
      subst hn0
      simp

theorem resetRangeNulls_rowMax (t : Nat) (ws : Sheet) :
    (resetRangeNulls t ws).rowMax = max ws.rowMax t := by
  show ((List.range' 22 10).foldl (fun acc c => acc.setValue t c .empty) ws).rowMax = _
  rw [show List.range' 22 10 = [22, 23, 24, 25, 26, 27, 28, 29, 30, 31] from rfl]
  simp only [List.foldl_cons, List.foldl_nil, Sheet.rowMax_setValue]
  omega

theorem resetRangeNulls_colMax (t : Nat) (ws : Sheet) :
    (resetRangeNulls t ws).colMax = max ws.colMax 31 := by
  show ((List.range' 22 10).foldl (fun acc c => acc.setValue t c .empty) ws).colMax = _
  rw [show List.range' 22 10 = [22, 23, 24, 25, 26, 27, 28, 29, 30, 31] from rfl]
  simp only [List.foldl_cons, List.foldl_nil, Sheet.colMax_setValue]
  omega

theorem writeJRNo_rowMax (rec : Rec) (t : Nat) (ws : Sheet) :
    ws.rowMax ≤ (writeJRNo rec t ws).rowMax ∧ (writeJRNo rec t ws).rowMax ≤ max ws.rowMax t := by
  unfold writeJRNo
  cases recGet rec JR_NO_ALIAS with
  | none => exact ⟨le_refl _, le_max_left _ _⟩
  | some v =>
    dsimp only
    by_cases ht : scalarTruthy v = true
    · rw [if_pos ht]
      exact ⟨le_max_left _ _, le_refl _⟩
    · rw [if_neg ht]
      exact ⟨le_refl _, le_max_left _ _⟩

theorem writeJRNo_colMax (rec : Rec) (t : Nat) (ws : Sheet) (h : 11 ≤ ws.colMax) :
    (writeJRNo rec t ws).colMax = ws.colMax := by
  unfold writeJRNo
  cases recGet rec JR_NO_ALIAS with
  | none => rfl
  | some v =>
    dsimp only
    by_cases ht : scalarTruthy v = true
    · rw [if_pos ht]
      show max ws.colMax 11 = ws.colMax
      omega
    · rw [if_neg ht]

theorem writeJRNo_getCell_ne (rec : Rec) (t : Nat) (ws : Sheet) (r c : Nat)
    (h : ¬(r = t ∧ c = 11)) : (writeJRNo rec t ws).getCell r c = ws.getCell r c := by
  rw [writeJRNo_getCell]
  cases recGet rec JR_NO_ALIAS with
  | none => rfl
  | some v => exact if_neg (by tauto)

-- ==================================================
-- Frame facts of one record-loop step
-- ==================================================

/-- One loop step keeps the state invariant, never moves the cursor back,
never touches the header row, never touches a column beyond 38, and keeps
the column count of a sheet already at (or beyond) the 38-column cap. -/
theorem processRecord_frame (B : List (String × Nat)) (maxCol : Nat) (st : UpState) (rec : Rec)
    (hB : ∀ b ∈ B, b.2 ≤ 38) (hmc1 : 1 ≤ maxCol) (hmc : maxCol ≤ 38) (hinv : StInv st) :
    StInv (processRecord B maxCol st rec) ∧
      st.lastDataRow ≤ (processRecord B maxCol st rec).lastDataRow ∧
      (∀ c, (processRecord B maxCol st rec).ws.getCell 1 c = st.ws.getCell 1 c) ∧
      (∀ r c, 38 < c → (processRecord B maxCol st rec).ws.getCell r c = st.ws.getCell r c) ∧
      (38 ≤ st.ws.colMax → (processRecord B maxCol st rec).ws.colMax = st.ws.colMax) := by
  have h1 := hinv.1
  by_cases hk : safeStr (recGet rec CANDIDATE_KEY) = ""
  · rw [processRecord_empty_key B maxCol st rec hk]
    exact ⟨hinv, le_refl _, fun c => rfl, fun r c _ => rfl, fun _ => rfl⟩
  · rw [processRecord_eq B maxCol st rec hk]
    cases hl : lookupAssoc (safeStr (recGet rec CANDIDATE_KEY)) st.keyToRow with
    | some r =>
      dsimp only
      have hr := hinv.2 _ _ hl
      have hops := case2Ops_cols rec B r hB
      refine ⟨⟨hinv.1, hinv.2⟩, le_refl _, ?_, ?_, ?_⟩
      · intro c
        exact getCell_foldl_ops_ne_row r _ st.ws 1 c (by omega)
      · intro r2 c hc
        exact foldl_ops_getCell_beyond r _ st.ws hops r2 c hc
      · intro h38
        exact colMax_foldl_ops r _ st.ws hops h38
    | none =>
      dsimp only
      set t := st.lastDataRow + 1 with htdef
      have ht2 : 2 ≤ t := by omega
      set ws0 := (if 2 ≤ st.lastDataRow then
        cloneCandidateRowTemplate st.ws st.lastDataRow t maxCol else st.ws) with hws0
      set ws1 := resetRangeNulls t ws0 with hws1
      set ws2 := writeJRNo rec t ws1 with hws2
      have hops := case2Ops_cols rec B t hB
      have hclone : ∀ r2 c2, ¬(r2 = t ∧ 1 ≤ c2 ∧ c2 ≤ maxCol) →
          ws0.getCell r2 c2 = st.ws.getCell r2 c2 := by
        intro r2 c2 hno
        rw [hws0]
        by_cases h2l : 2 ≤ st.lastDataRow
        · rw [if_pos h2l,
            cloneCandidateRowTemplate_getCell st.ws st.lastDataRow t maxCol (by omega) r2 c2,
            if_neg hno]
        · rw [if_neg h2l]
      refine ⟨⟨(by omega : 1 ≤ t), ?_⟩, (by omega : st.lastDataRow ≤ t), ?_, ?_, ?_⟩
      · intro k r2 hkr
        dsimp only at hkr ⊢
        rw [lookupAssoc_updateAssoc] at hkr
        by_cases hkk : k = safeStr (recGet rec CANDIDATE_KEY)
        · rw [if_pos hkk] at hkr
          have : t = r2 := by injection hkr
          omega
        · rw [if_neg hkk] at hkr
          have := hinv.2 _ _ hkr
          omega
      · intro c
        unfold applyExistingRowWrites
        rw [getCell_foldl_ops_ne_row t _ ws2 1 c (by omega),
          hws2, writeJRNo_getCell_ne rec t ws1 1 c (by rintro ⟨hh, _⟩; omega),
          hws1, resetRangeNulls_getCell, if_neg (by rintro ⟨hh, _⟩; omega)]
        exact hclone 1 c (by rintro ⟨hh, _⟩; omega)
      · intro r2 c hc
        unfold applyExistingRowWrites
        rw [foldl_ops_getCell_beyond t _ ws2 hops r2 c hc,
          hws2, writeJRNo_getCell_ne rec t ws1 r2 c (by rintro ⟨_, hh⟩; omega),
          hws1, resetRangeNulls_getCell, if_neg (by rintro ⟨_, _, hh⟩; omega)]
        exact hclone r2 c (by rintro ⟨_, _, hh⟩; omega)
      · intro h38
        have hcm0 : ws0.colMax = st.ws.colMax := by
          rw [hws0]
          by_cases h2l : 2 ≤ st.lastDataRow
          · rw [if_pos h2l,
              cloneCandidateRowTemplate_colMax st.ws st.lastDataRow t maxCol hmc1]
            omega
          · rw [if_neg h2l]
        have hcm1 : ws1.colMax = st.ws.colMax := by
          rw [hws1, resetRangeNulls_colMax, hcm0]
          omega
        have hcm2 : ws2.colMax = st.ws.colMax := by
          rw [hws2, writeJRNo_colMax _ _ _ (by omega), hcm1]
        unfold applyExistingRowWrites
        rw [colMax_foldl_ops t _ ws2 hops (by omega), hcm2]

/-- The record loop as a whole keeps the state invariant, the header row,
the columns beyond the 38-column cap, and the column count of a sheet at
that cap. -/
theorem foldl_processRecord_frame (B : List (String × Nat)) (maxCol : Nat)
    (hB : ∀ b ∈ B, b.2 ≤ 38) (hmc1 : 1 ≤ maxCol) (hmc : maxCol ≤ 38) :
    ∀ (recs : List Rec) (st : UpState), StInv st →
      StInv (recs.foldl (processRecord B maxCol) st) ∧
        st.lastDataRow ≤ (recs.foldl (processRecord B maxCol) st).lastDataRow ∧
        (∀ c, (recs.foldl (processRecord B maxCol) st).ws.getCell 1 c = st.ws.getCell 1 c) ∧
        (∀ r c, 38 < c →
          (recs.foldl (processRecord B maxCol) st).ws.getCell r c = st.ws.getCell r c) ∧
        (38 ≤ st.ws.colMax →
          (recs.foldl (processRecord B maxCol) st).ws.colMax = st.ws.colMax) := by
  intro recs
  induction recs with
  | nil => exact fun st hinv => ⟨hinv, le_refl _, fun c => rfl, fun r c _ => rfl, fun _ => rfl⟩
  | cons rec rest ih =>
    intro st hinv
    rw [List.foldl_cons]
    have hstep := processRecord_frame B maxCol st rec hB hmc1 hmc hinv
    have htail := ih (processRecord B maxCol st rec) hstep.1
    refine ⟨htail.1, le_trans hstep.2.1 htail.2.1, ?_, ?_, ?_⟩
    · intro c
      rw [htail.2.2.1 c, hstep.2.2.1 c]
    · intro r c hc
      rw [htail.2.2.2.1 r c hc, hstep.2.2.2.1 r c hc]
    · intro h38
      rw [htail.2.2.2.2 (by rw [hstep.2.2.2.2 h38]; exact h38), hstep.2.2.2.2 h38]

-- ==================================================
-- The key-index scan establishes the state invariant
-- ==================================================

theorem scanFold_inv (ws : Sheet) (keyCol : Nat) (B : List (String × Nat)) :
    ∀ (L : List Nat) (st : ScanState),
      (∀ rr ∈ L, 2 ≤ rr) → L.Pairwise (· < ·) → (∀ rr ∈ L, st.lastDataRow ≤ rr) →
      1 ≤ st.lastDataRow →
      (∀ k r, lookupAssoc k st.keyToRow = some r → 2 ≤ r ∧ r ≤ st.lastDataRow) →
      1 ≤ (L.foldl (scanRow ws keyCol B) st).lastDataRow ∧
        ∀ k r, lookupAssoc k (L.foldl (scanRow ws keyCol B) st).keyToRow = some r →
          2 ≤ r ∧ r ≤ (L.foldl (scanRow ws keyCol B) st).lastDataRow := by
  intro L
  induction L with
  | nil => exact fun st _ _ _ h1 h2 => ⟨h1, h2⟩
  | cons rr rest ih =>
    intro st h2 hpair hmono h1 hinv
    rw [List.foldl_cons]
    have hrr2 : 2 ≤ rr := h2 rr (List.mem_cons_self _ _)
    have hmrr : st.lastDataRow ≤ rr := hmono rr (List.mem_cons_self _ _)
    have hlast : (scanRow ws keyCol B st rr).lastDataRow = rr ∨
        (scanRow ws keyCol B st rr).lastDataRow = st.lastDataRow := by
      unfold scanRow
      dsimp only
      split
      · exact Or.inl rfl
      · exact Or.inr rfl
    apply ih
    · exact fun r hr => h2 r (List.mem_cons_of_mem _ hr)
    · exact hpair.of_cons
    · intro r2 hr2
      have hlt : rr < r2 := (List.pairwise_cons.mp hpair).1 r2 hr2
      have hm2 : st.lastDataRow ≤ r2 := hmono r2 (List.mem_cons_of_mem _ hr2)
      rcases hlast with h | h <;> omega
    · rcases hlast with h | h <;> omega
    · intro k r hkr
      have hmap : (scanRow ws keyCol B st rr).keyToRow =
          if excelCellValueToString ((ws.getCell rr keyCol)).value ≠ "" then
            updateAssoc (excelCellValueToString ((ws.getCell rr keyCol)).value)
              (fun _ => rr) st.keyToRow
          else st.keyToRow := rfl
      rw [hmap] at hkr
      by_cases hkey : excelCellValueToString ((ws.getCell rr keyCol)).value ≠ ""
      · rw [if_pos hkey, lookupAssoc_updateAssoc] at hkr
        have hlb : rr ≤ (scanRow ws keyCol B st rr).lastDataRow := by
          unfold scanRow
          dsimp only
          rw [if_pos (by simp [hkey])]
        by_cases hkk : k = excelCellValueToString ((ws.getCell rr keyCol)).value
        · rw [if_pos hkk] at hkr
          have : rr = r := by injection hkr
          omega
        · rw [if_neg hkk] at hkr
          have := hinv _ _ hkr
          rcases hlast with h | h <;> omega
      · rw [if_neg hkey] at hkr
        have := hinv _ _ hkr
        rcases hlast with h | h <;> omega

theorem scanSheet_inv (ws : Sheet) (keyCol : Nat) (B : List (String × Nat)) :
    1 ≤ (scanSheet ws keyCol B).lastDataRow ∧
      ∀ k r, lookupAssoc k (scanSheet ws keyCol B).keyToRow = some r →
        2 ≤ r ∧ r ≤ (scanSheet ws keyCol B).lastDataRow := by
  unfold scanSheet
  apply scanFold_inv
  · intro rr hrr
    have := List.mem_range'_1.mp hrr
    omega
  · exact List.pairwise_lt_range' 2 (ws.rowMax - 1)
  · intro rr hrr
    have := List.mem_range'_1.mp hrr
    show 1 ≤ rr
    omega
  · exact le_refl 1
  · intro k r h
    exact absurd h (by simp [lookupAssoc])

-- ==================================================
-- The column-index lookup (buildColByHeader)
-- ==================================================

theorem buildColByHeader_lookup_bounds (headerOrder : List String) (maxCol : Nat) :
    ∀ h c, lookupAssoc h (buildColByHeader headerOrder maxCol) = some c →
      1 ≤ c ∧ c ≤ maxCol := by
  have gen : ∀ (L : List Nat) (m : List (String × Nat)),
      (∀ i ∈ L, 1 ≤ i ∧ i ≤ maxCol) →
      (∀ h c, lookupAssoc h m = some c → 1 ≤ c ∧ c ≤ maxCol) →
      ∀ h c, lookupAssoc h
        (L.foldl (fun m c =>
          let hh := normalizeHeader (headerOrder.getD (c - 1) "")
          if hh = "" then m else updateAssoc hh (fun _ => c) m) m) = some c →
        1 ≤ c ∧ c ≤ maxCol := by
    intro L
    induction L with
    | nil => exact fun m _ hm => hm
    | cons i rest ih =>
      intro m hL hm
      rw [List.foldl_cons]
      apply ih
      · exact fun j hj => hL j (List.mem_cons_of_mem _ hj)
      · intro h c hlk
        dsimp only at hlk
        by_cases hh : normalizeHeader (headerOrder.getD (i - 1) "") = ""
        · rw [if_pos hh] at hlk
          exact hm h c hlk
        · rw [if_neg hh, lookupAssoc_updateAssoc] at hlk
          by_cases hhh : h = normalizeHeader (headerOrder.getD (i - 1) "")
          · rw [if_pos hhh] at hlk
            have : i = c := by injection hlk
            have := hL i (List.mem_cons_self _ _)
            omega
          · rw [if_neg hhh] at hlk
            exact hm h c hlk
  intro h c hl
  refine gen (List.range' 1 maxCol) [] ?_ ?_ h c hl
  · intro i hi
    have := List.mem_range'_1.mp hi
    omega
  · intro h2 c2 hc
    exact absurd hc (by simp [lookupAssoc])

theorem buildColByHeader_lookup_none (headerOrder : List String) (maxCol : Nat)
    (habs : ∀ c, 1 ≤ c → c ≤ maxCol →
      normalizeHeader (headerOrder.getD (c - 1) "") ≠ CANDIDATE_KEY) :
    lookupAssoc CANDIDATE_KEY (buildColByHeader headerOrder maxCol) = none := by
  have gen : ∀ (L : List Nat) (m : List (String × Nat)),
      (∀ i ∈ L, 1 ≤ i ∧ i ≤ maxCol) →
      lookupAssoc CANDIDATE_KEY m = none →
      lookupAssoc CANDIDATE_KEY
        (L.foldl (fun m c =>
          let hh := normalizeHeader (headerOrder.getD (c - 1) "")
          if hh = "" then m else updateAssoc hh (fun _ => c) m) m) = none := by
    intro L
    induction L with
    | nil => exact fun m _ hm => hm
    | cons i rest ih =>
      intro m hL hm
      rw [List.foldl_cons]
      apply ih
      · exact fun j hj => hL j (List.mem_cons_of_mem _ hj)
      · dsimp only
        by_cases hh : normalizeHeader (headerOrder.getD (i - 1) "") = ""
        · rw [if_pos hh]
          exact hm
        · rw [if_neg hh, lookupAssoc_updateAssoc]
          have hi := hL i (List.mem_cons_self _ _)
          rw [if_neg (fun he => habs i hi.1 hi.2 he.symm)]
          exact hm
  refine gen (List.range' 1 maxCol) [] ?_ (by simp [lookupAssoc])
  intro i hi
  have := List.mem_range'_1.mp hi
  omega

theorem candBaseColsInfo_cols (colByHeader : List (String × Nat))
    (hcb : ∀ h c, lookupAssoc h colByHeader = some c → 1 ≤ c ∧ c ≤ 38) :
    ∀ b ∈ candBaseColsInfo colByHeader, b.2 ≤ 38 := by
  intro b hb
  unfold candBaseColsInfo at hb
  rw [List.mem_filterMap] at hb
  obtain ⟨h, hh, hmap⟩ := hb
  cases hl2 : lookupAssoc h colByHeader with
  | none =>
    rw [hl2] at hmap
    exact absurd hmap (by simp)
  | some c =>
    rw [hl2] at hmap
    have hb2 : (h, c) = b := by injection hmap
    have hc := hcb h c hl2
    rw [← hb2]
    exact hc.2

-- ==================================================
-- Claim C2
-- ==================================================

/-- C2 counterexample: when the business-key column is absent the upsert
does fail with the MissingKeyColumnError, but NOT before mutating the
sheet: the header row has already been rewritten from `headerOrder` when
the error is raised (cell (1,1) reads "B", no longer its prior "A"). -/
theorem C2_mutation_before_error_counterexample :
    (upsertCandidateSheetWithExcelJS cexHeaderSheet [] ["B"]).1 =
      .error ("ไม่พบคอลัมน์ key \"" ++ CANDIDATE_KEY ++ "\" ใน " ++ SHEET_CANDIDATE) ∧
    ((upsertCandidateSheetWithExcelJS cexHeaderSheet [] ["B"]).2.getCell 1 1).value =
      .scal (.str "B") ∧
    (cexHeaderSheet.getCell 1 1).value = .scal (.str "A") :=
  ⟨rfl, rfl, rfl⟩

/-- C2 (amended): if no column of the truncated `headerOrder` normalizes
to the business-key name and `headerOrder` is nonempty, the upsert
returns the MissingKeyColumnError without processing any record — but
after the header write and the column truncation: the returned sheet is
exactly the header-and-truncate of the input, so every data cell (row ≥ 2)
within the kept columns is unchanged and every column beyond the cap is
discarded. -/
theorem C2_missing_key_error (ws : Sheet) (incoming : List Rec) (headerOrder : List String)
    (hWF : ws.WF) (hne : headerOrder ≠ [])
    (habs : ∀ c, 1 ≤ c → c ≤ min CANDIDATE_MAX_COLUMNS headerOrder.length →
      normalizeHeader (headerOrder.getD (c - 1) "") ≠ CANDIDATE_KEY) :
    (upsertCandidateSheetWithExcelJS ws incoming headerOrder).1 =
      .error ("ไม่พบคอลัมน์ key \"" ++ CANDIDATE_KEY ++ "\" ใน " ++ SHEET_CANDIDATE) ∧
    (upsertCandidateSheetWithExcelJS ws incoming headerOrder).2 =
      headerAndTruncate headerOrder (min CANDIDATE_MAX_COLUMNS headerOrder.length) ws ∧
    (∀ r c, 2 ≤ r →
      (upsertCandidateSheetWithExcelJS ws incoming headerOrder).2.getCell r c =
        if c ≤ min CANDIDATE_MAX_COLUMNS headerOrder.length then ws.getCell r c
        else defaultCell) := by
  have hlen : 1 ≤ headerOrder.length := by
    cases headerOrder with
    | nil => exact absurd rfl hne
    | cons a l => simp
  have hkey := buildColByHeader_lookup_none headerOrder
    (min CANDIDATE_MAX_COLUMNS headerOrder.length) habs
  have h38 : CANDIDATE_MAX_COLUMNS = 38 := rfl
  unfold upsertCandidateSheetWithExcelJS
  rw [if_neg (by omega)]
  simp only [hkey]
  refine ⟨trivial, trivial, ?_⟩
  intro r c hr
  rw [headerAndTruncate_getCell headerOrder _ ws hWF r c]
  by_cases hc : c ≤ min CANDIDATE_MAX_COLUMNS headerOrder.length
  · rw [if_pos hc, if_pos hc, if_neg (by omega)]
  · rw [if_neg hc, if_neg hc]

/-- C2 witness: the amended theorem at a concrete sheet and header
order. -/
theorem C2_missing_key_error_witness :
    cexHeaderSheet.WF ∧ (["B"] : List String) ≠ [] ∧
    (upsertCandidateSheetWithExcelJS cexHeaderSheet [] ["B"]).1 =
      .error ("ไม่พบคอลัมน์ key \"" ++ CANDIDATE_KEY ++ "\" ใน " ++ SHEET_CANDIDATE) :=
  ⟨by unfold Sheet.WF; decide, by decide,
    (C2_missing_key_error cexHeaderSheet [] ["B"] (by unfold Sheet.WF; decide) (by decide)
      (by
        intro c h1 h2
        have h2b : c ≤ min 38 1 := h2
        have hc1 : c = 1 := by omega
        subst hc1
        decide)).1⟩

-- ==================================================
-- Claim C7
-- ==================================================

set_option maxRecDepth 8000 in
/-- C7: with a `headerOrder` longer than the 38-column cap, upsert leaves
the sheet with exactly 38 columns: the column count is 38, header cells
1..38 hold the first 38 header names, and every cell in a column beyond
38 — including any pre-existing data there — reads empty. -/
theorem C7_column_truncation (ws : Sheet) (incoming : List Rec) (headerOrder : List String)
    (hlen : 38 < headerOrder.length) (hWF : ws.WF) :
    (upsertCandidateSheetWithExcelJS ws incoming headerOrder).2.colMax = 38 ∧
    (∀ c, 1 ≤ c → c ≤ 38 →
      ((upsertCandidateSheetWithExcelJS ws incoming headerOrder).2.getCell 1 c).value =
        .scal (.str (headerOrder.getD (c - 1) ""))) ∧
    (∀ r c, 38 < c →
      (upsertCandidateSheetWithExcelJS ws incoming headerOrder).2.getCell r c = defaultCell) := by
  have h38 : CANDIDATE_MAX_COLUMNS = 38 := rfl
  have hmin : min CANDIDATE_MAX_COLUMNS headerOrder.length = 38 := by omega
  unfold upsertCandidateSheetWithExcelJS
  rw [hmin, if_neg (by omega)]
  cases hl : lookupAssoc CANDIDATE_KEY (buildColByHeader headerOrder 38) with
  | none =>
    simp only [hl]
    have h2cm := headerAndTruncate_colMax headerOrder 38 ws
    have h2get := headerAndTruncate_getCell headerOrder 38 ws hWF
    refine ⟨h2cm, ?_, ?_⟩
    · intro c h1 hc38
      rw [h2get 1 c, if_pos hc38, if_pos ⟨rfl, h1⟩]
    · intro r c hc
      rw [h2get r c, if_neg (by omega)]
  | some keyCol =>
    simp only [hl]
    have hB := candBaseColsInfo_cols (buildColByHeader headerOrder 38)
      (buildColByHeader_lookup_bounds headerOrder 38)
    have h2cm := headerAndTruncate_colMax headerOrder 38 ws
    have h2get := headerAndTruncate_getCell headerOrder 38 ws hWF
    generalize hB0 : candBaseColsInfo (buildColByHeader headerOrder 38) = B0
    rw [hB0] at hB
    generalize hws2 : headerAndTruncate headerOrder 38 ws = ws2
    rw [hws2] at h2cm h2get
    have hscan := scanSheet_inv ws2 keyCol B0
    generalize hsc : scanSheet ws2 keyCol B0 = sc
    rw [hsc] at hscan
    generalize hst0 : ({ ws := ws2, keyToRow := sc.keyToRow, lastDataRow := sc.lastDataRow } :
      UpState) = st0
    have hst0ws : st0.ws = ws2 := by rw [← hst0]
    have hinv0 : StInv st0 := by
      rw [← hst0]
      exact ⟨hscan.1, hscan.2⟩
    have hfold := foldl_processRecord_frame B0 38 hB (by omega) (le_refl 38) incoming st0 hinv0
    refine ⟨?_, ?_, ?_⟩
    · rw [hfold.2.2.2.2 (by rw [hst0ws, h2cm]), hst0ws]
      exact h2cm
    · intro c h1 hc38
      rw [hfold.2.2.1 c, hst0ws, h2get 1 c, if_pos hc38, if_pos ⟨rfl, h1⟩]
    · intro r c hc
      rw [hfold.2.2.2.1 r c hc, hst0ws, h2get r c, if_neg (by omega)]

/-- C7 witness: the truncation theorem at a 39-name header order over a
concrete one-cell sheet. -/
theorem C7_column_truncation_witness :
    38 < (List.replicate 39 "H").length ∧ cexHeaderSheet.WF ∧
    (upsertCandidateSheetWithExcelJS cexHeaderSheet [] (List.replicate 39 "H")).2.colMax = 38 :=
  ⟨by decide, by unfold Sheet.WF; decide,
    (C7_column_truncation cexHeaderSheet [] (List.replicate 39 "H") (by decide)
      (by unfold Sheet.WF; decide)).1⟩

-- ==================================================
-- Write-op shape (opKey) and absorption of repeated
-- target-row rewrites
-- ==================================================

theorem lastValWrite_cons (c : Nat) (op : WriteOp) (rest : List WriteOp) :
    lastValWrite c (op :: rest) =
      match lastValWrite c rest with
      | some v => some v
      | none =>
        match op with
        | .val c2 v => if c2 = c then some v else none
        | _ => none := by
  unfold lastValWrite
  rw [List.foldl_cons]
  exact lastValWrite_acc c rest _

theorem lastFmtWrite_cons (c : Nat) (op : WriteOp) (rest : List WriteOp) :
    lastFmtWrite c (op :: rest) =
      match lastFmtWrite c rest with
      | some s => some s
      | none =>
        match op with
        | .fmt c2 s => if c2 = c then some s else none
        | _ => none := by
  unfold lastFmtWrite
  rw [List.foldl_cons]
  exact lastFmtWrite_acc c rest _

theorem lastDVWrite_cons (c : Nat) (op : WriteOp) (rest : List WriteOp) :
    lastDVWrite c (op :: rest) =
      match lastDVWrite c rest with
      | some rule => some rule
      | none =>
        match op with
        | .dv c2 rule => if c2 = c then some rule else none
        | _ => none := by
  unfold lastDVWrite
  rw [List.foldl_cons]
  exact lastDVWrite_acc c rest _

theorem lastValWrite_isNone_congr (c : Nat) :
    ∀ (l1 l2 : List WriteOp), l1.map opKey = l2.map opKey →
      (lastValWrite c l1).isNone = (lastValWrite c l2).isNone := by
  intro l1
  induction l1 with
  | nil =>
    intro l2 h
    cases l2 with
    | nil => rfl
    | cons b bs => exact absurd h (by simp)
  | cons a as ih =>
    intro l2 h
    cases l2 with
    | nil => exact absurd h (by simp)
    | cons b bs =>
      simp only [List.map_cons, List.cons.injEq] at h
      obtain ⟨hab, hrest⟩ := h
      have hih := ih bs hrest
      rw [lastValWrite_cons, lastValWrite_cons]
      cases h1 : lastValWrite c as with
      | none =>
        cases h2 : lastValWrite c bs with
        | none =>
          cases a with
          | val ca va =>
            cases b with
            | val cb vb =>
              have hcc : ca = cb := by simpa [opKey] using hab
              subst hcc
              by_cases hc : ca = c
              · simp [hc]
              · simp [hc]
            | fmt cb sb => simp [opKey] at hab
            | dv cb rb => simp [opKey] at hab
          | fmt ca sa =>
            cases b with
            | val cb vb => simp [opKey] at hab
            | fmt cb sb => rfl
            | dv cb rb => rfl
          | dv ca ra =>
            cases b with
            | val cb vb => simp [opKey] at hab
            | fmt cb sb => rfl
            | dv cb rb => rfl
        | some v2 =>
          rw [h1, h2] at hih
          simp at hih
      | some v1 =>
        cases h2 : lastValWrite c bs with
        | none =>
          rw [h1, h2] at hih
          simp at hih
        | some v2 => rfl

theorem lastFmtWrite_isNone_congr (c : Nat) :
    ∀ (l1 l2 : List WriteOp), l1.map opKey = l2.map opKey →
      (lastFmtWrite c l1).isNone = (lastFmtWrite c l2).isNone := by
  intro l1
  induction l1 with
  | nil =>
    intro l2 h
    cases l2 with
    | nil => rfl
    | cons b bs => exact absurd h (by simp)
  | cons a as ih =>
    intro l2 h
    cases l2 with
    | nil => exact absurd h (by simp)
    | cons b bs =>
      simp only [List.map_cons, List.cons.injEq] at h
      obtain ⟨hab, hrest⟩ := h
      have hih := ih bs hrest
      rw [lastFmtWrite_cons, lastFmtWrite_cons]
      cases h1 : lastFmtWrite c as with
      | none =>
        cases h2 : lastFmtWrite c bs with
        | none =>
          cases a with
          | fmt ca sa =>
            cases b with
            | fmt cb sb =>
              have hcc : ca = cb := by simpa [opKey] using hab
              subst hcc
              by_cases hc : ca = c
              · simp [hc]
              · simp [hc]
            | val cb vb => simp [opKey] at hab
            | dv cb rb => simp [opKey] at hab
          | val ca va =>
            cases b with
            | fmt cb sb => simp [opKey] at hab
            | val cb vb => rfl
            | dv cb rb => rfl
          | dv ca ra =>
            cases b with
            | fmt cb sb => simp [opKey] at hab
            | val cb vb => rfl
            | dv cb rb => rfl
        | some v2 =>
          rw [h1, h2] at hih
          simp at hih
      | some v1 =>
        cases h2 : lastFmtWrite c bs with
        | none =>
          rw [h1, h2] at hih
          simp at hih
        | some v2 => rfl

theorem lastDVWrite_isNone_congr (c : Nat) :
    ∀ (l1 l2 : List WriteOp), l1.map opKey = l2.map opKey →
      (lastDVWrite c l1).isNone = (lastDVWrite c l2).isNone := by
  intro l1
  induction l1 with
  | nil =>
    intro l2 h
    cases l2 with
    | nil => rfl
    | cons b bs => exact absurd h (by simp)
  | cons a as ih =>
    intro l2 h
    cases l2 with
    | nil => exact absurd h (by simp)
    | cons b bs =>
      simp only [List.map_cons, List.cons.injEq] at h
      obtain ⟨hab, hrest⟩ := h
      have hih := ih bs hrest
      rw [lastDVWrite_cons, lastDVWrite_cons]
      cases h1 : lastDVWrite c as with
      | none =>
        cases h2 : lastDVWrite c bs with
        | none =>
          cases a with
          | dv ca ra =>
            cases b with
            | dv cb rb =>
              have hcc : ca = cb := by simpa [opKey] using hab
              subst hcc
              by_cases hc : ca = c
              · simp [hc]
              · simp [hc]
            | val cb vb => simp [opKey] at hab
            | fmt cb sb => simp [opKey] at hab
          | val ca va =>
            cases b with
            | dv cb rb => simp [opKey] at hab
            | val cb vb => rfl
            | fmt cb sb => rfl
          | fmt ca sa =>
            cases b with
            | dv cb rb => simp [opKey] at hab
            | val cb vb => rfl
            | fmt cb sb => rfl
        | some v2 =>
          rw [h1, h2] at hih
          simp at hih
      | some v1 =>
        cases h2 : lastDVWrite c bs with
        | none =>
          rw [h1, h2] at hih
          simp at hih
        | some v2 => rfl

theorem case2Ops_map_opKey (rec : Rec) (B : List (String × Nat)) (r : Nat) :
    (case2Ops rec B r).map opKey =
      B.map (fun b => ((0 : Nat), b.2)) ++
        [((0 : Nat), (12 : Nat)), (0, 13), (0, 14), (0, 15), (0, 16), (0, 17), (0, 18), (1, 18),
         (0, 19), (0, 20), (1, 20), (0, 21), (0, 33), (1, 33), (0, 34), (1, 34), (0, 35), (1, 35),
         (0, 36), (1, 36), (0, 37), (1, 37), (0, 38), (1, 38), (2, 22), (1, 22), (2, 23), (1, 23),
         (2, 24), (1, 24), (2, 25), (1, 25), (2, 26), (1, 26), (2, 27), (1, 27), (2, 28), (1, 28),
         (2, 29), (2, 30), (2, 31), (1, 31)] := by
  unfold case2Ops
  rw [List.map_append, List.map_append, List.map_append, List.map_map]
  simp only [List.append_assoc]
  congr 1

theorem lastValWrite_case2_isNone (rec1 rec2 : Rec) (B : List (String × Nat)) (r1 r2 c : Nat) :
    (lastValWrite c (case2Ops rec1 B r1)).isNone =
      (lastValWrite c (case2Ops rec2 B r2)).isNone :=
  lastValWrite_isNone_congr c _ _ (by rw [case2Ops_map_opKey, case2Ops_map_opKey])

theorem lastFmtWrite_case2_isNone (rec1 rec2 : Rec) (B : List (String × Nat)) (r1 r2 c : Nat) :
    (lastFmtWrite c (case2Ops rec1 B r1)).isNone =
      (lastFmtWrite c (case2Ops rec2 B r2)).isNone :=
  lastFmtWrite_isNone_congr c _ _ (by rw [case2Ops_map_opKey, case2Ops_map_opKey])

theorem lastDVWrite_case2_isNone (rec1 rec2 : Rec) (B : List (String × Nat)) (r1 r2 c : Nat) :
    (lastDVWrite c (case2Ops rec1 B r1)).isNone =
      (lastDVWrite c (case2Ops rec2 B r2)).isNone :=
  lastDVWrite_isNone_congr c _ _ (by rw [case2Ops_map_opKey, case2Ops_map_opKey])

/-- Absorption: rewriting a target row twice (records `rec1` then `rec2`)
reads back, cell for cell, exactly as rewriting it once with `rec2`,
whenever the underlying sheets agree at the inspected cell.  This is the
heart of last-write-wins and of re-upsert idempotence. -/
theorem getCell_AERW_absorb (rec1 rec2 : Rec) (B : List (String × Nat)) (r : Nat)
    (ws1 ws2 : Sheet) (r' c : Nat) (hbase : ws1.getCell r' c = ws2.getCell r' c) :
    (applyExistingRowWrites rec2 B r (applyExistingRowWrites rec1 B r ws1)).getCell r' c =
      (applyExistingRowWrites rec2 B r ws2).getCell r' c := by
  unfold applyExistingRowWrites
  by_cases hr : r = r'
  · subst hr
    rw [getCell_foldl_ops, getCell_foldl_ops, getCell_foldl_ops]
    have lf1 := font_foldl_cellops c (case2Ops rec1 B r) (ws1.getCell r c)
    have lf2 := font_foldl_cellops c (case2Ops rec2 B r)
      ((case2Ops rec1 B r).foldl (applyWriteOpCell c) (ws1.getCell r c))
    have lf3 := font_foldl_cellops c (case2Ops rec2 B r) (ws2.getCell r c)
    apply Cell.ext2
    · rw [value_foldl_cellops, value_foldl_cellops, value_foldl_cellops]
      cases h2 : lastValWrite c (case2Ops rec2 B r) with
      | some v => rfl
      | none =>
        have hnone : lastValWrite c (case2Ops rec1 B r) = none := by
          have hiso := lastValWrite_case2_isNone rec1 rec2 B r r c
          rw [h2] at hiso
          cases hx : lastValWrite c (case2Ops rec1 B r)
          · rfl
          · rw [hx] at hiso
            simp at hiso
        rw [hnone, hbase]
    · apply Style.ext5
      · rw [numFmt_foldl_cellops, numFmt_foldl_cellops, numFmt_foldl_cellops]
        cases h2 : lastFmtWrite c (case2Ops rec2 B r) with
        | some s => rfl
        | none =>
          have hnone : lastFmtWrite c (case2Ops rec1 B r) = none := by
            have hiso := lastFmtWrite_case2_isNone rec1 rec2 B r r c
            rw [h2] at hiso
            cases hx : lastFmtWrite c (case2Ops rec1 B r)
            · rfl
            · rw [hx] at hiso
              simp at hiso
          rw [hnone, hbase]
      · rw [lf2.1, lf1.1, lf3.1, hbase]
      · rw [lf2.2.1, lf1.2.1, lf3.2.1, hbase]
      · rw [lf2.2.2.1, lf1.2.2.1, lf3.2.2.1, hbase]
      · rw [lf2.2.2.2, lf1.2.2.2, lf3.2.2.2, hbase]
    · rw [dv_foldl_cellops, dv_foldl_cellops, dv_foldl_cellops]
      cases h2 : lastDVWrite c (case2Ops rec2 B r) with
      | some rule => rfl
      | none =>
        have hnone : lastDVWrite c (case2Ops rec1 B r) = none := by
          have hiso := lastDVWrite_case2_isNone rec1 rec2 B r r c
          rw [h2] at hiso
          cases hx : lastDVWrite c (case2Ops rec1 B r)
          · rfl
          · rw [hx] at hiso
            simp at hiso
        rw [hnone, hbase]
  · rw [getCell_foldl_ops_ne_row _ _ _ _ _ (Ne.symm hr), getCell_foldl_ops_ne_row _ _ _ _ _ (Ne.symm hr),
      getCell_foldl_ops_ne_row _ _ _ _ _ (Ne.symm hr), hbase]

-- ==================================================
-- The canonical header order: resolved columns
-- ==================================================

/-- Against `CANDIDATE_OUTPUT_HEADER_ORDER`, the business-key column
resolves to column 7. -/
theorem keyCol_canonical :
    lookupAssoc CANDIDATE_KEY (buildColByHeader CANDIDATE_OUTPUT_HEADER_ORDER 38) = some 7 := by
  decide

/-- Against `CANDIDATE_OUTPUT_HEADER_ORDER`, the Base Column Set resolves
to columns 1–10. -/
theorem baseColsInfo_canonical :
    candBaseColsInfo (buildColByHeader CANDIDATE_OUTPUT_HEADER_ORDER 38) = candBaseInfo := by
  decide

/-- A column none of the per-record assignments targets is untouched by
the target-row rewrite. -/
theorem getCell_AERW_untouched (rec : Rec) (B : List (String × Nat)) (r : Nat) (ws : Sheet)
    (c : Nat) (hv : lastValWrite c (case2Ops rec B r) = none)
    (hf : lastFmtWrite c (case2Ops rec B r) = none)
    (hd : lastDVWrite c (case2Ops rec B r) = none) (r' : Nat) :
    (applyExistingRowWrites rec B r ws).getCell r' c = ws.getCell r' c := by
  unfold applyExistingRowWrites
  by_cases hr : r' = r
  · subst hr
    rw [getCell_foldl_ops]
    apply Cell.ext2
    · rw [value_foldl_cellops, hv]
    · apply Style.ext5
      · rw [numFmt_foldl_cellops, hf]
      · exact (font_foldl_cellops c _ _).1
      · exact (font_foldl_cellops c _ _).2.1
      · exact (font_foldl_cellops c _ _).2.2.1
      · exact (font_foldl_cellops c _ _).2.2.2
    · rw [dv_foldl_cellops, hd]
  · exact getCell_foldl_ops_ne_row r _ ws r' c hr

/-- Columns 11 (`JR No.`) and 32 (`Resume`) are exactly the ones the
per-record rewrite leaves alone under the canonical base columns. -/
theorem getCell_AERW_cand_11 (rec : Rec) (r : Nat) (ws : Sheet) (r' : Nat) :
    (applyExistingRowWrites rec candBaseInfo r ws).getCell r' 11 = ws.getCell r' 11 :=
  getCell_AERW_untouched rec candBaseInfo r ws 11 rfl rfl rfl r'

theorem getCell_AERW_cand_32 (rec : Rec) (r : Nat) (ws : Sheet) (r' : Nat) :
    (applyExistingRowWrites rec candBaseInfo r ws).getCell r' 32 = ws.getCell r' 32 :=
  getCell_AERW_untouched rec candBaseInfo r ws 32 rfl rfl rfl r'

/-- Base-column ownership of the target-row rewrite: each of the ten base
columns reads back exactly the incoming record's value (empty string for
a missing key, empty string for an invalid date). -/
theorem AERW_base_value (rec : Rec) (r : Nat) (ws : Sheet) (p : String × Nat)
    (hp : p ∈ candBaseInfo) :
    ((applyExistingRowWrites rec candBaseInfo r ws).getCell r p.2).value =
      baseWriteVal (recGet rec p.1) := by
  have hgc : ∀ c, (applyExistingRowWrites rec candBaseInfo r ws).getCell r c =
      (case2Ops rec candBaseInfo r).foldl (applyWriteOpCell c) (ws.getCell r c) := by
    intro c
    unfold applyExistingRowWrites
    exact getCell_foldl_ops r _ ws c
  fin_cases hp <;> rw [hgc, value_foldl_cellops] <;> rfl

-- ==================================================
-- Claim C10
-- ==================================================

set_option maxRecDepth 10000 in
/-- C10 counterexample: a new-row record carrying `JR No. = 0` — a value
whose string form "0" is non-empty — does NOT get column 11 written: the
source guards the write with JS truthiness (`if (incomingJR)`), and the
number 0 is falsy.  The record is otherwise processed (a new row 2 is
allocated). -/
theorem C10_jr_zero_counterexample :
    safeStr (recGet cexJRZeroRec JR_NO_ALIAS) = "0" ∧
    safeStr (recGet cexJRZeroRec JR_NO_ALIAS) ≠ "" ∧
    (upsertCandidateSheetWithExcelJS {} [cexJRZeroRec] CANDIDATE_OUTPUT_HEADER_ORDER).1 =
      .ok 2 ∧
    ((upsertCandidateSheetWithExcelJS {} [cexJRZeroRec]
        CANDIDATE_OUTPUT_HEADER_ORDER).2.getCell 2 11).value = .empty := by
  refine ⟨by decide, by decide, by rfl, by rfl⟩

set_option maxRecDepth 8000 in
/-- C10 (amended): under a header order that resolves the business key to
column 7 and the base columns to columns 1–10 (as the canonical
`CANDIDATE_OUTPUT_HEADER_ORDER` does), a record whose key is not in the
Key Index and whose `JR No.` value is JS-truthy gets that value written
into column 11 of the newly allocated row (even though `JR No.` is not a
base column); a record whose key matches an existing row leaves column 11
of that row bit-identical. -/
theorem C10_jr_no_writes (ws : Sheet) (rec : Rec) (r : Nat) (headerOrder : List String)
    (hWF : ws.WF) (hk : safeStr (recGet rec CANDIDATE_KEY) ≠ "")
    (hlen : headerOrder.length = 38)
    (hkc : lookupAssoc CANDIDATE_KEY (buildColByHeader headerOrder 38) = some 7)
    (hbc : candBaseColsInfo (buildColByHeader headerOrder 38) = candBaseInfo) :
    (∀ jrv, recGet rec JR_NO_ALIAS = some jrv → scalarTruthy jrv = true →
      lookupAssoc (safeStr (recGet rec CANDIDATE_KEY))
        (scanSheet (headerAndTruncate headerOrder 38 ws) 7 candBaseInfo).keyToRow = none →
      ((upsertCandidateSheetWithExcelJS ws [rec] headerOrder).2.getCell
        ((scanSheet (headerAndTruncate headerOrder 38 ws) 7
          candBaseInfo).lastDataRow + 1) 11).value = .scal jrv) ∧
    (lookupAssoc (safeStr (recGet rec CANDIDATE_KEY))
        (scanSheet (headerAndTruncate headerOrder 38 ws) 7 candBaseInfo).keyToRow = some r →
      (upsertCandidateSheetWithExcelJS ws [rec] headerOrder).2.getCell r 11 =
        ws.getCell r 11) := by
  have h38 : CANDIDATE_MAX_COLUMNS = 38 := rfl
  have hmin : min CANDIDATE_MAX_COLUMNS headerOrder.length = 38 := by omega
  unfold upsertCandidateSheetWithExcelJS
  rw [hmin, if_neg (by omega)]
  simp only [hkc]
  rw [hbc]
  simp only [List.foldl_cons, List.foldl_nil]
  generalize hws2 : headerAndTruncate headerOrder 38 ws = ws2
  generalize hsc : scanSheet ws2 7 candBaseInfo = sc
  constructor
  · intro jrv hjr htr hnew
    rw [processRecord_eq _ _ _ _ hk]
    simp only [hnew]
    rw [getCell_AERW_cand_11]
    rw [writeJRNo_getCell]
    simp only [hjr]
    rw [if_pos ⟨htr, trivial, trivial⟩]
  · intro hmatch
    rw [processRecord_eq _ _ _ _ hk]
    simp only [hmatch]
    rw [getCell_AERW_cand_11]
    rw [← hsc] at hmatch
    have hr2 := (scanSheet_inv ws2 7 candBaseInfo).2 _ _ hmatch
    rw [← hws2, headerAndTruncate_getCell headerOrder 38 ws hWF r 11,
      if_pos (by omega), if_neg (by omega)]

/-- C10 witness: a truthy `JR No.` on a fresh key lands in column 11 of
the new row, under the canonical header order. -/
theorem C10_jr_no_writes_witness :
    Sheet.WF {} ∧ safeStr (recGet witJRRec CANDIDATE_KEY) ≠ "" ∧
    recGet witJRRec JR_NO_ALIAS = some (.str "JR-77") ∧
    scalarTruthy (.str "JR-77") = true ∧
    lookupAssoc (safeStr (recGet witJRRec CANDIDATE_KEY))
      (scanSheet (headerAndTruncate CANDIDATE_OUTPUT_HEADER_ORDER 38 {}) 7
        candBaseInfo).keyToRow = none ∧
    ((upsertCandidateSheetWithExcelJS {} [witJRRec] CANDIDATE_OUTPUT_HEADER_ORDER).2.getCell
      ((scanSheet (headerAndTruncate CANDIDATE_OUTPUT_HEADER_ORDER 38 {}) 7
        candBaseInfo).lastDataRow + 1) 11).value = .scal (.str "JR-77") :=
  ⟨by unfold Sheet.WF; decide, by decide, by decide, by decide, by decide,
    (C10_jr_no_writes {} witJRRec 2 CANDIDATE_OUTPUT_HEADER_ORDER (by unfold Sheet.WF; decide)
      (by decide) (by decide) keyCol_canonical baseColsInfo_canonical).1
      (.str "JR-77") (by decide) (by decide) (by decide)⟩

/-- Column 12 of the target row is rewritten with the re-derived VLOOKUP
formula (it is not a base column, yet it is not bit-identical either). -/
theorem AERW_col12_value (rec : Rec) (r : Nat) (ws : Sheet) :
    ((applyExistingRowWrites rec candBaseInfo r ws).getCell r 12).value =
      .formula (vlkFormula r 2) none := by
  unfold applyExistingRowWrites
  rw [getCell_foldl_ops, value_foldl_cellops]
  rfl

-- ==================================================
-- Claim C1
-- ==================================================

set_option maxRecDepth 10000 in
/-- C1 counterexample: for a matched key, a non-base column is NOT
bit-identical before and after upsert: column 12 of the matched row held
the literal "X" and is overwritten with the re-derived VLOOKUP formula.
(The returned cursor `.ok 2` shows the record matched row 2; no new row
was created.) -/
theorem C1_nonbase_overwrite_counterexample :
    lookupAssoc (safeStr (recGet cexMatchedRec CANDIDATE_KEY))
      (scanSheet (headerAndTruncate CANDIDATE_OUTPUT_HEADER_ORDER 38 cexMatchedSheet) 7
        candBaseInfo).keyToRow = some 2 ∧
    (upsertCandidateSheetWithExcelJS cexMatchedSheet [cexMatchedRec]
      CANDIDATE_OUTPUT_HEADER_ORDER).1 = .ok 2 ∧
    (cexMatchedSheet.getCell 2 12).value = .scal (.str "X") ∧
    ((upsertCandidateSheetWithExcelJS cexMatchedSheet [cexMatchedRec]
        CANDIDATE_OUTPUT_HEADER_ORDER).2.getCell 2 12).value =
      .formula "IFERROR(VLOOKUP($K2,JR_Detail!$A:$O,2,0),\"\")" none := by
  refine ⟨by decide, by rfl, by rfl, by rfl⟩

/-- C1 (amended): under a header order resolving the key to column 7 and
the base columns to columns 1–10, a matched record's row is rewritten as
follows: every base column reads back the record's own value (missing
keys become empty string, never the prior cell value); columns 11 and 32
— and only those — are left bit-identical among the first 38; column 12
(representative of 12–21 and 33–38) is overwritten with a re-derived
formula; no new row is created and every other data row is untouched. -/
theorem C1_matched_row_ownership (ws : Sheet) (rec : Rec) (r : Nat) (headerOrder : List String)
    (hWF : ws.WF) (hk : safeStr (recGet rec CANDIDATE_KEY) ≠ "")
    (hlen : headerOrder.length = 38)
    (hkc : lookupAssoc CANDIDATE_KEY (buildColByHeader headerOrder 38) = some 7)
    (hbc : candBaseColsInfo (buildColByHeader headerOrder 38) = candBaseInfo)
    (hmatch : lookupAssoc (safeStr (recGet rec CANDIDATE_KEY))
      (scanSheet (headerAndTruncate headerOrder 38 ws) 7 candBaseInfo).keyToRow = some r) :
    (upsertCandidateSheetWithExcelJS ws [rec] headerOrder).1 = .ok
      (scanSheet (headerAndTruncate headerOrder 38 ws) 7 candBaseInfo).lastDataRow ∧
    (∀ p ∈ candBaseInfo,
      ((upsertCandidateSheetWithExcelJS ws [rec] headerOrder).2.getCell r p.2).value =
        baseWriteVal (recGet rec p.1)) ∧
    (upsertCandidateSheetWithExcelJS ws [rec] headerOrder).2.getCell r 11 =
      ws.getCell r 11 ∧
    (upsertCandidateSheetWithExcelJS ws [rec] headerOrder).2.getCell r 32 =
      ws.getCell r 32 ∧
    ((upsertCandidateSheetWithExcelJS ws [rec] headerOrder).2.getCell r 12).value =
      .formula (vlkFormula r 2) none ∧
    (∀ r2 c, 2 ≤ r2 → r2 ≠ r → c ≤ 38 →
      (upsertCandidateSheetWithExcelJS ws [rec] headerOrder).2.getCell r2 c =
        ws.getCell r2 c) := by
  have h38 : CANDIDATE_MAX_COLUMNS = 38 := rfl
  have hmin : min CANDIDATE_MAX_COLUMNS headerOrder.length = 38 := by omega
  unfold upsertCandidateSheetWithExcelJS
  rw [hmin, if_neg (by omega)]
  simp only [hkc]
  rw [hbc]
  simp only [List.foldl_cons, List.foldl_nil]
  generalize hws2 : headerAndTruncate headerOrder 38 ws = ws2 at hmatch ⊢
  generalize hsc : scanSheet ws2 7 candBaseInfo = sc at hmatch ⊢
  rw [processRecord_eq _ _ _ _ hk]
  simp only [hmatch]
  have hr2 : 2 ≤ r ∧ r ≤ sc.lastDataRow := by
    rw [← hsc] at hmatch
    rw [← hsc]
    exact (scanSheet_inv ws2 7 candBaseInfo).2 _ _ hmatch
  have hchar : ∀ r2 c, 2 ≤ r2 → c ≤ 38 → ws2.getCell r2 c = ws.getCell r2 c := by
    intro r2 c h2 hc
    rw [← hws2, headerAndTruncate_getCell headerOrder 38 ws hWF r2 c,
      if_pos hc, if_neg (by omega)]
  refine ⟨trivial, ?_, ?_, ?_, ?_, ?_⟩
  · intro p hp
    exact AERW_base_value rec r ws2 p hp
  · rw [getCell_AERW_cand_11]
    exact hchar r 11 (by omega) (by omega)
  · rw [getCell_AERW_cand_32]
    exact hchar r 32 (by omega) (by omega)
  · exact AERW_col12_value rec r ws2
  · intro r2 c h2 hne hc
    have hfr : (applyExistingRowWrites rec candBaseInfo r ws2).getCell r2 c =
        ws2.getCell r2 c := by
      unfold applyExistingRowWrites
      exact getCell_foldl_ops_ne_row r _ ws2 r2 c hne
    rw [hfr]
    exact hchar r2 c h2 hc

/-- C1 witness: the amended theorem at the concrete matched sheet. -/
theorem C1_matched_row_ownership_witness :
    cexMatchedSheet.WF ∧ safeStr (recGet cexMatchedRec CANDIDATE_KEY) ≠ "" ∧
    lookupAssoc (safeStr (recGet cexMatchedRec CANDIDATE_KEY))
      (scanSheet (headerAndTruncate CANDIDATE_OUTPUT_HEADER_ORDER 38 cexMatchedSheet) 7
        candBaseInfo).keyToRow = some 2 ∧
    (upsertCandidateSheetWithExcelJS cexMatchedSheet [cexMatchedRec]
      CANDIDATE_OUTPUT_HEADER_ORDER).1 = .ok
      (scanSheet (headerAndTruncate CANDIDATE_OUTPUT_HEADER_ORDER 38 cexMatchedSheet) 7
        candBaseInfo).lastDataRow :=
  ⟨by unfold Sheet.WF; decide, by decide, by decide,
    (C1_matched_row_ownership cexMatchedSheet cexMatchedRec 2 CANDIDATE_OUTPUT_HEADER_ORDER
      (by unfold Sheet.WF; decide) (by decide) (by decide) keyCol_canonical
      baseColsInfo_canonical (by decide)).1⟩

-- ==================================================
-- Claim C6
-- ==================================================

/-- C6: last-write-wins for duplicate keys in one batch.  Upserting
`[rec1, rec2]` with the same non-empty key produces the same returned
cursor (no additional row for the duplicate) and — except in column 11,
which only the first allocation's `JR No.` write can touch — exactly the
same cells as upserting `[rec2]` alone: the later record's base-column
values win. -/
theorem C6_last_write_wins (ws : Sheet) (rec1 rec2 : Rec) (headerOrder : List String)
    (hk1 : safeStr (recGet rec1 CANDIDATE_KEY) = safeStr (recGet rec2 CANDIDATE_KEY))
    (hk : safeStr (recGet rec2 CANDIDATE_KEY) ≠ "")
    (hlen : headerOrder.length = 38)
    (hkc : lookupAssoc CANDIDATE_KEY (buildColByHeader headerOrder 38) = some 7)
    (hbc : candBaseColsInfo (buildColByHeader headerOrder 38) = candBaseInfo) :
    (upsertCandidateSheetWithExcelJS ws [rec1, rec2] headerOrder).1 =
      (upsertCandidateSheetWithExcelJS ws [rec2] headerOrder).1 ∧
    (∀ r c, c ≠ 11 →
      (upsertCandidateSheetWithExcelJS ws [rec1, rec2] headerOrder).2.getCell r c =
        (upsertCandidateSheetWithExcelJS ws [rec2] headerOrder).2.getCell r c) := by
  have h38 : CANDIDATE_MAX_COLUMNS = 38 := rfl
  have hmin : min CANDIDATE_MAX_COLUMNS headerOrder.length = 38 := by omega
  have hknz1 : safeStr (recGet rec1 CANDIDATE_KEY) ≠ "" := by
    rw [hk1]
    exact hk
  unfold upsertCandidateSheetWithExcelJS
  rw [hmin, if_neg (by omega), if_neg (by omega)]
  simp only [hkc]
  rw [hbc]
  simp only [List.foldl_cons, List.foldl_nil]
  generalize hws2 : headerAndTruncate headerOrder 38 ws = ws2
  generalize hsc : scanSheet ws2 7 candBaseInfo = sc
  rw [processRecord_eq _ _ _ _ hknz1, hk1]
  cases hl : lookupAssoc (safeStr (recGet rec2 CANDIDATE_KEY)) sc.keyToRow with
  | some r =>
    simp only [hl]
    simp only [processRecord_eq _ _ _ _ hk, hl]
    refine ⟨trivial, ?_⟩
    intro r' c hc
    exact getCell_AERW_absorb rec1 rec2 candBaseInfo r ws2 ws2 r' c rfl
  | none =>
    simp only [hl]
    simp only [processRecord_eq _ _ _ _ hk, hl, lookupAssoc_updateAssoc, if_true]
    refine ⟨trivial, ?_⟩
    intro r' c hc
    apply getCell_AERW_absorb
    rw [writeJRNo_getCell_ne rec1 _ _ r' c (by rintro ⟨_, hh⟩; omega),
      writeJRNo_getCell_ne rec2 _ _ r' c (by rintro ⟨_, hh⟩; omega)]

/-- C6 witness: two records with the same key in one batch behave, on the
returned cursor, exactly like the later record alone. -/
theorem C6_last_write_wins_witness :
    safeStr (recGet witC6Rec1 CANDIDATE_KEY) = safeStr (recGet witC6Rec2 CANDIDATE_KEY) ∧
    safeStr (recGet witC6Rec2 CANDIDATE_KEY) ≠ "" ∧
    (upsertCandidateSheetWithExcelJS {} [witC6Rec1, witC6Rec2]
        CANDIDATE_OUTPUT_HEADER_ORDER).1 =
      (upsertCandidateSheetWithExcelJS {} [witC6Rec2] CANDIDATE_OUTPUT_HEADER_ORDER).1 :=
  ⟨by decide, by decide,
    (C6_last_write_wins {} witC6Rec1 witC6Rec2 CANDIDATE_OUTPUT_HEADER_ORDER (by decide)
      (by decide) (by decide) keyCol_canonical baseColsInfo_canonical).1⟩

-- ==================================================
-- Generic cell-write folds (for the Formatting Pass)
-- ==================================================

theorem updateAssoc_updateAssoc [DecidableEq κ] (k : κ) (g1 g2 : Option ν → ν) :
    ∀ (l : List (κ × ν)), updateAssoc k g2 (updateAssoc k g1 l) =
      updateAssoc k (fun o => g2 (some (g1 o))) l := by
  intro l
  induction l with
  | nil =>
    show updateAssoc k g2 [(k, g1 none)] = [(k, g2 (some (g1 none)))]
    unfold updateAssoc
    rw [if_pos rfl]
  | cons e rest ih =>
    by_cases he : e.1 = k
    · show updateAssoc k g2 (if e.1 = k then (k, g1 (some e.2)) :: rest else _) = _
      rw [if_pos he]
      show (if k = k then (k, g2 (some (g1 (some e.2)))) :: rest else _) = _
      rw [if_pos rfl]
      show _ = if e.1 = k then (k, g2 (some (g1 (some e.2)))) :: rest else _
      rw [if_pos he]
    · show updateAssoc k g2 (if e.1 = k then _ else e :: updateAssoc k g1 rest) = _
      rw [if_neg he]
      show (if e.1 = k then _ else e :: updateAssoc k g2 (updateAssoc k g1 rest)) = _
      rw [if_neg he, ih]
      show _ = if e.1 = k then _ else e :: updateAssoc k (fun o => g2 (some (g1 o))) rest
      rw [if_neg he]

theorem updateAssoc_lookup_id [DecidableEq κ] (k : κ) (v : ν) :
    ∀ (l : List (κ × ν)), lookupAssoc k l = some v →
      updateAssoc k (fun _ => v) l = l := by
  intro l
  induction l with
  | nil => intro h; exact absurd h (by simp [lookupAssoc])
  | cons e rest ih =>
    intro h
    unfold lookupAssoc at h
    by_cases he : e.1 = k
    · rw [if_pos he] at h
      have hv : e.2 = v := by injection h
      show (if e.1 = k then (k, v) :: rest else _) = e :: rest
      rw [if_pos he, ← he, ← hv]
    · rw [if_neg he] at h
      show (if e.1 = k then _ else e :: updateAssoc k (fun _ => v) rest) = e :: rest
      rw [if_neg he, ih h]

theorem Sheet.putCell_putCell_same (ws : Sheet) (t c : Nat) (f1 f2 : Cell → Cell) :
    (ws.putCell t c f1).putCell t c f2 = ws.putCell t c (fun cell => f2 (f1 cell)) := by
  unfold Sheet.putCell
  simp only [updateAssoc_updateAssoc]
  congr 1 <;> omega

theorem foldl_putCell_cols_getCell (t : Nat) (f : Nat → Cell → Cell) :
    ∀ (n a : Nat) (ws : Sheet) (r c : Nat),
      ((List.range' a n).foldl (fun acc x => acc.putCell t x (f x)) ws).getCell r c =
        if r = t ∧ a ≤ c ∧ c < a + n then f c (ws.getCell t c) else ws.getCell r c := by
  intro n
  induction n with
  | zero =>
    intro a ws r c
    rw [if_neg (by omega)]
    rfl
  | succ m ih =>
    intro a ws r c
    rw [List.range'_succ, List.foldl_cons, ih]
    by_cases h : r = t ∧ a + 1 ≤ c ∧ c < a + 1 + m
    · rw [if_pos h, if_pos (by omega),
        Sheet.getCell_putCell_ne _ _ _ _ _ _ (by rintro ⟨_, hc⟩; omega)]
    · rw [if_neg h]
      by_cases h2 : r = t ∧ c = a
      · obtain ⟨rfl, rfl⟩ := h2
        rw [if_pos (by omega), Sheet.getCell_putCell_self]
      · rw [if_neg (by
          rintro ⟨hrt, hc1, hc2⟩
          rcases Nat.eq_or_lt_of_le hc1 with he | hl
          · exact h2 ⟨hrt, he.symm⟩
          · exact h ⟨hrt, by omega, by omega⟩),
          Sheet.getCell_putCell_ne _ _ _ _ _ _ (by rintro ⟨hrt, hca⟩; exact h2 ⟨hrt, hca⟩)]

theorem foldl_putCell_rows_getCell (cf : Nat) (f : Nat → Cell → Cell) :
    ∀ (m b : Nat) (ws : Sheet) (r c : Nat),
      ((List.range' b m).foldl (fun acc x => acc.putCell x cf (f x)) ws).getCell r c =
        if c = cf ∧ b ≤ r ∧ r < b + m then f r (ws.getCell r cf) else ws.getCell r c := by
  intro m
  induction m with
  | zero =>
    intro b ws r c
    rw [if_neg (by omega)]
    rfl
  | succ m2 ih =>
    intro b ws r c
    rw [List.range'_succ, List.foldl_cons, ih]
    by_cases h : c = cf ∧ b + 1 ≤ r ∧ r < b + 1 + m2
    · rw [if_pos h, if_pos (by omega),
        Sheet.getCell_putCell_ne _ _ _ _ _ _ (by rintro ⟨hr, _⟩; omega)]
    · rw [if_neg h]
      by_cases h2 : c = cf ∧ r = b
      · obtain ⟨rfl, rfl⟩ := h2
        rw [if_pos (by omega), Sheet.getCell_putCell_self]
      · rw [if_neg (by
          rintro ⟨hcf, hr1, hr2⟩
          rcases Nat.eq_or_lt_of_le hr1 with he | hl
          · exact h2 ⟨hcf, he.symm⟩
          · exact h ⟨hcf, by omega, by omega⟩),
          Sheet.getCell_putCell_ne _ _ _ _ _ _ (by rintro ⟨hrb, hcc⟩; exact h2 ⟨hcc, hrb⟩)]

theorem foldl_putCell_cols_fields (t : Nat) (f : Nat → Cell → Cell) :
    ∀ (L : List Nat) (ws : Sheet),
      (L.foldl (fun acc x => acc.putCell t x (f x)) ws).colWidths = ws.colWidths ∧
      (L.foldl (fun acc x => acc.putCell t x (f x)) ws).rowHeights = ws.rowHeights ∧
      (L.foldl (fun acc x => acc.putCell t x (f x)) ws).views = ws.views ∧
      (L.foldl (fun acc x => acc.putCell t x (f x)) ws).autoFilter = ws.autoFilter := by
  intro L
  induction L with
  | nil => exact fun ws => ⟨rfl, rfl, rfl, rfl⟩
  | cons x rest ih =>
    intro ws
    rw [List.foldl_cons]
    exact ih (ws.putCell t x (f x))

theorem foldl_putCell_rows_fields (cf : Nat) (f : Nat → Cell → Cell) :
    ∀ (L : List Nat) (ws : Sheet),
      (L.foldl (fun acc x => acc.putCell x cf (f x)) ws).colWidths = ws.colWidths ∧
      (L.foldl (fun acc x => acc.putCell x cf (f x)) ws).rowHeights = ws.rowHeights ∧
      (L.foldl (fun acc x => acc.putCell x cf (f x)) ws).views = ws.views ∧
      (L.foldl (fun acc x => acc.putCell x cf (f x)) ws).autoFilter = ws.autoFilter := by
  intro L
  induction L with
  | nil => exact fun ws => ⟨rfl, rfl, rfl, rfl⟩
  | cons x rest ih =>
    intro ws
    rw [List.foldl_cons]
    exact ih (ws.putCell x cf (f x))

theorem foldl_putCell_cols_colMax (t : Nat) (f : Nat → Cell → Cell) :
    ∀ (L : List Nat) (ws : Sheet), (∀ x ∈ L, x ≤ ws.colMax) →
      (L.foldl (fun acc x => acc.putCell t x (f x)) ws).colMax = ws.colMax := by
  intro L
  induction L with
  | nil => exact fun ws _ => rfl
  | cons x rest ih =>
    intro ws h
    rw [List.foldl_cons]
    have hx : (ws.putCell t x (f x)).colMax = ws.colMax := by
      rw [Sheet.colMax_putCell]
      have := h x (List.mem_cons_self _ _)
      omega
    rw [ih (ws.putCell t x (f x)) (fun y hy => by rw [hx]; exact h y (List.mem_cons_of_mem _ hy)),
      hx]

theorem foldl_putCell_rows_colMax (cf : Nat) (f : Nat → Cell → Cell) :
    ∀ (L : List Nat) (ws : Sheet), cf ≤ ws.colMax →
      (L.foldl (fun acc x => acc.putCell x cf (f x)) ws).colMax = ws.colMax := by
  intro L
  induction L with
  | nil => exact fun ws _ => rfl
  | cons x rest ih =>
    intro ws h
    rw [List.foldl_cons]
    have hx : (ws.putCell x cf (f x)).colMax = ws.colMax := by
      rw [Sheet.colMax_putCell]
      omega
    rw [ih (ws.putCell x cf (f x)) (by rw [hx]; exact h), hx]

theorem foldl_putCell_cols_getCell_self (t : Nat) (f : Nat → Cell → Cell) (n a : Nat)
    (ws : Sheet) (r c : Nat) :
    ((List.range' a n).foldl (fun acc x => acc.putCell t x (f x)) ws).getCell r c =
      if r = t ∧ a ≤ c ∧ c < a + n then f c (ws.getCell r c) else ws.getCell r c := by
  rw [foldl_putCell_cols_getCell]
  by_cases h : r = t ∧ a ≤ c ∧ c < a + n
  · rw [if_pos h, if_pos h, h.1]
  · rw [if_neg h, if_neg h]

theorem foldl_putCell_rows_getCell_self (cf : Nat) (f : Nat → Cell → Cell) (m b : Nat)
    (ws : Sheet) (r c : Nat) :
    ((List.range' b m).foldl (fun acc x => acc.putCell x cf (f x)) ws).getCell r c =
      if c = cf ∧ b ≤ r ∧ r < b + m then f r (ws.getCell r c) else ws.getCell r c := by
  rw [foldl_putCell_rows_getCell]
  by_cases h : c = cf ∧ b ≤ r ∧ r < b + m
  · rw [if_pos h, if_pos h, h.1]
  · rw [if_neg h, if_neg h]

/-- Borders: the row-by-row, column-by-column border fold. -/
theorem border2D_getCell (maxCol : Nat) :
    ∀ (m b : Nat) (ws : Sheet) (r c : Nat),
      ((List.range' b m).foldl
        (fun acc x => (List.range' 1 maxCol).foldl (fun acc2 y => acc2.setBorder x y thinBorder) acc)
        ws).getCell r c =
      if b ≤ r ∧ r < b + m ∧ 1 ≤ c ∧ c < 1 + maxCol then updBorder (ws.getCell r c)
      else ws.getCell r c := by
  intro m
  induction m with
  | zero =>
    intro b ws r c
    rw [if_neg (by omega)]
    rfl
  | succ m2 ih =>
    intro b ws r c
    rw [List.range'_succ, List.foldl_cons, ih]
    have hinner : ∀ (ws0 : Sheet) (r0 c0 : Nat),
        ((List.range' 1 maxCol).foldl (fun acc2 y => acc2.setBorder b y thinBorder) ws0).getCell r0 c0 =
          if r0 = b ∧ 1 ≤ c0 ∧ c0 < 1 + maxCol then updBorder (ws0.getCell r0 c0)
          else ws0.getCell r0 c0 :=
      fun ws0 r0 c0 => foldl_putCell_cols_getCell_self b
        (fun _ cell => { cell with style := { cell.style with border := some thinBorder } })
        maxCol 1 ws0 r0 c0
    rw [hinner]
    by_cases hc4 : 1 ≤ c ∧ c < 1 + maxCol
    · by_cases hr1 : r = b
      · subst hr1
        rw [if_neg (by omega), if_pos ⟨rfl, hc4.1, hc4.2⟩, if_pos (by omega)]
      · by_cases hr2 : b + 1 ≤ r ∧ r < b + 1 + m2
        · rw [if_pos ⟨hr2.1, hr2.2, hc4.1, hc4.2⟩, if_neg (by tauto), if_pos (by omega)]
        · rw [if_neg (by tauto), if_neg (by tauto), if_neg (by omega)]
    · rw [if_neg (by tauto), if_neg (by tauto), if_neg (by tauto)]

/-- Header fills: one `fillHeader(from, to, argb)` call. -/
theorem fillHeaderRange_getCell (maxCol fromC toC : Nat) (argb : String) (ws : Sheet)
    (r c : Nat) :
    (fillHeaderRange maxCol fromC toC argb ws).getCell r c =
      if r = 1 ∧ fromC ≤ c ∧ c < fromC + (min toC maxCol + 1 - fromC) then
        updFill argb (ws.getCell r c)
      else ws.getCell r c :=
  foldl_putCell_cols_getCell_self 1
    (fun _ cell => { cell with style := { cell.style with fill := some (headerFill argb) } })
    (min toC maxCol + 1 - fromC) fromC ws r c

theorem fillHeaderRange_fields (maxCol fromC toC : Nat) (argb : String) (ws : Sheet) :
    (fillHeaderRange maxCol fromC toC argb ws).colWidths = ws.colWidths ∧
    (fillHeaderRange maxCol fromC toC argb ws).rowHeights = ws.rowHeights ∧
    (fillHeaderRange maxCol fromC toC argb ws).views = ws.views ∧
    (fillHeaderRange maxCol fromC toC argb ws).autoFilter = ws.autoFilter :=
  foldl_putCell_cols_fields 1
    (fun _ cell => { cell with style := { cell.style with fill := some (headerFill argb) } })
    (List.range' fromC (min toC maxCol + 1 - fromC)) ws

theorem fillHeaderRange_colMax (maxCol fromC toC : Nat) (argb : String) (ws : Sheet)
    (h : maxCol ≤ ws.colMax) :
    (fillHeaderRange maxCol fromC toC argb ws).colMax = ws.colMax :=
  foldl_putCell_cols_colMax 1
    (fun _ cell => { cell with style := { cell.style with fill := some (headerFill argb) } })
    (List.range' fromC (min toC maxCol + 1 - fromC)) ws
    (fun x hx => by
      have := List.mem_range'_1.mp hx
      omega)

/-- The column-width fold touches only `colWidths`. -/
theorem foldl_setColWidth_char (w : Nat) :
    ∀ (L : List Nat) (ws : Sheet),
      (L.foldl (fun acc c => acc.setColWidth c w) ws).cells = ws.cells ∧
      (L.foldl (fun acc c => acc.setColWidth c w) ws).rowMax = ws.rowMax ∧
      (L.foldl (fun acc c => acc.setColWidth c w) ws).colMax = ws.colMax ∧
      (L.foldl (fun acc c => acc.setColWidth c w) ws).rowHeights = ws.rowHeights ∧
      (L.foldl (fun acc c => acc.setColWidth c w) ws).views = ws.views ∧
      (L.foldl (fun acc c => acc.setColWidth c w) ws).autoFilter = ws.autoFilter ∧
      (L.foldl (fun acc c => acc.setColWidth c w) ws).colWidths =
        L.foldl (fun l c => updateAssoc c (fun _ => w) l) ws.colWidths := by
  intro L
  induction L with
  | nil => exact fun ws => ⟨rfl, rfl, rfl, rfl, rfl, rfl, rfl⟩
  | cons x rest ih =>
    intro ws
    rw [List.foldl_cons, List.foldl_cons]
    exact ih (ws.setColWidth x w)

theorem getCell_congr_cells (ws1 ws2 : Sheet) (h : ws1.cells = ws2.cells) (r c : Nat) :
    ws1.getCell r c = ws2.getCell r c := by
  unfold Sheet.getCell Sheet.findCell
  rw [h]

theorem lookup_foldl_updateAssoc_const (w : Nat) :
    ∀ (L : List Nat) (l : List (Nat × Nat)) (c : Nat),
      lookupAssoc c (L.foldl (fun l2 x => updateAssoc x (fun _ => w) l2) l) =
        if c ∈ L then some w else lookupAssoc c l := by
  intro L
  induction L with
  | nil =>
    intro l c
    rw [if_neg (by simp)]
    rfl
  | cons x rest ih =>
    intro l c
    rw [List.foldl_cons, ih]
    by_cases hmem : c ∈ rest
    · rw [if_pos hmem, if_pos (List.mem_cons_of_mem _ hmem)]
    · rw [if_neg hmem, lookupAssoc_updateAssoc]
      by_cases hx : c = x
      · rw [if_pos hx, if_pos (by rw [hx]; exact List.mem_cons_self _ _)]
      · rw [if_neg hx, if_neg (by simp [hx, hmem])]

theorem foldl_updateAssoc_const_idem (w : Nat) :
    ∀ (L : List Nat) (l : List (Nat × Nat)),
      (∀ c ∈ L, lookupAssoc c l = some w) →
      L.foldl (fun l2 x => updateAssoc x (fun _ => w) l2) l = l := by
  intro L
  induction L with
  | nil => exact fun l _ => rfl
  | cons x rest ih =>
    intro l h
    rw [List.foldl_cons, updateAssoc_lookup_id x w l (h x (List.mem_cons_self _ _))]
    exact ih l (fun c hc => h c (List.mem_cons_of_mem _ hc))

-- ==================================================
-- The Formatting Pass characterized stage by stage
-- ==================================================

theorem format_eq (ws : Sheet) (lastRow : Nat) :
    applyCandidateFormattingWithExcelJS ws lastRow =
      if min CANDIDATE_MAX_COLUMNS ws.colMax = 0 then
        .error "TypeError: Cannot read properties of undefined"
      else .ok (formatPipeline ws lastRow) := rfl

theorem Sheet.getCell_withViewsFilter (x : Sheet) (v : List SheetView)
    (af : Option (String × String)) (r c : Nat) :
    ({ x with views := v, autoFilter := af } : Sheet).getCell r c = x.getCell r c := rfl

theorem Sheet.getCell_setRowHeight (x : Sheet) (r h rr cc : Nat) :
    (x.setRowHeight r h).getCell rr cc = x.getCell rr cc := rfl

theorem fpWidths_getCell (maxCol : Nat) (ws : Sheet) (r c : Nat) :
    (fpWidths maxCol ws).getCell r c = ws.getCell r c :=
  getCell_congr_cells _ ws (foldl_setColWidth_char CANDIDATE_WIDTH (List.range' 1 maxCol) ws).1 r c

theorem fpBorders_getCell (maxCol endRow : Nat) (ws : Sheet) (r c : Nat) :
    (fpBorders maxCol endRow ws).getCell r c =
      if 1 ≤ r ∧ r < 1 + endRow ∧ 1 ≤ c ∧ c < 1 + maxCol then updBorder (ws.getCell r c)
      else ws.getCell r c :=
  border2D_getCell maxCol endRow 1 ws r c

theorem fpHeaderFont_getCell (maxCol : Nat) (ws : Sheet) (r c : Nat) :
    (fpHeaderFont maxCol ws).getCell r c =
      if r = 1 ∧ 1 ≤ c ∧ c < 1 + maxCol then updHeaderCell c (ws.getCell r c)
      else ws.getCell r c := by
  unfold fpHeaderFont
  have hstep : ∀ (acc : Sheet) (cc : Nat),
      (acc.setAlignment 1 cc { vertical := some "middle", horizontal := some "center", wrapText := some true }).updateFont 1 cc
        (fun f => { (f.getD {}) with bold := some true, size := some 14, color := some (headerFontColorByCol cc) }) =
      acc.putCell 1 cc (updHeaderCell cc) := by
    intro acc cc
    unfold Sheet.setAlignment Sheet.updateFont
    rw [Sheet.putCell_putCell_same]
    rfl
  simp only [hstep]
  exact foldl_putCell_cols_getCell_self 1 updHeaderCell maxCol 1 ws r c

theorem fpBoldCol1_getCell (endRow : Nat) (ws : Sheet) (r c : Nat) :
    (fpBoldCol1 endRow ws).getCell r c =
      if c = 1 ∧ 1 ≤ r ∧ r < 1 + endRow then updBoldFont (ws.getCell r c)
      else ws.getCell r c := by
  unfold fpBoldCol1 Sheet.updateFont
  exact foldl_putCell_rows_getCell_self 1 (fun _ cell => updBoldFont cell) endRow 1 ws r c

theorem formatPipeline_getCell (ws : Sheet) (lastRow : Nat) (r c : Nat) :
    (formatPipeline ws lastRow).getCell r c =
      formatCellTransform (min CANDIDATE_MAX_COLUMNS ws.colMax) (max 1 lastRow) r c
        (ws.getCell r c) := by
  unfold formatPipeline
  rw [Sheet.getCell_withViewsFilter, fpBoldCol1_getCell, fpHeaderFont_getCell,
    Sheet.getCell_setRowHeight, fillHeaderRange_getCell, fillHeaderRange_getCell,
    fillHeaderRange_getCell, fillHeaderRange_getCell, fillHeaderRange_getCell,
    fpBorders_getCell, fpWidths_getCell]
  rfl

theorem fpBorders_colMax_fold (maxCol : Nat) :
    ∀ (L : List Nat) (ws : Sheet), maxCol ≤ ws.colMax →
      ((L.foldl
        (fun acc r => (List.range' 1 maxCol).foldl (fun acc2 c => acc2.setBorder r c thinBorder) acc)
        ws).colMax = ws.colMax) := by
  intro L
  induction L with
  | nil => exact fun ws _ => rfl
  | cons x rest ih =>
    intro ws h
    rw [List.foldl_cons]
    have hx : ((List.range' 1 maxCol).foldl (fun acc2 c => acc2.setBorder x c thinBorder) ws).colMax = ws.colMax :=
      foldl_putCell_cols_colMax x
        (fun _ cell => { cell with style := { cell.style with border := some thinBorder } })
        (List.range' 1 maxCol) ws
        (fun y hy => by
          have := List.mem_range'_1.mp hy
          omega)
    rw [ih _ (by rw [hx]; exact h), hx]

theorem fpBorders_colMax (maxCol endRow : Nat) (ws : Sheet) (h : maxCol ≤ ws.colMax) :
    (fpBorders maxCol endRow ws).colMax = ws.colMax :=
  fpBorders_colMax_fold maxCol (List.range' 1 endRow) ws h

theorem fpBorders_fields_fold (maxCol : Nat) :
    ∀ (L : List Nat) (ws : Sheet),
      ((L.foldl
        (fun acc r => (List.range' 1 maxCol).foldl (fun acc2 c => acc2.setBorder r c thinBorder) acc)
        ws).colWidths = ws.colWidths ∧
      (L.foldl
        (fun acc r => (List.range' 1 maxCol).foldl (fun acc2 c => acc2.setBorder r c thinBorder) acc)
        ws).rowHeights = ws.rowHeights ∧
      (L.foldl
        (fun acc r => (List.range' 1 maxCol).foldl (fun acc2 c => acc2.setBorder r c thinBorder) acc)
        ws).views = ws.views ∧
      (L.foldl
        (fun acc r => (List.range' 1 maxCol).foldl (fun acc2 c => acc2.setBorder r c thinBorder) acc)
        ws).autoFilter = ws.autoFilter) := by
  intro L
  induction L with
  | nil => exact fun ws => ⟨rfl, rfl, rfl, rfl⟩
  | cons x rest ih =>
    intro ws
    rw [List.foldl_cons]
    have hx := foldl_putCell_cols_fields x
      (fun _ cell => { cell with style := { cell.style with border := some thinBorder } })
      (List.range' 1 maxCol) ws
    have hr := ih ((List.range' 1 maxCol).foldl (fun acc2 c => acc2.setBorder x c thinBorder) ws)
    exact ⟨hr.1.trans hx.1, hr.2.1.trans hx.2.1, hr.2.2.1.trans hx.2.2.1,
      hr.2.2.2.trans hx.2.2.2⟩

theorem fpBorders_fields (maxCol endRow : Nat) (ws : Sheet) :
    (fpBorders maxCol endRow ws).colWidths = ws.colWidths ∧
    (fpBorders maxCol endRow ws).rowHeights = ws.rowHeights ∧
    (fpBorders maxCol endRow ws).views = ws.views ∧
    (fpBorders maxCol endRow ws).autoFilter = ws.autoFilter :=
  fpBorders_fields_fold maxCol (List.range' 1 endRow) ws

theorem fpHeaderFont_putCell (maxCol : Nat) (ws : Sheet) :
    fpHeaderFont maxCol ws =
      (List.range' 1 maxCol).foldl (fun acc c => acc.putCell 1 c (updHeaderCell c)) ws := by
  unfold fpHeaderFont
  have hstep : ∀ (acc : Sheet) (cc : Nat),
      (acc.setAlignment 1 cc { vertical := some "middle", horizontal := some "center", wrapText := some true }).updateFont 1 cc
        (fun f => { (f.getD {}) with bold := some true, size := some 14, color := some (headerFontColorByCol cc) }) =
      acc.putCell 1 cc (updHeaderCell cc) := by
    intro acc cc
    unfold Sheet.setAlignment Sheet.updateFont
    rw [Sheet.putCell_putCell_same]
    rfl
  simp only [hstep]

theorem fpHeaderFont_colMax (maxCol : Nat) (ws : Sheet) (h : maxCol ≤ ws.colMax) :
    (fpHeaderFont maxCol ws).colMax = ws.colMax := by
  rw [fpHeaderFont_putCell]
  exact foldl_putCell_cols_colMax 1 updHeaderCell (List.range' 1 maxCol) ws
    (fun y hy => by
      have := List.mem_range'_1.mp hy
      omega)

theorem fpHeaderFont_fields (maxCol : Nat) (ws : Sheet) :
    (fpHeaderFont maxCol ws).colWidths = ws.colWidths ∧
    (fpHeaderFont maxCol ws).rowHeights = ws.rowHeights ∧
    (fpHeaderFont maxCol ws).views = ws.views ∧
    (fpHeaderFont maxCol ws).autoFilter = ws.autoFilter := by
  rw [fpHeaderFont_putCell]
  exact foldl_putCell_cols_fields 1 updHeaderCell (List.range' 1 maxCol) ws

theorem fpBoldCol1_putCell (endRow : Nat) (ws : Sheet) :
    fpBoldCol1 endRow ws =
      (List.range' 1 endRow).foldl (fun acc r => acc.putCell r 1 updBoldFont) ws := by
  unfold fpBoldCol1 Sheet.updateFont
  rfl

theorem fpBoldCol1_colMax (endRow : Nat) (ws : Sheet) (h : 1 ≤ ws.colMax) :
    (fpBoldCol1 endRow ws).colMax = ws.colMax := by
  rw [fpBoldCol1_putCell]
  exact foldl_putCell_rows_colMax 1 (fun _ => updBoldFont) (List.range' 1 endRow) ws h

theorem fpBoldCol1_fields (endRow : Nat) (ws : Sheet) :
    (fpBoldCol1 endRow ws).colWidths = ws.colWidths ∧
    (fpBoldCol1 endRow ws).rowHeights = ws.rowHeights ∧
    (fpBoldCol1 endRow ws).views = ws.views ∧
    (fpBoldCol1 endRow ws).autoFilter = ws.autoFilter := by
  rw [fpBoldCol1_putCell]
  exact foldl_putCell_rows_fields 1 (fun _ => updBoldFont) (List.range' 1 endRow) ws

theorem formatPipeline_colMax (ws : Sheet) (lastRow : Nat) (h1 : 1 ≤ ws.colMax) :
    (formatPipeline ws lastRow).colMax = ws.colMax := by
  have hmc : min CANDIDATE_MAX_COLUMNS ws.colMax ≤ ws.colMax := Nat.min_le_right _ _
  unfold formatPipeline
  set M := min CANDIDATE_MAX_COLUMNS ws.colMax with hM
  set E := max 1 lastRow with hE
  set W1 := fpWidths M ws with hW1
  set W2 := fpBorders M E W1 with hW2
  set W3 := fillHeaderRange M 1 10 HEADER_COLOR_A_J W2 with hW3
  set W4 := fillHeaderRange M 11 11 HEADER_COLOR_K_V_AF W3 with hW4
  set W5 := fillHeaderRange M 22 32 HEADER_COLOR_K_V_AF W4 with hW5
  set W6 := fillHeaderRange M 12 21 HEADER_COLOR_L_U_AG_AL W5 with hW6
  set W7 := fillHeaderRange M 33 38 HEADER_COLOR_L_U_AG_AL W6 with hW7
  set W8 := W7.setRowHeight 1 32 with hW8
  set W9 := fpHeaderFont M W8 with hW9
  set W10 := fpBoldCol1 E W9 with hW10
  have c1 : W1.colMax = ws.colMax := (foldl_setColWidth_char _ _ _).2.2.1
  have c2 : W2.colMax = ws.colMax :=
    (fpBorders_colMax M E W1 (by rw [c1]; exact hmc)).trans c1
  have c3 : W3.colMax = ws.colMax :=
    (fillHeaderRange_colMax M 1 10 _ W2 (by rw [c2]; exact hmc)).trans c2
  have c4 : W4.colMax = ws.colMax :=
    (fillHeaderRange_colMax M 11 11 _ W3 (by rw [c3]; exact hmc)).trans c3
  have c5 : W5.colMax = ws.colMax :=
    (fillHeaderRange_colMax M 22 32 _ W4 (by rw [c4]; exact hmc)).trans c4
  have c6 : W6.colMax = ws.colMax :=
    (fillHeaderRange_colMax M 12 21 _ W5 (by rw [c5]; exact hmc)).trans c5
  have c7 : W7.colMax = ws.colMax :=
    (fillHeaderRange_colMax M 33 38 _ W6 (by rw [c6]; exact hmc)).trans c6
  have c8 : W8.colMax = ws.colMax := c7
  have c9 : W9.colMax = ws.colMax :=
    (fpHeaderFont_colMax M W8 (by rw [c8]; exact hmc)).trans c8
  have c10 : W10.colMax = ws.colMax :=
    (fpBoldCol1_colMax E W9 (by rw [c9]; exact h1)).trans c9
  exact c10

theorem formatPipeline_colWidths (ws : Sheet) (lastRow : Nat) :
    (formatPipeline ws lastRow).colWidths =
      (List.range' 1 (min CANDIDATE_MAX_COLUMNS ws.colMax)).foldl
        (fun l c => updateAssoc c (fun _ => CANDIDATE_WIDTH) l) ws.colWidths := by
  unfold formatPipeline
  set M := min CANDIDATE_MAX_COLUMNS ws.colMax with hM
  set E := max 1 lastRow with hE
  set W1 := fpWidths M ws with hW1
  set W2 := fpBorders M E W1 with hW2
  set W3 := fillHeaderRange M 1 10 HEADER_COLOR_A_J W2 with hW3
  set W4 := fillHeaderRange M 11 11 HEADER_COLOR_K_V_AF W3 with hW4
  set W5 := fillHeaderRange M 22 32 HEADER_COLOR_K_V_AF W4 with hW5
  set W6 := fillHeaderRange M 12 21 HEADER_COLOR_L_U_AG_AL W5 with hW6
  set W7 := fillHeaderRange M 33 38 HEADER_COLOR_L_U_AG_AL W6 with hW7
  set W8 := W7.setRowHeight 1 32 with hW8
  set W9 := fpHeaderFont M W8 with hW9
  set W10 := fpBoldCol1 E W9 with hW10
  have c1 : W1.colWidths = (List.range' 1 M).foldl
      (fun l c => updateAssoc c (fun _ => CANDIDATE_WIDTH) l) ws.colWidths :=
    (foldl_setColWidth_char _ _ _).2.2.2.2.2.2
  have c2 : W2.colWidths = W1.colWidths := (fpBorders_fields M E W1).1
  have c3 : W3.colWidths = W2.colWidths := (fillHeaderRange_fields M 1 10 _ W2).1
  have c4 : W4.colWidths = W3.colWidths := (fillHeaderRange_fields M 11 11 _ W3).1
  have c5 : W5.colWidths = W4.colWidths := (fillHeaderRange_fields M 22 32 _ W4).1
  have c6 : W6.colWidths = W5.colWidths := (fillHeaderRange_fields M 12 21 _ W5).1
  have c7 : W7.colWidths = W6.colWidths := (fillHeaderRange_fields M 33 38 _ W6).1
  have c8 : W8.colWidths = W7.colWidths := rfl
  have c9 : W9.colWidths = W8.colWidths := (fpHeaderFont_fields M W8).1
  have c10 : W10.colWidths = W9.colWidths := (fpBoldCol1_fields E W9).1
  show W10.colWidths = _
  rw [c10, c9, c8, c7, c6, c5, c4, c3, c2, c1]

theorem formatPipeline_rowHeights (ws : Sheet) (lastRow : Nat) :
    (formatPipeline ws lastRow).rowHeights = updateAssoc 1 (fun _ => 32) ws.rowHeights := by
  unfold formatPipeline
  set M := min CANDIDATE_MAX_COLUMNS ws.colMax with hM
  set E := max 1 lastRow with hE
  set W1 := fpWidths M ws with hW1
  set W2 := fpBorders M E W1 with hW2
  set W3 := fillHeaderRange M 1 10 HEADER_COLOR_A_J W2 with hW3
  set W4 := fillHeaderRange M 11 11 HEADER_COLOR_K_V_AF W3 with hW4
  set W5 := fillHeaderRange M 22 32 HEADER_COLOR_K_V_AF W4 with hW5
  set W6 := fillHeaderRange M 12 21 HEADER_COLOR_L_U_AG_AL W5 with hW6
  set W7 := fillHeaderRange M 33 38 HEADER_COLOR_L_U_AG_AL W6 with hW7
  set W8 := W7.setRowHeight 1 32 with hW8
  set W9 := fpHeaderFont M W8 with hW9
  set W10 := fpBoldCol1 E W9 with hW10
  have c1 : W1.rowHeights = ws.rowHeights := (foldl_setColWidth_char _ _ _).2.2.2.1
  have c2 : W2.rowHeights = W1.rowHeights := (fpBorders_fields M E W1).2.1
  have c3 : W3.rowHeights = W2.rowHeights := (fillHeaderRange_fields M 1 10 _ W2).2.1
  have c4 : W4.rowHeights = W3.rowHeights := (fillHeaderRange_fields M 11 11 _ W3).2.1
  have c5 : W5.rowHeights = W4.rowHeights := (fillHeaderRange_fields M 22 32 _ W4).2.1
  have c6 : W6.rowHeights = W5.rowHeights := (fillHeaderRange_fields M 12 21 _ W5).2.1
  have c7 : W7.rowHeights = W6.rowHeights := (fillHeaderRange_fields M 33 38 _ W6).2.1
  have c8 : W8.rowHeights = updateAssoc 1 (fun _ => 32) W7.rowHeights := rfl
  have c9 : W9.rowHeights = W8.rowHeights := (fpHeaderFont_fields M W8).2.1
  have c10 : W10.rowHeights = W9.rowHeights := (fpBoldCol1_fields E W9).2.1
  show W10.rowHeights = _
  rw [c10, c9, c8, c7, c6, c5, c4, c3, c2, c1]

theorem formatPipeline_views (ws : Sheet) (lastRow : Nat) :
    (formatPipeline ws lastRow).views = [{ state := "frozen", ySplit := 1 }] := rfl

theorem formatPipeline_autoFilter (ws : Sheet) (lastRow : Nat) :
    (formatPipeline ws lastRow).autoFilter =
      some ("A1", colLetter (min CANDIDATE_MAX_COLUMNS ws.colMax) ++ "1") := rfl

-- ==================================================
-- The per-cell transform, field by field
-- ==================================================

theorem condUpd_of_pos (P : Prop) [Decidable P] (u : Cell → Cell) (x : Cell) (h : P) :
    condUpd P u x = u x := if_pos h

theorem condUpd_of_neg (P : Prop) [Decidable P] (u : Cell → Cell) (x : Cell) (h : ¬P) :
    condUpd P u x = x := if_neg h

theorem condUpd_value (P : Prop) [Decidable P] (u : Cell → Cell) (x : Cell)
    (h : ∀ y, (u y).value = y.value) : (condUpd P u x).value = x.value := by
  unfold condUpd
  split
  · exact h x
  · rfl

theorem condUpd_dv (P : Prop) [Decidable P] (u : Cell → Cell) (x : Cell)
    (h : ∀ y, (u y).dataValidation = y.dataValidation) :
    (condUpd P u x).dataValidation = x.dataValidation := by
  unfold condUpd
  split
  · exact h x
  · rfl

theorem condUpd_numFmt (P : Prop) [Decidable P] (u : Cell → Cell) (x : Cell)
    (h : ∀ y, (u y).style.numFmt = y.style.numFmt) :
    (condUpd P u x).style.numFmt = x.style.numFmt := by
  unfold condUpd
  split
  · exact h x
  · rfl

theorem condUpd_border (P : Prop) [Decidable P] (u : Cell → Cell) (x : Cell)
    (h : ∀ y, (u y).style.border = y.style.border) :
    (condUpd P u x).style.border = x.style.border := by
  unfold condUpd
  split
  · exact h x
  · rfl

theorem condUpd_fill (P : Prop) [Decidable P] (u : Cell → Cell) (x : Cell)
    (h : ∀ y, (u y).style.fill = y.style.fill) :
    (condUpd P u x).style.fill = x.style.fill := by
  unfold condUpd
  split
  · exact h x
  · rfl

theorem condUpd_alignment (P : Prop) [Decidable P] (u : Cell → Cell) (x : Cell)
    (h : ∀ y, (u y).style.alignment = y.style.alignment) :
    (condUpd P u x).style.alignment = x.style.alignment := by
  unfold condUpd
  split
  · exact h x
  · rfl

theorem condUpd_font (P : Prop) [Decidable P] (u : Cell → Cell) (x : Cell)
    (h : ∀ y, (u y).style.font = y.style.font) :
    (condUpd P u x).style.font = x.style.font := by
  unfold condUpd
  split
  · exact h x
  · rfl

theorem fct_value (m e r c : Nat) (x : Cell) :
    (formatCellTransform m e r c x).value = x.value := by
  unfold formatCellTransform
  rw [condUpd_value _ updBoldFont _ (fun y => rfl),
    condUpd_value _ (updHeaderCell c) _ (fun y => rfl),
    condUpd_value _ (updFill HEADER_COLOR_L_U_AG_AL) _ (fun y => rfl),
    condUpd_value _ (updFill HEADER_COLOR_L_U_AG_AL) _ (fun y => rfl),
    condUpd_value _ (updFill HEADER_COLOR_K_V_AF) _ (fun y => rfl),
    condUpd_value _ (updFill HEADER_COLOR_K_V_AF) _ (fun y => rfl),
    condUpd_value _ (updFill HEADER_COLOR_A_J) _ (fun y => rfl),
    condUpd_value _ updBorder _ (fun y => rfl)]

theorem fct_dv (m e r c : Nat) (x : Cell) :
    (formatCellTransform m e r c x).dataValidation = x.dataValidation := by
  unfold formatCellTransform
  rw [condUpd_dv _ updBoldFont _ (fun y => rfl),
    condUpd_dv _ (updHeaderCell c) _ (fun y => rfl),
    condUpd_dv _ (updFill HEADER_COLOR_L_U_AG_AL) _ (fun y => rfl),
    condUpd_dv _ (updFill HEADER_COLOR_L_U_AG_AL) _ (fun y => rfl),
    condUpd_dv _ (updFill HEADER_COLOR_K_V_AF) _ (fun y => rfl),
    condUpd_dv _ (updFill HEADER_COLOR_K_V_AF) _ (fun y => rfl),
    condUpd_dv _ (updFill HEADER_COLOR_A_J) _ (fun y => rfl),
    condUpd_dv _ updBorder _ (fun y => rfl)]

theorem fct_numFmt (m e r c : Nat) (x : Cell) :
    (formatCellTransform m e r c x).style.numFmt = x.style.numFmt := by
  unfold formatCellTransform
  rw [condUpd_numFmt _ updBoldFont _ (fun y => rfl),
    condUpd_numFmt _ (updHeaderCell c) _ (fun y => rfl),
    condUpd_numFmt _ (updFill HEADER_COLOR_L_U_AG_AL) _ (fun y => rfl),
    condUpd_numFmt _ (updFill HEADER_COLOR_L_U_AG_AL) _ (fun y => rfl),
    condUpd_numFmt _ (updFill HEADER_COLOR_K_V_AF) _ (fun y => rfl),
    condUpd_numFmt _ (updFill HEADER_COLOR_K_V_AF) _ (fun y => rfl),
    condUpd_numFmt _ (updFill HEADER_COLOR_A_J) _ (fun y => rfl),
    condUpd_numFmt _ updBorder _ (fun y => rfl)]

theorem fct_border (m e r c : Nat) (x : Cell) :
    (formatCellTransform m e r c x).style.border =
      if 1 ≤ r ∧ r < 1 + e ∧ 1 ≤ c ∧ c < 1 + m then some thinBorder
      else x.style.border := by
  unfold formatCellTransform
  rw [condUpd_border _ updBoldFont _ (fun y => rfl),
    condUpd_border _ (updHeaderCell c) _ (fun y => rfl),
    condUpd_border _ (updFill HEADER_COLOR_L_U_AG_AL) _ (fun y => rfl),
    condUpd_border _ (updFill HEADER_COLOR_L_U_AG_AL) _ (fun y => rfl),
    condUpd_border _ (updFill HEADER_COLOR_K_V_AF) _ (fun y => rfl),
    condUpd_border _ (updFill HEADER_COLOR_K_V_AF) _ (fun y => rfl),
    condUpd_border _ (updFill HEADER_COLOR_A_J) _ (fun y => rfl)]
  by_cases h : 1 ≤ r ∧ r < 1 + e ∧ 1 ≤ c ∧ c < 1 + m
  · rw [condUpd_of_pos _ _ _ h, if_pos h]
    rfl
  · rw [condUpd_of_neg _ _ _ h, if_neg h]

theorem fct_alignment (m e r c : Nat) (x : Cell) :
    (formatCellTransform m e r c x).style.alignment =
      if r = 1 ∧ 1 ≤ c ∧ c < 1 + m then some headerAlign
      else x.style.alignment := by
  unfold formatCellTransform
  rw [condUpd_alignment _ updBoldFont _ (fun y => rfl)]
  by_cases h : r = 1 ∧ 1 ≤ c ∧ c < 1 + m
  · rw [condUpd_of_pos _ _ _ h, if_pos h]
    rfl
  · rw [condUpd_of_neg _ _ _ h, if_neg h,
      condUpd_alignment _ (updFill HEADER_COLOR_L_U_AG_AL) _ (fun y => rfl),
      condUpd_alignment _ (updFill HEADER_COLOR_L_U_AG_AL) _ (fun y => rfl),
      condUpd_alignment _ (updFill HEADER_COLOR_K_V_AF) _ (fun y => rfl),
      condUpd_alignment _ (updFill HEADER_COLOR_K_V_AF) _ (fun y => rfl),
      condUpd_alignment _ (updFill HEADER_COLOR_A_J) _ (fun y => rfl),
      condUpd_alignment _ updBorder _ (fun y => rfl)]

theorem fct_fill (m e r c : Nat) (x : Cell) :
    (formatCellTransform m e r c x).style.fill =
      if r = 1 ∧ 33 ≤ c ∧ c < 33 + (min 38 m + 1 - 33) then some (headerFill HEADER_COLOR_L_U_AG_AL)
      else if r = 1 ∧ 12 ≤ c ∧ c < 12 + (min 21 m + 1 - 12) then some (headerFill HEADER_COLOR_L_U_AG_AL)
      else if r = 1 ∧ 22 ≤ c ∧ c < 22 + (min 32 m + 1 - 22) then some (headerFill HEADER_COLOR_K_V_AF)
      else if r = 1 ∧ 11 ≤ c ∧ c < 11 + (min 11 m + 1 - 11) then some (headerFill HEADER_COLOR_K_V_AF)
      else if r = 1 ∧ 1 ≤ c ∧ c < 1 + (min 10 m + 1 - 1) then some (headerFill HEADER_COLOR_A_J)
      else x.style.fill := by
  unfold formatCellTransform
  rw [condUpd_fill _ updBoldFont _ (fun y => rfl),
    condUpd_fill _ (updHeaderCell c) _ (fun y => rfl)]
  by_cases h6 : r = 1 ∧ 33 ≤ c ∧ c < 33 + (min 38 m + 1 - 33)
  · rw [condUpd_of_pos _ _ _ h6, if_pos h6]
    rfl
  · rw [condUpd_of_neg _ _ _ h6, if_neg h6]
    by_cases h5 : r = 1 ∧ 12 ≤ c ∧ c < 12 + (min 21 m + 1 - 12)
    · rw [condUpd_of_pos _ _ _ h5, if_pos h5]
      rfl
    · rw [condUpd_of_neg _ _ _ h5, if_neg h5]
      by_cases h4 : r = 1 ∧ 22 ≤ c ∧ c < 22 + (min 32 m + 1 - 22)
      · rw [condUpd_of_pos _ _ _ h4, if_pos h4]
        rfl
      · rw [condUpd_of_neg _ _ _ h4, if_neg h4]
        by_cases h3 : r = 1 ∧ 11 ≤ c ∧ c < 11 + (min 11 m + 1 - 11)
        · rw [condUpd_of_pos _ _ _ h3, if_pos h3]
          rfl
        · rw [condUpd_of_neg _ _ _ h3, if_neg h3]
          by_cases h2 : r = 1 ∧ 1 ≤ c ∧ c < 1 + (min 10 m + 1 - 1)
          · rw [condUpd_of_pos _ _ _ h2, if_pos h2]
            rfl
          · rw [condUpd_of_neg _ _ _ h2, if_neg h2,
              condUpd_fill _ updBorder _ (fun y => rfl)]

theorem fct_font (m e r c : Nat) (x : Cell) :
    (formatCellTransform m e r c x).style.font =
      if c = 1 ∧ 1 ≤ r ∧ r < 1 + e then
        some (boldFont (if r = 1 ∧ 1 ≤ c ∧ c < 1 + m then some (hdrFont c x.style.font)
          else x.style.font))
      else if r = 1 ∧ 1 ≤ c ∧ c < 1 + m then some (hdrFont c x.style.font)
      else x.style.font := by
  unfold formatCellTransform
  have hbase : ∀ (y : Cell),
      (condUpd (r = 1 ∧ 33 ≤ c ∧ c < 33 + (min 38 m + 1 - 33)) (updFill HEADER_COLOR_L_U_AG_AL)
        (condUpd (r = 1 ∧ 12 ≤ c ∧ c < 12 + (min 21 m + 1 - 12)) (updFill HEADER_COLOR_L_U_AG_AL)
          (condUpd (r = 1 ∧ 22 ≤ c ∧ c < 22 + (min 32 m + 1 - 22)) (updFill HEADER_COLOR_K_V_AF)
            (condUpd (r = 1 ∧ 11 ≤ c ∧ c < 11 + (min 11 m + 1 - 11)) (updFill HEADER_COLOR_K_V_AF)
              (condUpd (r = 1 ∧ 1 ≤ c ∧ c < 1 + (min 10 m + 1 - 1)) (updFill HEADER_COLOR_A_J)
                (condUpd (1 ≤ r ∧ r < 1 + e ∧ 1 ≤ c ∧ c < 1 + m) updBorder y)))))).style.font =
        y.style.font := by
    intro y
    rw [condUpd_font _ (updFill HEADER_COLOR_L_U_AG_AL) _ (fun z => rfl),
      condUpd_font _ (updFill HEADER_COLOR_L_U_AG_AL) _ (fun z => rfl),
      condUpd_font _ (updFill HEADER_COLOR_K_V_AF) _ (fun z => rfl),
      condUpd_font _ (updFill HEADER_COLOR_K_V_AF) _ (fun z => rfl),
      condUpd_font _ (updFill HEADER_COLOR_A_J) _ (fun z => rfl),
      condUpd_font _ updBorder _ (fun z => rfl)]
  by_cases h8 : c = 1 ∧ 1 ≤ r ∧ r < 1 + e
  · rw [condUpd_of_pos _ _ _ h8, if_pos h8]
    by_cases h7 : r = 1 ∧ 1 ≤ c ∧ c < 1 + m
    · rw [condUpd_of_pos _ _ _ h7, if_pos h7]
      show some (boldFont (updHeaderCell c _).style.font) = _
      rw [show ∀ (y : Cell), (updHeaderCell c y).style.font = some (hdrFont c y.style.font)
        from fun y => rfl, hbase]
    · rw [condUpd_of_neg _ _ _ h7, if_neg h7]
      show some (boldFont _) = _
      rw [hbase]
  · rw [condUpd_of_neg _ _ _ h8, if_neg h8]
    by_cases h7 : r = 1 ∧ 1 ≤ c ∧ c < 1 + m
    · rw [condUpd_of_pos _ _ _ h7, if_pos h7]
      show (updHeaderCell c _).style.font = _
      rw [show ∀ (y : Cell), (updHeaderCell c y).style.font = some (hdrFont c y.style.font)
        from fun y => rfl, hbase]
    · rw [condUpd_of_neg _ _ _ h7, if_neg h7, hbase]

/-- The per-cell format transform is idempotent. -/
theorem formatCellTransform_idem (m e r c : Nat) (x : Cell) :
    formatCellTransform m e r c (formatCellTransform m e r c x) =
      formatCellTransform m e r c x := by
  apply Cell.ext2
  · rw [fct_value, fct_value]
  · apply Style.ext5
    · rw [fct_numFmt, fct_numFmt]
    · rw [fct_font, fct_font]
      by_cases h8 : c = 1 ∧ 1 ≤ r ∧ r < 1 + e
      · simp only [if_pos h8]
        by_cases h7 : r = 1 ∧ 1 ≤ c ∧ c < 1 + m
        · simp only [if_pos h7]
          rfl
        · simp only [if_neg h7]
          rfl
      · simp only [if_neg h8]
        by_cases h7 : r = 1 ∧ 1 ≤ c ∧ c < 1 + m
        · simp only [if_pos h7]
          rfl
        · simp only [if_neg h7]
    · rw [fct_border, fct_border]
      by_cases h1 : 1 ≤ r ∧ r < 1 + e ∧ 1 ≤ c ∧ c < 1 + m
      · simp only [if_pos h1]
      · simp only [if_neg h1]
    · rw [fct_fill, fct_fill]
      by_cases h6 : r = 1 ∧ 33 ≤ c ∧ c < 33 + (min 38 m + 1 - 33)
      · simp only [if_pos h6]
      · simp only [if_neg h6]
        by_cases h5 : r = 1 ∧ 12 ≤ c ∧ c < 12 + (min 21 m + 1 - 12)
        · simp only [if_pos h5]
        · simp only [if_neg h5]
          by_cases h4 : r = 1 ∧ 22 ≤ c ∧ c < 22 + (min 32 m + 1 - 22)
          · simp only [if_pos h4]
          · simp only [if_neg h4]
            by_cases h3 : r = 1 ∧ 11 ≤ c ∧ c < 11 + (min 11 m + 1 - 11)
            · simp only [if_pos h3]
            · simp only [if_neg h3]
              by_cases h2 : r = 1 ∧ 1 ≤ c ∧ c < 1 + (min 10 m + 1 - 1)
              · simp only [if_pos h2]
              · simp only [if_neg h2]
    · rw [fct_alignment, fct_alignment]
      by_cases h7 : r = 1 ∧ 1 ≤ c ∧ c < 1 + m
      · simp only [if_pos h7]
      · simp only [if_neg h7]
  · rw [fct_dv, fct_dv]

/-- C9: the sheet formatting pass is idempotent on any sheet with at least
one column: the first application succeeds, re-applying it to the formatted
sheet succeeds again and leaves every cell (value, number format, font,
border, fill, alignment, data-validation), every column width, every row
height, the frozen view and the autofilter equal to the result of the first
application — for every `lastRow`, including `lastRow` equal to the header
row (empty data set), which does not raise. -/
theorem C9_format_idempotent (ws : Sheet) (lastRow : Nat) (h1 : 1 ≤ ws.colMax) :
    ∃ out, applyCandidateFormattingWithExcelJS ws lastRow = .ok out ∧
      ∃ out2, applyCandidateFormattingWithExcelJS out lastRow = .ok out2 ∧
        (∀ r c, out2.getCell r c = out.getCell r c) ∧
        out2.colWidths = out.colWidths ∧
        out2.rowHeights = out.rowHeights ∧
        out2.views = out.views ∧
        out2.autoFilter = out.autoFilter := by
  have hne : ¬ min CANDIDATE_MAX_COLUMNS ws.colMax = 0 := by
    show ¬ min 38 ws.colMax = 0
    omega
  have hcm : (formatPipeline ws lastRow).colMax = ws.colMax :=
    formatPipeline_colMax ws lastRow h1
  have hne2 : ¬ min CANDIDATE_MAX_COLUMNS (formatPipeline ws lastRow).colMax = 0 := by
    rw [hcm]; exact hne
  refine ⟨formatPipeline ws lastRow, by rw [format_eq, if_neg hne],
    formatPipeline (formatPipeline ws lastRow) lastRow, by rw [format_eq, if_neg hne2],
    ?_, ?_, ?_, ?_, ?_⟩
  · intro r c
    rw [formatPipeline_getCell, formatPipeline_getCell, hcm, formatCellTransform_idem]
  · rw [formatPipeline_colWidths, formatPipeline_colWidths, hcm]
    apply foldl_updateAssoc_const_idem
    intro c hc
    rw [lookup_foldl_updateAssoc_const, if_pos hc]
  · rw [formatPipeline_rowHeights, formatPipeline_rowHeights, updateAssoc_updateAssoc]
  · rw [formatPipeline_views, formatPipeline_views]
  · rw [formatPipeline_autoFilter, formatPipeline_autoFilter, hcm]

/-- C9 witness: the idempotence theorem at `lastRow = 1` (the header row)
on a concrete two-column sheet. -/
theorem C9_format_idempotent_witness :
    1 ≤ witSheetC9.colMax ∧
    ∃ out, applyCandidateFormattingWithExcelJS witSheetC9 1 = .ok out ∧
      ∃ out2, applyCandidateFormattingWithExcelJS out 1 = .ok out2 ∧
        (∀ r c, out2.getCell r c = out.getCell r c) ∧
        out2.colWidths = out.colWidths ∧
        out2.rowHeights = out.rowHeights ∧
        out2.views = out.views ∧
        out2.autoFilter = out.autoFilter :=
  ⟨by decide, C9_format_idempotent witSheetC9 1 (by decide)⟩

-- ==================================================
-- Scan-loop characterization (for the re-upsert replay)
-- ==================================================

theorem scanRow_key_ne (ws : Sheet) (kc : Nat) (B : List (String × Nat)) (st : ScanState)
    (r : Nat) (h : excelCellValueToString (ws.getCell r kc).value ≠ "") :
    scanRow ws kc B st r =
      { keyToRow := updateAssoc (excelCellValueToString (ws.getCell r kc).value)
          (fun _ => r) st.keyToRow
        lastDataRow := r } := by
  unfold scanRow
  simp [h]

theorem scanRow_blank_eq (ws : Sheet) (kc : Nat) (B : List (String × Nat)) (st : ScanState)
    (r : Nat) (h1 : excelCellValueToString (ws.getCell r kc).value = "")
    (h2 : (B.any fun b => excelCellValueToString (ws.getCell r b.2).value ≠ "") = false) :
    scanRow ws kc B st r = st := by
  unfold scanRow
  rw [h2]
  simp [h1]

theorem scanRow_key_empty_base (ws : Sheet) (kc : Nat) (B : List (String × Nat)) (st : ScanState)
    (r : Nat) (h1 : excelCellValueToString (ws.getCell r kc).value = "")
    (h2 : (B.any fun b => excelCellValueToString (ws.getCell r b.2).value ≠ "") = true) :
    scanRow ws kc B st r = { keyToRow := st.keyToRow, lastDataRow := r } := by
  unfold scanRow
  rw [h2]
  simp [h1]

theorem scanRow_lastDataRow_cases (ws : Sheet) (kc : Nat) (B : List (String × Nat))
    (st : ScanState) (r : Nat) :
    (scanRow ws kc B st r).lastDataRow = r ∨
      (scanRow ws kc B st r).lastDataRow = st.lastDataRow := by
  by_cases hk : excelCellValueToString (ws.getCell r kc).value = ""
  · cases hb : (B.any fun b => excelCellValueToString (ws.getCell r b.2).value ≠ "") with
    | false => right; rw [scanRow_blank_eq ws kc B st r hk hb]
    | true => left; rw [scanRow_key_empty_base ws kc B st r hk hb]
  · left; rw [scanRow_key_ne ws kc B st r hk]

theorem scanFold_congr (ws1 ws2 : Sheet) (kc : Nat) (B : List (String × Nat)) :
    ∀ (L : List Nat) (st : ScanState),
      (∀ r ∈ L,
        excelCellValueToString (ws1.getCell r kc).value =
          excelCellValueToString (ws2.getCell r kc).value ∧
        (excelCellValueToString (ws1.getCell r kc).value = "" →
          (B.any fun b => excelCellValueToString (ws1.getCell r b.2).value ≠ "") =
            (B.any fun b => excelCellValueToString (ws2.getCell r b.2).value ≠ ""))) →
      L.foldl (scanRow ws1 kc B) st = L.foldl (scanRow ws2 kc B) st := by
  intro L
  induction L with
  | nil => exact fun st _ => rfl
  | cons rr rest ih =>
    intro st h
    have hrr := h rr (List.mem_cons_self _ _)
    rw [List.foldl_cons, List.foldl_cons]
    have hstep : scanRow ws1 kc B st rr = scanRow ws2 kc B st rr := by
      by_cases hk : excelCellValueToString (ws1.getCell rr kc).value = ""
      · have hk2 : excelCellValueToString (ws2.getCell rr kc).value = "" := by
          rw [← hrr.1]; exact hk
        cases hb : (B.any fun b => excelCellValueToString (ws1.getCell rr b.2).value ≠ "") with
        | false =>
          rw [scanRow_blank_eq ws1 kc B st rr hk hb,
            scanRow_blank_eq ws2 kc B st rr hk2 (by rw [← hrr.2 hk]; exact hb)]
        | true =>
          rw [scanRow_key_empty_base ws1 kc B st rr hk hb,
            scanRow_key_empty_base ws2 kc B st rr hk2 (by rw [← hrr.2 hk]; exact hb)]
      · have hk2 : excelCellValueToString (ws2.getCell rr kc).value ≠ "" := by
          rw [← hrr.1]; exact hk
        rw [scanRow_key_ne ws1 kc B st rr hk, scanRow_key_ne ws2 kc B st rr hk2, hrr.1]
    rw [hstep]
    exact ih _ (fun r hr => h r (List.mem_cons_of_mem _ hr))

theorem scanFold_blank_id (ws : Sheet) (kc : Nat) (B : List (String × Nat)) :
    ∀ (L : List Nat) (st : ScanState),
      (∀ r ∈ L, excelCellValueToString (ws.getCell r kc).value = "" ∧
        (B.any fun b => excelCellValueToString (ws.getCell r b.2).value ≠ "") = false) →
      L.foldl (scanRow ws kc B) st = st := by
  intro L
  induction L with
  | nil => exact fun st _ => rfl
  | cons rr rest ih =>
    intro st h
    rw [List.foldl_cons, scanRow_blank_eq ws kc B st rr (h rr (List.mem_cons_self _ _)).1
      (h rr (List.mem_cons_self _ _)).2]
    exact ih st (fun r hr => h r (List.mem_cons_of_mem _ hr))

theorem scanFold_lastDataRow_mono (ws : Sheet) (kc : Nat) (B : List (String × Nat)) :
    ∀ (L : List Nat) (st : ScanState), (∀ r ∈ L, st.lastDataRow ≤ r) → L.Pairwise (· < ·) →
      st.lastDataRow ≤ (L.foldl (scanRow ws kc B) st).lastDataRow := by
  intro L
  induction L with
  | nil => exact fun st _ _ => le_refl _
  | cons rr rest ih =>
    intro st hle hp
    rw [List.foldl_cons]
    have hpre : ∀ r2 ∈ rest, (scanRow ws kc B st rr).lastDataRow ≤ r2 := by
      intro r2 hr2
      rcases scanRow_lastDataRow_cases ws kc B st rr with hc | hc
      · rw [hc]; exact le_of_lt ((List.pairwise_cons.mp hp).1 r2 hr2)
      · rw [hc]; exact hle r2 (List.mem_cons_of_mem _ hr2)
    have h2 := ih (scanRow ws kc B st rr) hpre (List.pairwise_cons.mp hp).2
    rcases scanRow_lastDataRow_cases ws kc B st rr with hc | hc
    · rw [hc] at h2; exact le_trans (hle rr (List.mem_cons_self _ _)) h2
    · rw [hc] at h2; exact h2

theorem scanFold_lastDataRow_le (ws : Sheet) (kc : Nat) (B : List (String × Nat)) (M : Nat) :
    ∀ (L : List Nat) (st : ScanState), (∀ r ∈ L, r ≤ M) → st.lastDataRow ≤ M →
      (L.foldl (scanRow ws kc B) st).lastDataRow ≤ M := by
  intro L
  induction L with
  | nil => exact fun st _ h => h
  | cons rr rest ih =>
    intro st hb h
    rw [List.foldl_cons]
    apply ih _ (fun r hr => hb r (List.mem_cons_of_mem _ hr))
    rcases scanRow_lastDataRow_cases ws kc B st rr with hc | hc
    · rw [hc]; exact hb rr (List.mem_cons_self _ _)
    · rw [hc]; exact h

theorem scanFold_blank_tail (ws : Sheet) (kc : Nat) (B : List (String × Nat)) :
    ∀ (L : List Nat) (st : ScanState), L.Pairwise (· < ·) →
      (∀ r ∈ L, st.lastDataRow ≤ r) →
      ∀ r ∈ L, (L.foldl (scanRow ws kc B) st).lastDataRow < r →
        excelCellValueToString (ws.getCell r kc).value = "" ∧
        (B.any fun b => excelCellValueToString (ws.getCell r b.2).value ≠ "") = false := by
  intro L
  induction L with
  | nil => intro st _ _ r hr; exact absurd hr (List.not_mem_nil _)
  | cons rr rest ih =>
    intro st hp hle r hr hlt
    rw [List.foldl_cons] at hlt
    have hpre : ∀ r2 ∈ rest, (scanRow ws kc B st rr).lastDataRow ≤ r2 := by
      intro r2 hr2
      rcases scanRow_lastDataRow_cases ws kc B st rr with hc | hc
      · rw [hc]; exact le_of_lt ((List.pairwise_cons.mp hp).1 r2 hr2)
      · rw [hc]; exact hle r2 (List.mem_cons_of_mem _ hr2)
    rcases List.mem_cons.mp hr with hr1 | hr2
    · subst hr1
      by_cases hk : excelCellValueToString (ws.getCell r kc).value = ""
      · cases hb : (B.any fun b => excelCellValueToString (ws.getCell r b.2).value ≠ "") with
        | false => exact ⟨hk, rfl⟩
        | true =>
          exfalso
          have hstep : (scanRow ws kc B st r).lastDataRow = r := by
            rw [scanRow_key_empty_base ws kc B st r hk hb]
          have hmono := scanFold_lastDataRow_mono ws kc B rest (scanRow ws kc B st r)
            hpre (List.pairwise_cons.mp hp).2
          omega
      · exfalso
        have hstep : (scanRow ws kc B st r).lastDataRow = r := by
          rw [scanRow_key_ne ws kc B st r hk]
        have hmono := scanFold_lastDataRow_mono ws kc B rest (scanRow ws kc B st r)
          hpre (List.pairwise_cons.mp hp).2
        omega
    · exact ih (scanRow ws kc B st rr) (List.pairwise_cons.mp hp).2 hpre r hr2 hlt

theorem scanFold_readback (ws : Sheet) (kc : Nat) (B : List (String × Nat)) :
    ∀ (L : List Nat) (st : ScanState),
      (∀ k r, lookupAssoc k st.keyToRow = some r →
        excelCellValueToString (ws.getCell r kc).value = k) →
      ∀ k r, lookupAssoc k (L.foldl (scanRow ws kc B) st).keyToRow = some r →
        excelCellValueToString (ws.getCell r kc).value = k := by
  intro L
  induction L with
  | nil => exact fun st h => h
  | cons rr rest ih =>
    intro st h
    rw [List.foldl_cons]
    apply ih
    intro k r hkr
    by_cases hk : excelCellValueToString (ws.getCell rr kc).value = ""
    · cases hb : (B.any fun b => excelCellValueToString (ws.getCell rr b.2).value ≠ "") with
      | false => rw [scanRow_blank_eq ws kc B st rr hk hb] at hkr; exact h k r hkr
      | true => rw [scanRow_key_empty_base ws kc B st rr hk hb] at hkr; exact h k r hkr
    · rw [scanRow_key_ne ws kc B st rr hk] at hkr
      dsimp only at hkr
      rw [lookupAssoc_updateAssoc] at hkr
      by_cases hkk : k = excelCellValueToString (ws.getCell rr kc).value
      · rw [if_pos hkk] at hkr
        have hrr : rr = r := by injection hkr
        rw [← hrr]
        exact hkk.symm
      · rw [if_neg hkk] at hkr
        exact h k r hkr

theorem anyBase_eq_false (ws : Sheet) (r : Nat) :
    ∀ (B : List (String × Nat)),
      (∀ b ∈ B, excelCellValueToString (ws.getCell r b.2).value = "") →
      (B.any fun b => excelCellValueToString (ws.getCell r b.2).value ≠ "") = false := by
  intro B
  induction B with
  | nil => exact fun _ => rfl
  | cons b rest ih =>
    intro h
    rw [List.any_cons, h b (List.mem_cons_self _ _),
      ih (fun b2 hb2 => h b2 (List.mem_cons_of_mem _ hb2))]
    rfl

theorem lookupAssoc_eq_none_of_forall [DecidableEq κ] (k : κ) :
    ∀ (l : List (κ × ν)), (∀ e ∈ l, e.1 ≠ k) → lookupAssoc k l = none := by
  intro l
  induction l with
  | nil => exact fun _ => rfl
  | cons e rest ih =>
    intro h
    unfold lookupAssoc
    rw [if_neg (h e (List.mem_cons_self _ _))]
    exact ih (fun e2 he2 => h e2 (List.mem_cons_of_mem _ he2))

theorem Sheet.getCell_beyond_rowMax (ws : Sheet) (hWF : ws.WF) (r c : Nat)
    (h : ws.rowMax < r) : ws.getCell r c = defaultCell := by
  unfold Sheet.getCell Sheet.findCell
  rw [lookupAssoc_eq_none_of_forall (r, c) ws.cells]
  · rfl
  · intro e he hek
    have hb := (hWF e he).1
    rw [hek] at hb
    omega

theorem foldl_ops_rowMax_bounds (t : Nat) :
    ∀ (ops : List WriteOp) (ws : Sheet),
      ws.rowMax ≤ (ops.foldl (applyWriteOp t) ws).rowMax ∧
        (ops.foldl (applyWriteOp t) ws).rowMax ≤ max ws.rowMax t := by
  intro ops
  induction ops with
  | nil => exact fun ws => ⟨le_refl _, le_max_left _ _⟩
  | cons op rest ih =>
    intro ws
    rw [List.foldl_cons]
    have hop : (applyWriteOp t ws op).rowMax = max ws.rowMax t := by cases op <;> rfl
    have h2 := ih (applyWriteOp t ws op)
    rw [hop] at h2
    exact ⟨le_trans (le_max_left _ _) h2.1, le_trans h2.2 (by omega)⟩

theorem foldl_ops_colMax_bounds (t : Nat) :
    ∀ (ops : List WriteOp) (ws : Sheet), (∀ op ∈ ops, op.col ≤ 38) →
      ws.colMax ≤ (ops.foldl (applyWriteOp t) ws).colMax ∧
        (ops.foldl (applyWriteOp t) ws).colMax ≤ max ws.colMax 38 := by
  intro ops
  induction ops with
  | nil => exact fun ws _ => ⟨le_refl _, le_max_left _ _⟩
  | cons op rest ih =>
    intro ws hc
    rw [List.foldl_cons]
    have hop : (applyWriteOp t ws op).colMax = max ws.colMax op.col := by cases op <;> rfl
    have hcop : op.col ≤ 38 := hc op (List.mem_cons_self _ _)
    have h2 := ih (applyWriteOp t ws op) (fun o ho => hc o (List.mem_cons_of_mem _ ho))
    rw [hop] at h2
    exact ⟨le_trans (le_max_left _ _) h2.1, le_trans h2.2 (by omega)⟩

theorem AERW_rowMax_of_le (rec : Rec) (B : List (String × Nat)) (t : Nat) (ws : Sheet)
    (h : t ≤ ws.rowMax) :
    (applyExistingRowWrites rec B t ws).rowMax = ws.rowMax := by
  unfold applyExistingRowWrites
  have hb := foldl_ops_rowMax_bounds t (case2Ops rec B t) ws
  omega

theorem AERW_colMax_of_38 (rec : Rec) (B : List (String × Nat)) (t : Nat) (ws : Sheet)
    (hB : ∀ b ∈ B, b.2 ≤ 38) (h : 38 ≤ ws.colMax) :
    (applyExistingRowWrites rec B t ws).colMax = ws.colMax := by
  unfold applyExistingRowWrites
  have hb := foldl_ops_colMax_bounds t (case2Ops rec B t) ws (case2Ops_cols rec B t hB)
  omega

theorem excelCellValueToString_baseWriteVal (v : Option Scalar)
    (h : v.all (fun s => !isJsDate s) = true) :
    excelCellValueToString (baseWriteVal v) = safeStr v := by
  cases v with
  | none => rfl
  | some s =>
    cases s with
    | str a => rfl
    | num a => rfl
    | boolV a => rfl
    | date va sr iso => simp [Option.all, isJsDate] at h

theorem AERW_keyRead (rec : Rec) (t : Nat) (ws : Sheet)
    (h : (recGet rec CANDIDATE_KEY).all (fun s => !isJsDate s) = true) :
    excelCellValueToString
        ((applyExistingRowWrites rec candBaseInfo t ws).getCell t 7).value =
      safeStr (recGet rec CANDIDATE_KEY) := by
  have hv := AERW_base_value rec t ws (CANDIDATE_KEY, 7) (by decide)
  rw [hv]
  exact excelCellValueToString_baseWriteVal _ h

theorem scanSheet_readback (ws : Sheet) (kc : Nat) (B : List (String × Nat)) :
    ∀ k r, lookupAssoc k (scanSheet ws kc B).keyToRow = some r →
      excelCellValueToString (ws.getCell r kc).value = k := by
  unfold scanSheet
  exact scanFold_readback ws kc B _ _ (fun k r h => absurd h (by simp [lookupAssoc]))

theorem scanSheet_blank_tail (ws : Sheet) (kc : Nat) (B : List (String × Nat)) (r : Nat)
    (h2 : 2 ≤ r) (hmax : r ≤ ws.rowMax) (hlt : (scanSheet ws kc B).lastDataRow < r) :
    excelCellValueToString (ws.getCell r kc).value = "" ∧
    (B.any fun b => excelCellValueToString (ws.getCell r b.2).value ≠ "") = false := by
  unfold scanSheet at hlt
  exact scanFold_blank_tail ws kc B (List.range' 2 (ws.rowMax - 1))
    { keyToRow := [], lastDataRow := 1 } (List.pairwise_lt_range' 2 _)
    (by intro r2 hr2; have := List.mem_range'_1.mp hr2; show 1 ≤ r2; omega)
    r (List.mem_range'_1.mpr ⟨h2, by omega⟩) hlt

theorem scanSheet_lastDataRow_le (ws : Sheet) (kc : Nat) (B : List (String × Nat))
    (h : 1 ≤ ws.rowMax) : (scanSheet ws kc B).lastDataRow ≤ ws.rowMax := by
  unfold scanSheet
  apply scanFold_lastDataRow_le ws kc B ws.rowMax
  · intro r hr
    have := List.mem_range'_1.mp hr
    omega
  · exact h

theorem range'_split_at (a L R : Nat) (h1 : a ≤ L + 1) (h2 : L + 1 ≤ R) :
    List.range' a (R + 1 - a) =
      List.range' a (L + 1 - a) ++ [L + 1] ++ List.range' (L + 2) (R - (L + 1)) := by
  have hA := List.range'_append a (L + 1 - a) (R - L) 1
  rw [show a + 1 * (L + 1 - a) = L + 1 from by omega] at hA
  have hB := List.range'_append (L + 1) 1 (R - (L + 1)) 1
  rw [show L + 1 + 1 * 1 = L + 2 from by omega] at hB
  rw [List.append_assoc, show ([L + 1] : List Nat) = List.range' (L + 1) 1 from rfl, hB,
    show R - (L + 1) + 1 = R - L from by omega, hA]
  congr 1
  omega

theorem range'_split_blank (a L R : Nat) (h1 : a ≤ L + 1) (h2 : L ≤ R) :
    List.range' a (R + 1 - a) =
      List.range' a (L + 1 - a) ++ List.range' (L + 1) (R - L) := by
  have hA := List.range'_append a (L + 1 - a) (R - L) 1
  rw [show a + 1 * (L + 1 - a) = L + 1 from by omega] at hA
  rw [hA]
  congr 1
  omega

theorem RowBlank_congr (ws1 ws2 : Sheet) (r : Nat)
    (h : ∀ c, ws1.getCell r c = ws2.getCell r c) (hb : RowBlank ws2 r) : RowBlank ws1 r := by
  unfold RowBlank at hb ⊢
  constructor
  · rw [h 7]
    exact hb.1
  · simp only [h]
    exact hb.2

theorem lastKeyRec_cons_right (k : String) (rec recL : Rec) (rest : List Rec)
    (h : lastKeyRec k rest = some recL) :
    lastKeyRec k (rec :: rest) = some recL := by
  show (match lastKeyRec k rest with
    | some r => some r
    | none => if safeStr (recGet rec CANDIDATE_KEY) = k then some rec else none) = some recL
  rw [h]

theorem lastKeyRec_cons_none (k : String) (rec : Rec) (rest : List Rec)
    (h : lastKeyRec k rest = none) :
    lastKeyRec k (rec :: rest) =
      if safeStr (recGet rec CANDIDATE_KEY) = k then some rec else none := by
  show (match lastKeyRec k rest with
    | some r => some r
    | none => if safeStr (recGet rec CANDIDATE_KEY) = k then some rec else none) = _
  rw [h]

theorem lastKeyRec_mem (k : String) (recL : Rec) :
    ∀ l, lastKeyRec k l = some recL →
      recL ∈ l ∧ safeStr (recGet recL CANDIDATE_KEY) = k := by
  intro l
  induction l with
  | nil => intro h; exact absurd h (by unfold lastKeyRec; simp)
  | cons rec rest ih =>
    intro h
    cases hrest : lastKeyRec k rest with
    | some r =>
      rw [lastKeyRec_cons_right k rec r rest hrest] at h
      have hr : r = recL := by injection h
      subst hr
      have := ih hrest
      exact ⟨List.mem_cons_of_mem _ this.1, this.2⟩
    | none =>
      rw [lastKeyRec_cons_none k rec rest hrest] at h
      by_cases hkr : safeStr (recGet rec CANDIDATE_KEY) = k
      · rw [if_pos hkr] at h
        have hr : rec = recL := by injection h
        subst hr
        exact ⟨List.mem_cons_self _ _, hkr⟩
      · rw [if_neg hkr] at h
        exact absurd h (by simp)

theorem lastKeyRec_exists_of_mem (k : String) (rec0 : Rec) :
    ∀ l, rec0 ∈ l → safeStr (recGet rec0 CANDIDATE_KEY) = k →
      ∃ recL, lastKeyRec k l = some recL := by
  intro l
  induction l with
  | nil => intro h; exact absurd h (List.not_mem_nil _)
  | cons rec rest ih =>
    intro hmem hk0
    cases hrest : lastKeyRec k rest with
    | some r => exact ⟨r, lastKeyRec_cons_right k rec r rest hrest⟩
    | none =>
      rcases List.mem_cons.mp hmem with h1 | h2
      · subst h1
        refine ⟨rec0, ?_⟩
        rw [lastKeyRec_cons_none k rec0 rest hrest, if_pos hk0]
      · obtain ⟨recL, hL⟩ := ih h2 hk0
        rw [hrest] at hL
        exact absurd hL (by simp)

/-- Cell-level absorption: the outcome of one record's target-row rewrite
does not depend on another record's earlier rewrite of the same row. -/
theorem foldl_cellops_absorb (rec1 rec2 : Rec) (r c : Nat) (X : Sheet) :
    (case2Ops rec2 candBaseInfo r).foldl (applyWriteOpCell c)
      ((case2Ops rec1 candBaseInfo r).foldl (applyWriteOpCell c) (X.getCell r c)) =
    (case2Ops rec2 candBaseInfo r).foldl (applyWriteOpCell c) (X.getCell r c) := by
  have h := getCell_AERW_absorb rec1 rec2 candBaseInfo r X X r c rfl
  unfold applyExistingRowWrites at h
  rw [getCell_foldl_ops, getCell_foldl_ops, getCell_foldl_ops] at h
  exact h

/-- One record-loop step preserves the replay invariant; rows held by other
keys are untouched, and the processed record's own key ends up indexed at a
row whose cells read as a fresh target-row rewrite of that record. -/
theorem processRecord_UpInv (st : UpState) (rec : Rec)
    (hinv : UpInv st)
    (hnd : (recGet rec CANDIDATE_KEY).all (fun s => !isJsDate s) = true) :
    UpInv (processRecord candBaseInfo 38 st rec) ∧
    st.lastDataRow ≤ (processRecord candBaseInfo 38 st rec).lastDataRow ∧
    (∀ k2 ρ2, k2 ≠ safeStr (recGet rec CANDIDATE_KEY) →
      lookupAssoc k2 st.keyToRow = some ρ2 →
      lookupAssoc k2 (processRecord candBaseInfo 38 st rec).keyToRow = some ρ2 ∧
        ∀ c, (processRecord candBaseInfo 38 st rec).ws.getCell ρ2 c = st.ws.getCell ρ2 c) ∧
    (safeStr (recGet rec CANDIDATE_KEY) ≠ "" →
      ∃ ρ W, lookupAssoc (safeStr (recGet rec CANDIDATE_KEY))
          (processRecord candBaseInfo 38 st rec).keyToRow = some ρ ∧
        ∀ c, (processRecord candBaseInfo 38 st rec).ws.getCell ρ c =
          (applyExistingRowWrites rec candBaseInfo ρ W).getCell ρ c) := by
  obtain ⟨hscan, hblank, hrmax, hr1⟩ := hinv
  have hsi := scanSheet_inv st.ws 7 candBaseInfo
  rw [hscan] at hsi
  have hL1 : 1 ≤ st.lastDataRow := hsi.1
  have hread : ∀ k r, lookupAssoc k st.keyToRow = some r →
      excelCellValueToString (st.ws.getCell r 7).value = k := by
    intro k r hkr
    apply scanSheet_readback st.ws 7 candBaseInfo
    rw [hscan]
    exact hkr
  by_cases hk : safeStr (recGet rec CANDIDATE_KEY) = ""
  · rw [processRecord_empty_key candBaseInfo 38 st rec hk]
    exact ⟨⟨hscan, hblank, hrmax, hr1⟩, le_refl _,
      fun k2 ρ2 _ h2 => ⟨h2, fun c => rfl⟩, fun hkn => absurd hk hkn⟩
  · rw [processRecord_eq candBaseInfo 38 st rec hk]
    cases hl : lookupAssoc (safeStr (recGet rec CANDIDATE_KEY)) st.keyToRow with
    | some ρ =>
      dsimp only
      have hρ : 2 ≤ ρ ∧ ρ ≤ st.lastDataRow := hsi.2 _ _ hl
      have hρrm : ρ ≤ st.ws.rowMax := le_trans hρ.2 hrmax
      have hfr : ∀ r' c, r' ≠ ρ →
          (applyExistingRowWrites rec candBaseInfo ρ st.ws).getCell r' c =
            st.ws.getCell r' c := by
        intro r' c hne
        unfold applyExistingRowWrites
        exact getCell_foldl_ops_ne_row ρ _ st.ws r' c hne
      have hrm : (applyExistingRowWrites rec candBaseInfo ρ st.ws).rowMax = st.ws.rowMax :=
        AERW_rowMax_of_le rec candBaseInfo ρ st.ws hρrm
      have hkeyρ : excelCellValueToString
          ((applyExistingRowWrites rec candBaseInfo ρ st.ws).getCell ρ 7).value =
            safeStr (recGet rec CANDIDATE_KEY) := AERW_keyRead rec ρ st.ws hnd
      have hkeyρ0 : excelCellValueToString (st.ws.getCell ρ 7).value =
          safeStr (recGet rec CANDIDATE_KEY) := hread _ ρ hl
      have hscan' : scanSheet (applyExistingRowWrites rec candBaseInfo ρ st.ws) 7 candBaseInfo =
          scanSheet st.ws 7 candBaseInfo := by
        unfold scanSheet
        rw [hrm]
        apply scanFold_congr
        intro r hr
        by_cases hrρ : r = ρ
        · subst hrρ
          refine ⟨by rw [hkeyρ, hkeyρ0], fun hemp => ?_⟩
          rw [hkeyρ] at hemp
          exact absurd hemp hk
        · have hfr' : ∀ c, (applyExistingRowWrites rec candBaseInfo ρ st.ws).getCell r c =
              st.ws.getCell r c := fun c => hfr r c hrρ
          exact ⟨by rw [hfr' 7], fun _ => by simp only [hfr']⟩
      refine ⟨⟨?_, ?_, ?_, ?_⟩, le_refl _, ?_, ?_⟩
      · rw [hscan', hscan]
      · intro r hr
        have hr' : st.lastDataRow < r := hr
        exact RowBlank_congr _ st.ws r (fun c => hfr r c (by omega)) (hblank r hr')
      · rw [hrm]
        exact hrmax
      · rw [hrm]
        exact hr1
      · intro k2 ρ2 hk2 h2
        refine ⟨h2, fun c => hfr ρ2 c ?_⟩
        intro heq
        subst heq
        exact hk2 ((hread k2 ρ2 h2).symm.trans hkeyρ0)
      · intro _
        exact ⟨ρ, st.ws, hl, fun c => rfl⟩
    | none =>
      dsimp only
      have hfrC : ∀ r' c, r' ≠ st.lastDataRow + 1 →
          (if 2 ≤ st.lastDataRow then
            cloneCandidateRowTemplate st.ws st.lastDataRow (st.lastDataRow + 1) 38
           else st.ws).getCell r' c = st.ws.getCell r' c := by
        intro r' c hne
        by_cases hcl : 2 ≤ st.lastDataRow
        · rw [if_pos hcl,
            cloneCandidateRowTemplate_getCell st.ws st.lastDataRow (st.lastDataRow + 1) 38
              (by omega) r' c, if_neg (by rintro ⟨h1, _⟩; exact hne h1)]
        · rw [if_neg hcl]
      have hframe : ∀ r' c, r' ≠ st.lastDataRow + 1 →
          (applyExistingRowWrites rec candBaseInfo (st.lastDataRow + 1)
            (writeJRNo rec (st.lastDataRow + 1)
              (resetRangeNulls (st.lastDataRow + 1)
                (if 2 ≤ st.lastDataRow then
                  cloneCandidateRowTemplate st.ws st.lastDataRow (st.lastDataRow + 1) 38
                 else st.ws)))).getCell r' c = st.ws.getCell r' c := by
        intro r' c hne
        unfold applyExistingRowWrites
        rw [getCell_foldl_ops_ne_row _ _ _ r' c hne,
          writeJRNo_getCell_ne _ _ _ r' c (by rintro ⟨h1, _⟩; exact hne h1),
          resetRangeNulls_getCell, if_neg (by rintro ⟨h1, _⟩; exact hne h1)]
        exact hfrC r' c hne
      have hrmR : (resetRangeNulls (st.lastDataRow + 1)
          (if 2 ≤ st.lastDataRow then
            cloneCandidateRowTemplate st.ws st.lastDataRow (st.lastDataRow + 1) 38
           else st.ws)).rowMax = max st.ws.rowMax (st.lastDataRow + 1) := by
        rw [resetRangeNulls_rowMax]
        by_cases hcl : 2 ≤ st.lastDataRow
        · rw [if_pos hcl, cloneCandidateRowTemplate_rowMax st.ws _ _ 38 (by omega)]
          omega
        · rw [if_neg hcl]
      have hrmJ : (writeJRNo rec (st.lastDataRow + 1)
          (resetRangeNulls (st.lastDataRow + 1)
            (if 2 ≤ st.lastDataRow then
              cloneCandidateRowTemplate st.ws st.lastDataRow (st.lastDataRow + 1) 38
             else st.ws))).rowMax = max st.ws.rowMax (st.lastDataRow + 1) := by
        have := writeJRNo_rowMax rec (st.lastDataRow + 1)
          (resetRangeNulls (st.lastDataRow + 1)
            (if 2 ≤ st.lastDataRow then
              cloneCandidateRowTemplate st.ws st.lastDataRow (st.lastDataRow + 1) 38
             else st.ws))
        rw [hrmR] at this
        omega
      have hrmA : (applyExistingRowWrites rec candBaseInfo (st.lastDataRow + 1)
          (writeJRNo rec (st.lastDataRow + 1)
            (resetRangeNulls (st.lastDataRow + 1)
              (if 2 ≤ st.lastDataRow then
                cloneCandidateRowTemplate st.ws st.lastDataRow (st.lastDataRow + 1) 38
               else st.ws)))).rowMax = max st.ws.rowMax (st.lastDataRow + 1) := by
        rw [AERW_rowMax_of_le _ _ _ _ (by rw [hrmJ]; omega), hrmJ]
      have hkeyt : excelCellValueToString
          ((applyExistingRowWrites rec candBaseInfo (st.lastDataRow + 1)
            (writeJRNo rec (st.lastDataRow + 1)
              (resetRangeNulls (st.lastDataRow + 1)
                (if 2 ≤ st.lastDataRow then
                  cloneCandidateRowTemplate st.ws st.lastDataRow (st.lastDataRow + 1) 38
                 else st.ws)))).getCell (st.lastDataRow + 1) 7).value =
            safeStr (recGet rec CANDIDATE_KEY) :=
        AERW_keyRead rec (st.lastDataRow + 1) _ hnd
      have hpart : (List.range' 2 (st.lastDataRow + 1 - 2)).foldl
          (scanRow st.ws 7 candBaseInfo) { keyToRow := [], lastDataRow := 1 } =
          { keyToRow := st.keyToRow, lastDataRow := st.lastDataRow } := by
        have hdec0 := range'_split_blank 2 st.lastDataRow st.ws.rowMax (by omega) hrmax
        rw [show st.ws.rowMax + 1 - 2 = st.ws.rowMax - 1 from by omega] at hdec0
        unfold scanSheet at hscan
        rw [hdec0, List.foldl_append, scanFold_blank_id] at hscan
        · exact hscan
        · intro r hr
          have hmem := List.mem_range'_1.mp hr
          have hb := hblank r (by omega)
          unfold RowBlank at hb
          exact hb
      have hscan' : scanSheet (applyExistingRowWrites rec candBaseInfo (st.lastDataRow + 1)
          (writeJRNo rec (st.lastDataRow + 1)
            (resetRangeNulls (st.lastDataRow + 1)
              (if 2 ≤ st.lastDataRow then
                cloneCandidateRowTemplate st.ws st.lastDataRow (st.lastDataRow + 1) 38
               else st.ws)))) 7 candBaseInfo =
          { keyToRow := updateAssoc (safeStr (recGet rec CANDIDATE_KEY))
              (fun _ => st.lastDataRow + 1) st.keyToRow
            lastDataRow := st.lastDataRow + 1 } := by
        unfold scanSheet
        rw [hrmA]
        have hdec := range'_split_at 2 st.lastDataRow (max st.ws.rowMax (st.lastDataRow + 1))
          (by omega) (by omega)
        rw [show max st.ws.rowMax (st.lastDataRow + 1) + 1 - 2 =
          max st.ws.rowMax (st.lastDataRow + 1) - 1 from by omega] at hdec
        rw [hdec, List.foldl_append, List.foldl_append]
        rw [scanFold_congr _ st.ws 7 candBaseInfo (List.range' 2 (st.lastDataRow + 1 - 2)) _
          (by
            intro r hr
            have hmem := List.mem_range'_1.mp hr
            have hfr' : ∀ c, (applyExistingRowWrites rec candBaseInfo (st.lastDataRow + 1)
                (writeJRNo rec (st.lastDataRow + 1)
                  (resetRangeNulls (st.lastDataRow + 1)
                    (if 2 ≤ st.lastDataRow then
                      cloneCandidateRowTemplate st.ws st.lastDataRow (st.lastDataRow + 1) 38
                     else st.ws)))).getCell r c = st.ws.getCell r c :=
              fun c => hframe r c (by omega)
            exact ⟨by rw [hfr' 7], fun _ => by simp only [hfr']⟩)]
        rw [hpart, List.foldl_cons, List.foldl_nil,
          scanRow_key_ne _ 7 candBaseInfo _ _ (by rw [hkeyt]; exact hk)]
        dsimp only
        rw [hkeyt]
        apply scanFold_blank_id
        intro r hr
        have hmem := List.mem_range'_1.mp hr
        have hb := RowBlank_congr _ st.ws r (fun c => hframe r c (by omega))
          (hblank r (by omega))
        unfold RowBlank at hb
        exact hb
      refine ⟨⟨?_, ?_, ?_, ?_⟩, Nat.le_succ _, ?_, ?_⟩
      · exact hscan'
      · intro r hr
        have hr' : st.lastDataRow + 1 < r := hr
        exact RowBlank_congr _ st.ws r (fun c => hframe r c (by omega))
          (hblank r (by omega))
      · rw [hrmA]
        exact le_max_right _ _
      · rw [hrmA]
        exact le_trans hr1 (le_max_left _ _)
      · intro k2 ρ2 hk2 h2
        have hρ2 : 2 ≤ ρ2 ∧ ρ2 ≤ st.lastDataRow := hsi.2 _ _ h2
        refine ⟨?_, fun c => hframe ρ2 c (by omega)⟩
        rw [lookupAssoc_updateAssoc, if_neg hk2]
        exact h2
      · intro _
        refine ⟨st.lastDataRow + 1,
          writeJRNo rec (st.lastDataRow + 1)
            (resetRangeNulls (st.lastDataRow + 1)
              (if 2 ≤ st.lastDataRow then
                cloneCandidateRowTemplate st.ws st.lastDataRow (st.lastDataRow + 1) 38
               else st.ws)), ?_, fun c => rfl⟩
        rw [lookupAssoc_updateAssoc, if_pos rfl]

/-- The whole record loop preserves the replay invariant; when no key is a
JS `Date`, each key present in the batch ends up indexed at a row whose
cells read as a fresh target-row rewrite of the LAST record carrying that
key (last-write-wins), and rows of unprocessed keys are untouched. -/
theorem foldl_processRecord_UpInv :
    ∀ (recs : List Rec) (st : UpState), UpInv st →
      (∀ rec ∈ recs, (recGet rec CANDIDATE_KEY).all (fun s => !isJsDate s) = true) →
      UpInv (recs.foldl (processRecord candBaseInfo 38) st) ∧
      (∀ k ρ, (∀ rec ∈ recs, safeStr (recGet rec CANDIDATE_KEY) = "" ∨
          k ≠ safeStr (recGet rec CANDIDATE_KEY)) →
        lookupAssoc k st.keyToRow = some ρ →
        lookupAssoc k (recs.foldl (processRecord candBaseInfo 38) st).keyToRow = some ρ ∧
          ∀ c, (recs.foldl (processRecord candBaseInfo 38) st).ws.getCell ρ c =
            st.ws.getCell ρ c) ∧
      (∀ k recL, k ≠ "" → lastKeyRec k recs = some recL →
        ∃ ρ W, lookupAssoc k
            (recs.foldl (processRecord candBaseInfo 38) st).keyToRow = some ρ ∧
          ∀ c, (recs.foldl (processRecord candBaseInfo 38) st).ws.getCell ρ c =
            (applyExistingRowWrites recL candBaseInfo ρ W).getCell ρ c) := by
  intro recs
  induction recs with
  | nil =>
    exact fun st hinv _ => ⟨hinv, fun k ρ _ h => ⟨h, fun c => rfl⟩,
      fun k recL _ h => Option.noConfusion h⟩
  | cons rec rest ih =>
    intro st hinv hnd
    rw [List.foldl_cons]
    have hstep := processRecord_UpInv st rec hinv (hnd rec (List.mem_cons_self _ _))
    have hihfull := ih (processRecord candBaseInfo 38 st rec) hstep.1
      (fun r2 h2 => hnd r2 (List.mem_cons_of_mem _ h2))
    refine ⟨hihfull.1, ?_, ?_⟩
    · intro k ρ hks h
      have hkrec := hks rec (List.mem_cons_self _ _)
      have hstep3 : lookupAssoc k (processRecord candBaseInfo 38 st rec).keyToRow = some ρ ∧
          ∀ c, (processRecord candBaseInfo 38 st rec).ws.getCell ρ c = st.ws.getCell ρ c := by
        rcases hkrec with hke | hkne
        · rw [processRecord_empty_key candBaseInfo 38 st rec hke]
          exact ⟨h, fun c => rfl⟩
        · exact hstep.2.2.1 k ρ hkne h
      have hrest := hihfull.2.1 k ρ (fun r2 h2 => hks r2 (List.mem_cons_of_mem _ h2)) hstep3.1
      exact ⟨hrest.1, fun c => (hrest.2 c).trans (hstep3.2 c)⟩
    · intro k recL hk hlast
      cases hrest : lastKeyRec k rest with
      | some r =>
        rw [lastKeyRec_cons_right k rec r rest hrest] at hlast
        have hr : r = recL := by injection hlast
        rw [← hr]
        exact hihfull.2.2 k r hk hrest
      | none =>
        rw [lastKeyRec_cons_none k rec rest hrest] at hlast
        by_cases hkr : safeStr (recGet rec CANDIDATE_KEY) = k
        · rw [if_pos hkr] at hlast
          have hr : rec = recL := by injection hlast
          have hkne : safeStr (recGet rec CANDIDATE_KEY) ≠ "" := by rw [hkr]; exact hk
          obtain ⟨ρ, W, hlook, hcells⟩ := hstep.2.2.2 hkne
          rw [hkr] at hlook
          have hside : ∀ r3 ∈ rest, safeStr (recGet r3 CANDIDATE_KEY) = "" ∨
              k ≠ safeStr (recGet r3 CANDIDATE_KEY) := by
            intro r3 h3
            by_cases he : safeStr (recGet r3 CANDIDATE_KEY) = ""
            · exact Or.inl he
            · refine Or.inr ?_
              intro heq
              obtain ⟨recL2, hL2⟩ := lastKeyRec_exists_of_mem k r3 rest h3 heq.symm
              rw [hrest] at hL2
              exact Option.noConfusion hL2
          have hrest2 := hihfull.2.1 k ρ hside hlook
          refine ⟨ρ, W, hrest2.1, fun c => (hrest2.2 c).trans ?_⟩
          rw [← hr]
          exact hcells c
        · rw [if_neg hkr] at hlast
          exact Option.noConfusion hlast

theorem writeHeaderRow_getCell_stable (headerOrder : List String) (S : Sheet)
    (hhdr : ∀ c, 1 ≤ c → c ≤ 38 →
      (S.getCell 1 c).value = .scal (.str (headerOrder.getD (c - 1) ""))) :
    ∀ r c, (writeHeaderRow headerOrder 38 S).getCell r c = S.getCell r c := by
  intro r c
  rw [writeHeaderRow_getCell]
  by_cases h : r = 1 ∧ 1 ≤ c ∧ c ≤ 38
  · rw [if_pos h]
    obtain ⟨hr1, hc1, hc38⟩ := h
    subst hr1
    apply Cell.ext2
    · exact (hhdr c hc1 hc38).symm
    · rfl
    · rfl
  · rw [if_neg h]

theorem headerAndTruncate_stable (headerOrder : List String) (S : Sheet)
    (hcm : S.colMax = 38) (hrm1 : 1 ≤ S.rowMax)
    (hhdr : ∀ c, 1 ≤ c → c ≤ 38 →
      (S.getCell 1 c).value = .scal (.str (headerOrder.getD (c - 1) ""))) :
    (∀ r c, (headerAndTruncate headerOrder 38 S).getCell r c = S.getCell r c) ∧
    (headerAndTruncate headerOrder 38 S).rowMax = S.rowMax ∧
    (headerAndTruncate headerOrder 38 S).colMax = 38 := by
  have hnc : ¬(38 < (writeHeaderRow headerOrder 38 S).colMax) := by
    rw [writeHeaderRow_colMax, hcm]
    omega
  refine ⟨?_, ?_, headerAndTruncate_colMax headerOrder 38 S⟩
  · intro r c
    unfold headerAndTruncate
    rw [if_neg hnc]
    exact writeHeaderRow_getCell_stable headerOrder S hhdr r c
  · rw [headerAndTruncate_rowMax headerOrder 38 S (by omega)]
    omega

theorem scanSheet_congr (ws1 ws2 : Sheet) (kc : Nat) (B : List (String × Nat))
    (hg : ∀ r c, ws1.getCell r c = ws2.getCell r c) (hrm : ws1.rowMax = ws2.rowMax) :
    scanSheet ws1 kc B = scanSheet ws2 kc B := by
  unfold scanSheet
  rw [hrm]
  apply scanFold_congr
  intro r hr
  exact ⟨by rw [hg r kc], fun _ => by simp only [hg]⟩

/-- Replaying the record loop over the first run's result: every record
finds its key already indexed, so each write lands on the row the first
run used.  A row written by several records with the same key converges
back to the first run's state when its last record writes (absorption),
and the final worksheet is unchanged cell-for-cell. -/
theorem foldl_processRecord_replay (S1 : Sheet) (K1 : List (String × Nat)) (L1 : Nat)
    (hKbound : ∀ k ρ, lookupAssoc k K1 = some ρ → 2 ≤ ρ ∧ ρ ≤ L1)
    (hL1 : L1 ≤ S1.rowMax) :
    ∀ (recs : List Rec) (st : UpState),
      st.ws.rowMax = S1.rowMax → st.ws.colMax = 38 →
      st.keyToRow = K1 → st.lastDataRow = L1 →
      (∀ k recL, k ≠ "" → lastKeyRec k recs = some recL →
        ∃ (ρ : Nat) (W : Sheet), lookupAssoc k K1 = some ρ ∧
          ∀ c, S1.getCell ρ c =
            (case2Ops recL candBaseInfo ρ).foldl (applyWriteOpCell c) (W.getCell ρ c)) →
      (∀ r, (∀ rec' ∈ recs, safeStr (recGet rec' CANDIDATE_KEY) = "" ∨
          lookupAssoc (safeStr (recGet rec' CANDIDATE_KEY)) K1 ≠ some r) →
        ∀ c, st.ws.getCell r c = S1.getCell r c) →
      (∀ r, (∀ c, st.ws.getCell r c = S1.getCell r c) ∨
        ∃ recA, ∀ c, st.ws.getCell r c =
          (case2Ops recA candBaseInfo r).foldl (applyWriteOpCell c) (S1.getCell r c)) →
      (∀ r c, (recs.foldl (processRecord candBaseInfo 38) st).ws.getCell r c =
        S1.getCell r c) ∧
      (recs.foldl (processRecord candBaseInfo 38) st).ws.rowMax = S1.rowMax ∧
      (recs.foldl (processRecord candBaseInfo 38) st).ws.colMax = 38 ∧
      (recs.foldl (processRecord candBaseInfo 38) st).keyToRow = K1 ∧
      (recs.foldl (processRecord candBaseInfo 38) st).lastDataRow = L1 := by
  intro recs
  induction recs with
  | nil =>
    intro st h2 h3 h4 h5 _ hii _
    exact ⟨fun r c => hii r (fun rec' h' => absurd h' (List.not_mem_nil _)) c, h2, h3, h4, h5⟩
  | cons rec rest ih =>
    intro st hrm hcmst hkt hldr hE hii hiii
    rw [List.foldl_cons]
    by_cases hk : safeStr (recGet rec CANDIDATE_KEY) = ""
    · rw [processRecord_empty_key candBaseInfo 38 st rec hk]
      apply ih st hrm hcmst hkt hldr
      · intro k recL hk2 hlast
        exact hE k recL hk2 (lastKeyRec_cons_right k rec recL rest hlast)
      · intro r hnr
        apply hii r
        intro rec' h'
        rcases List.mem_cons.mp h' with h1 | h2
        · subst h1
          exact Or.inl hk
        · exact hnr rec' h2
      · exact hiii
    · obtain ⟨recL0, hL0⟩ := lastKeyRec_exists_of_mem (safeStr (recGet rec CANDIDATE_KEY))
        rec (rec :: rest) (List.mem_cons_self _ _) rfl
      obtain ⟨ρ, W0, hlook, hS1row⟩ := hE _ recL0 hk hL0
      have hρb := hKbound _ _ hlook
      rw [processRecord_eq candBaseInfo 38 st rec hk, hkt]
      simp only [hlook]
      apply ih
      · show (applyExistingRowWrites rec candBaseInfo ρ st.ws).rowMax = S1.rowMax
        rw [AERW_rowMax_of_le rec candBaseInfo ρ st.ws (by rw [hrm]; omega)]
        exact hrm
      · show (applyExistingRowWrites rec candBaseInfo ρ st.ws).colMax = 38
        rw [AERW_colMax_of_38 rec candBaseInfo ρ st.ws (by decide) (le_of_eq hcmst.symm)]
        exact hcmst
      · exact rfl
      · exact hldr
      · intro k recL hk2 hlast
        exact hE k recL hk2 (lastKeyRec_cons_right k rec recL rest hlast)
      · intro r hnr c
        show (applyExistingRowWrites rec candBaseInfo ρ st.ws).getCell r c = S1.getCell r c
        by_cases hrρ : r = ρ
        · subst hrρ
          have hknotin : lastKeyRec (safeStr (recGet rec CANDIDATE_KEY)) rest = none := by
            cases hcase : lastKeyRec (safeStr (recGet rec CANDIDATE_KEY)) rest with
            | none => rfl
            | some recL2 =>
              have hm := lastKeyRec_mem _ recL2 rest hcase
              rcases hnr recL2 hm.1 with he | hne
              · rw [hm.2] at he
                exact absurd he hk
              · rw [hm.2] at hne
                exact absurd hlook hne
          have hL0c : lastKeyRec (safeStr (recGet rec CANDIDATE_KEY)) (rec :: rest) =
              some rec := by
            rw [lastKeyRec_cons_none _ rec rest hknotin, if_pos rfl]
          have hrr : recL0 = rec := by
            have h2 := hL0c.symm.trans hL0
            injection h2 with h3
            exact h3.symm
          rw [hrr] at hS1row
          have e1 : (applyExistingRowWrites rec candBaseInfo r st.ws).getCell r c =
              (case2Ops rec candBaseInfo r).foldl (applyWriteOpCell c) (st.ws.getCell r c) := by
            unfold applyExistingRowWrites
            exact getCell_foldl_ops r _ st.ws c
          have hmid : (case2Ops rec candBaseInfo r).foldl (applyWriteOpCell c)
              (st.ws.getCell r c) =
              (case2Ops rec candBaseInfo r).foldl (applyWriteOpCell c) (S1.getCell r c) := by
            rcases hiii r with hc1 | ⟨recA, hc2⟩
            · rw [hc1 c]
            · rw [hc2 c, foldl_cellops_absorb recA rec r c S1]
          have hfin : (case2Ops rec candBaseInfo r).foldl (applyWriteOpCell c)
              (S1.getCell r c) = S1.getCell r c := by
            rw [hS1row c]
            exact foldl_cellops_absorb rec rec r c W0
          exact e1.trans (hmid.trans hfin)
        · have hne : (applyExistingRowWrites rec candBaseInfo ρ st.ws).getCell r c =
              st.ws.getCell r c := by
            unfold applyExistingRowWrites
            exact getCell_foldl_ops_ne_row ρ _ st.ws r c hrρ
          rw [hne]
          apply hii r
          intro rec' h'
          rcases List.mem_cons.mp h' with h1 | h2
          · subst h1
            refine Or.inr ?_
            intro heq
            rw [hlook] at heq
            injection heq with h3
            exact hrρ h3.symm
          · exact hnr rec' h2
      · intro r
        by_cases hrρ : r = ρ
        · subst hrρ
          refine Or.inr ⟨rec, fun c => ?_⟩
          show (applyExistingRowWrites rec candBaseInfo r st.ws).getCell r c = _
          have e1 : (applyExistingRowWrites rec candBaseInfo r st.ws).getCell r c =
              (case2Ops rec candBaseInfo r).foldl (applyWriteOpCell c) (st.ws.getCell r c) := by
            unfold applyExistingRowWrites
            exact getCell_foldl_ops r _ st.ws c
          rcases hiii r with hc1 | ⟨recA, hc2⟩
          · rw [e1, hc1 c]
          · rw [e1, hc2 c, foldl_cellops_absorb recA rec r c S1]
        · have hne : ∀ c, (applyExistingRowWrites rec candBaseInfo ρ st.ws).getCell r c =
              st.ws.getCell r c := by
            intro c
            unfold applyExistingRowWrites
            exact getCell_foldl_ops_ne_row ρ _ st.ws r c hrρ
          rcases hiii r with hc1 | ⟨recA, hc2⟩
          · refine Or.inl fun c => ?_
            show (applyExistingRowWrites rec candBaseInfo ρ st.ws).getCell r c = _
            rw [hne c, hc1 c]
          · refine Or.inr ⟨recA, fun c => ?_⟩
            show (applyExistingRowWrites rec candBaseInfo ρ st.ws).getCell r c = _
            rw [hne c, hc2 c]

set_option maxHeartbeats 1000000 in
set_option maxRecDepth 10000 in
/-- C5 (amended): re-running upsert with the same batch on the result of
the first run leaves the grid identical — same returned cursor, same cells
everywhere, same row and column counts — provided the header order
resolves the key to column 7 and the base columns to columns 1–10 (as the
canonical order does) and no record's key value is a JS `Date` (a `Date`
key is re-read through `toISOString`, never matches itself, and duplicates
its row).  Batches with repeated keys are covered: on both runs the last
record carrying a key wins its row. -/
theorem C5_idempotent_rerun (ws : Sheet) (incoming : List Rec) (headerOrder : List String)
    (hWF : ws.WF)
    (hlen : headerOrder.length = 38)
    (hkc : lookupAssoc CANDIDATE_KEY (buildColByHeader headerOrder 38) = some 7)
    (hbc : candBaseColsInfo (buildColByHeader headerOrder 38) = candBaseInfo)
    (hnd : ∀ rec ∈ incoming, (recGet rec CANDIDATE_KEY).all (fun s => !isJsDate s) = true) :
    (upsertCandidateSheetWithExcelJS (upsertCandidateSheetWithExcelJS ws incoming headerOrder).2
        incoming headerOrder).1 =
      (upsertCandidateSheetWithExcelJS ws incoming headerOrder).1 ∧
    (∀ r c, (upsertCandidateSheetWithExcelJS
          (upsertCandidateSheetWithExcelJS ws incoming headerOrder).2
          incoming headerOrder).2.getCell r c =
        (upsertCandidateSheetWithExcelJS ws incoming headerOrder).2.getCell r c) ∧
    (upsertCandidateSheetWithExcelJS (upsertCandidateSheetWithExcelJS ws incoming headerOrder).2
        incoming headerOrder).2.rowMax =
      (upsertCandidateSheetWithExcelJS ws incoming headerOrder).2.rowMax ∧
    (upsertCandidateSheetWithExcelJS (upsertCandidateSheetWithExcelJS ws incoming headerOrder).2
        incoming headerOrder).2.colMax =
      (upsertCandidateSheetWithExcelJS ws incoming headerOrder).2.colMax := by
  have h38 : CANDIDATE_MAX_COLUMNS = 38 := rfl
  have hmin : min CANDIDATE_MAX_COLUMNS headerOrder.length = 38 := by omega
  unfold upsertCandidateSheetWithExcelJS
  rw [hmin, if_neg (by omega), if_neg (by omega)]
  simp only [hkc]
  rw [hbc]
  generalize hws2 : headerAndTruncate headerOrder 38 ws = ws2
  generalize hsc : scanSheet ws2 7 candBaseInfo = sc
  have hws2cm : ws2.colMax = 38 := by
    rw [← hws2]
    exact headerAndTruncate_colMax headerOrder 38 ws
  have hws2rm : ws2.rowMax = max ws.rowMax 1 := by
    rw [← hws2]
    exact headerAndTruncate_rowMax headerOrder 38 ws (by omega)
  have hws2rm1 : 1 ≤ ws2.rowMax := by omega
  have hws2get : ∀ r c, ws2.getCell r c =
      if c ≤ 38 then
        if r = 1 ∧ 1 ≤ c then
          { ws.getCell 1 c with value := .scal (.str (headerOrder.getD (c - 1) "")) }
        else ws.getCell r c
      else defaultCell := by
    intro r c
    rw [← hws2]
    exact headerAndTruncate_getCell headerOrder 38 ws hWF r c
  have hhdr2 : ∀ c, 1 ≤ c → c ≤ 38 →
      (ws2.getCell 1 c).value = .scal (.str (headerOrder.getD (c - 1) "")) := by
    intro c h1 hc
    rw [hws2get 1 c, if_pos hc, if_pos ⟨rfl, h1⟩]
  have hsc1 : 1 ≤ sc.lastDataRow := by
    rw [← hsc]
    exact (scanSheet_inv ws2 7 candBaseInfo).1
  have hblank2 : ∀ r, sc.lastDataRow < r → RowBlank ws2 r := by
    intro r hr
    by_cases hrm : r ≤ ws2.rowMax
    · have hbt := scanSheet_blank_tail ws2 7 candBaseInfo r (by omega) hrm
        (by rw [hsc]; exact hr)
      exact ⟨hbt.1, hbt.2⟩
    · have hbeyond : ∀ c, c ≤ 38 → ws2.getCell r c = defaultCell := by
        intro c hc
        rw [hws2get r c, if_pos hc, if_neg (by rintro ⟨hr1, _⟩; omega)]
        exact Sheet.getCell_beyond_rowMax ws hWF r c (by omega)
      constructor
      · rw [hbeyond 7 (by omega)]
        rfl
      · apply anyBase_eq_false
        intro b hb
        rw [hbeyond b.2 (by fin_cases hb <;> decide)]
        rfl
  have hinv0 : UpInv { ws := ws2, keyToRow := sc.keyToRow, lastDataRow := sc.lastDataRow } := by
    refine ⟨?_, fun r hr => hblank2 r hr, ?_, hws2rm1⟩
    · show scanSheet ws2 7 candBaseInfo = { keyToRow := sc.keyToRow, lastDataRow := sc.lastDataRow }
      rw [hsc]
    · show sc.lastDataRow ≤ ws2.rowMax
      rw [← hsc]
      exact scanSheet_lastDataRow_le ws2 7 candBaseInfo hws2rm1
  have hsi0 : StInv { ws := ws2, keyToRow := sc.keyToRow, lastDataRow := sc.lastDataRow } := by
    have hh := scanSheet_inv ws2 7 candBaseInfo
    rw [hsc] at hh
    exact ⟨hh.1, hh.2⟩
  have hUp := foldl_processRecord_UpInv incoming
    { ws := ws2, keyToRow := sc.keyToRow, lastDataRow := sc.lastDataRow } hinv0 hnd
  have hFrame := foldl_processRecord_frame candBaseInfo 38 (by decide) (by omega) (by omega)
    incoming { ws := ws2, keyToRow := sc.keyToRow, lastDataRow := sc.lastDataRow } hsi0
  generalize hfin : incoming.foldl (processRecord candBaseInfo 38)
      { ws := ws2, keyToRow := sc.keyToRow, lastDataRow := sc.lastDataRow } = fin at hUp hFrame ⊢
  obtain ⟨hinvF, hpres, hE⟩ := hUp
  obtain ⟨hinvS, hmono, hrow1, hbeyond38, hcolMaxF⟩ := hFrame
  obtain ⟨hscanF, hblankF, hrmF, hrm1F⟩ := hinvF
  have hcmF : fin.ws.colMax = 38 := by
    rw [hcolMaxF (le_of_eq hws2cm.symm)]
    exact hws2cm
  have hhdrF : ∀ c, 1 ≤ c → c ≤ 38 →
      (fin.ws.getCell 1 c).value = .scal (.str (headerOrder.getD (c - 1) "")) := by
    intro c h1 hc
    rw [hrow1 c]
    exact hhdr2 c h1 hc
  have hstab := headerAndTruncate_stable headerOrder fin.ws hcmF hrm1F hhdrF
  generalize hws2b : headerAndTruncate headerOrder 38 fin.ws = ws2b at hstab ⊢
  have hsc2 : scanSheet ws2b 7 candBaseInfo =
      { keyToRow := fin.keyToRow, lastDataRow := fin.lastDataRow } := by
    rw [scanSheet_congr _ fin.ws 7 candBaseInfo hstab.1 hstab.2.1]
    exact hscanF
  rw [hsc2]
  dsimp only
  have hKb : ∀ k ρ, lookupAssoc k fin.keyToRow = some ρ → 2 ≤ ρ ∧ ρ ≤ fin.lastDataRow := by
    have hh := scanSheet_inv fin.ws 7 candBaseInfo
    rw [hscanF] at hh
    exact hh.2
  have hE2 : ∀ k recL, k ≠ "" → lastKeyRec k incoming = some recL →
      ∃ (ρ : Nat) (W : Sheet), lookupAssoc k fin.keyToRow = some ρ ∧
        ∀ c, fin.ws.getCell ρ c =
          (case2Ops recL candBaseInfo ρ).foldl (applyWriteOpCell c) (W.getCell ρ c) := by
    intro k recL hk2 hlast
    obtain ⟨ρ, W, hlook, hcells⟩ := hE k recL hk2 hlast
    refine ⟨ρ, W, hlook, fun c => ?_⟩
    rw [hcells c]
    unfold applyExistingRowWrites
    exact getCell_foldl_ops ρ _ W c
  have hreplay := foldl_processRecord_replay fin.ws fin.keyToRow fin.lastDataRow hKb hrmF
    incoming
    { ws := ws2b
      keyToRow := fin.keyToRow
      lastDataRow := fin.lastDataRow }
    hstab.2.1 hstab.2.2 rfl rfl hE2
    (fun r _ c => hstab.1 r c) (fun r => Or.inl fun c => hstab.1 r c)
  refine ⟨?_, ?_, ?_, ?_⟩
  · rw [hreplay.2.2.2.2]
  · intro r c
    rw [hreplay.1 r c]
  · rw [hreplay.2.1]
  · rw [hreplay.2.2.1]
    exact hcmF.symm

set_option maxRecDepth 100000 in
set_option maxHeartbeats 2000000 in
/-- C5 counterexample: a record whose key value is a JS `Date` defeats
re-run idempotence.  Run 1 writes the `Date` object into the key cell;
run 2's key-index scan reads it back through `toISOString()`, which never
equals the `String(date)` form the incoming key is matched under, so the
record misses its own row and a duplicate is allocated: the returned
cursor moves from 2 to 3 and the same key value sits in rows 2 and 3. -/
theorem C5_rerun_counterexample :
    (upsertCandidateSheetWithExcelJS {} [cexDateRec] CANDIDATE_OUTPUT_HEADER_ORDER).1 =
      .ok 2 ∧
    (upsertCandidateSheetWithExcelJS
        (upsertCandidateSheetWithExcelJS {} [cexDateRec] CANDIDATE_OUTPUT_HEADER_ORDER).2
        [cexDateRec] CANDIDATE_OUTPUT_HEADER_ORDER).1 = .ok 3 ∧
    ((upsertCandidateSheetWithExcelJS
        (upsertCandidateSheetWithExcelJS {} [cexDateRec] CANDIDATE_OUTPUT_HEADER_ORDER).2
        [cexDateRec] CANDIDATE_OUTPUT_HEADER_ORDER).2.getCell 3 7).value =
      ((upsertCandidateSheetWithExcelJS {} [cexDateRec]
        CANDIDATE_OUTPUT_HEADER_ORDER).2.getCell 2 7).value :=
  ⟨rfl, rfl, by decide⟩

/-- C5 witness: the amended idempotence theorem at a one-record batch with
a plain string key over the empty sheet. -/
theorem C5_idempotent_rerun_witness :
    ({} : Sheet).WF ∧ CANDIDATE_OUTPUT_HEADER_ORDER.length = 38 ∧
    (∀ rec ∈ [witC6Rec1], (recGet rec CANDIDATE_KEY).all (fun s => !isJsDate s) = true) ∧
    (upsertCandidateSheetWithExcelJS
        (upsertCandidateSheetWithExcelJS {} [witC6Rec1] CANDIDATE_OUTPUT_HEADER_ORDER).2
        [witC6Rec1] CANDIDATE_OUTPUT_HEADER_ORDER).1 =
      (upsertCandidateSheetWithExcelJS {} [witC6Rec1] CANDIDATE_OUTPUT_HEADER_ORDER).1 :=
  ⟨by unfold Sheet.WF; decide, by decide, by decide,
    (C5_idempotent_rerun {} [witC6Rec1] CANDIDATE_OUTPUT_HEADER_ORDER
      (by unfold Sheet.WF; decide) (by decide) keyCol_canonical baseColsInfo_canonical
      (by decide)).1⟩

end RecCx
